import Mathlib

/-!
Formal model of the `clarity-audit-suite` compiler front end and static
analyzer, transcribed from the TypeScript sources:

* `src/parser/lexer.ts`          — `ClarityLexer`
* `src/parser/parser.ts`         — `EnhancedClarityParser`
* semantic analyzer              — `EnhancedSemanticAnalyzer`
* enhanced static analyzer       — `EnhancedStaticAnalyzer`
* parser service                 — `EnhancedClarityParserService.parseText`

Modelling conventions, used throughout:

* TypeScript strings are `String` / `List Char`; `charAt` out of range
  returns the empty string in JS, which we model as the NUL character
  (sources are assumed not to contain NUL, which no branch of the lexer
  recognizes, so the two behave identically in every dispatch).
* JS `Map`s are association lists in insertion order; `Map.set` guarded by
  a `Map.has` check (the only use in these sources) is modelled as an
  append of a fresh key, and in-place record mutation as positional update.
* The parser can genuinely fail to terminate (this is the subject of one
  of the theorems below), so every parser function takes a fuel argument
  and returns `none` when the fuel is exhausted; a run that terminates in
  the TypeScript code returns `some` for every sufficiently large fuel.
* AST nodes carry source ranges and cached annotation fields
  (`isBuiltin`, `isExternal`, `canFail`, `sideEffects`,
  `callsExternal`, `modifiesState`) in the TypeScript code.  The cached
  annotations are pure functions of the node that the semantic analyzer
  writes back into the tree; we model them as the corresponding pure
  functions, applied at every site where the analyzer reads the cache.
  Source ranges decorate diagnostics only and are dropped from AST nodes
  (tokens and errors keep their locations).
-/

namespace ClarityAudit

/-! ## Tokens (`src/parser/types.ts`, token contract) -/

inductive TokenType where
  | lparen | rparen | lbrace | rbrace | dot | comma | colon
  | identifier | keyword
  | uint | int | bool | stringAscii | stringUtf8 | buff | principal
  | eof | comment | whitespace | newline
deriving Repr, DecidableEq

structure SourceLocation where
  line : Nat
  column : Nat
  offset : Nat
deriving Repr, DecidableEq

structure Token where
  type : TokenType
  value : String
  location : SourceLocation
  raw : String
deriving Repr, DecidableEq

/-! ## Lexer (`src/parser/lexer.ts`, `ClarityLexer`) -/

/-- JS `''` from an out-of-range `charAt`, modelled as NUL. -/
def nulChar : Char := Char.ofNat 0

/-- Keyword set of `ClarityLexer.keywords`. -/
def lexerKeywords : List String :=
  ["define-constant", "define-private", "define-public", "define-read-only",
   "define-map", "define-data-var", "define-non-fungible-token", "define-fungible-token",
   "define-trait", "use-trait", "impl-trait",
   "let", "begin", "if", "match", "try", "unwrap!", "unwrap-panic",
   "ok", "err", "some", "none", "true", "false",
   "and", "or", "not", "is-eq", "is-some", "is-none", "is-ok", "is-err",
   "map-get?", "map-set", "map-insert", "map-delete",
   "var-get", "var-set",
   "contract-call?", "as-contract", "tx-sender", "contract-caller",
   "block-height", "stx-get-balance", "stx-transfer?",
   "ft-mint?", "ft-transfer?", "ft-burn?", "ft-get-balance",
   "nft-mint?", "nft-transfer?", "nft-burn?", "nft-get-owner?",
   "asserts!", "print", "list", "append", "concat", "len",
   "filter", "map", "fold", "element-at", "index-of",
   "get", "merge", "tuple", "default-to",
   "+", "-", "*", "/", "mod", "pow", "sqrti",
   "<", "<=", ">", ">=", "to-int", "to-uint",
   "buff-to-int-be", "buff-to-int-le", "buff-to-uint-be", "buff-to-uint-le",
   "int-to-ascii", "int-to-utf8", "string-to-int?", "string-to-uint?",
   "principal-of?", "principal-construct?"]

structure LexState where
  source : List Char
  position : Nat
  line : Nat
  column : Nat
  tokens : List Token
deriving Repr

/-- `this.source.charAt(p)` (empty string out of range ↦ NUL). -/
def charAt (src : List Char) (p : Nat) : Char := src.getD p nulChar

/-- `ClarityLexer.isAtEnd`. -/
def lexIsAtEnd (s : LexState) : Bool := decide (s.position ≥ s.source.length)

/-- `ClarityLexer.advance` (returns the consumed char and the new state). -/
def lexAdvance (s : LexState) : Char × LexState :=
  (charAt s.source s.position,
   { s with position := s.position + 1, column := s.column + 1 })

/-- `ClarityLexer.peek`. -/
def lexPeek (s : LexState) : Char :=
  if lexIsAtEnd s then nulChar else charAt s.source s.position

/-- `ClarityLexer.isDigit`. -/
def isDigitChar (c : Char) : Bool := decide ('0' ≤ c) && decide (c ≤ '9')

/-- `ClarityLexer.isHexDigit`. -/
def isHexDigitChar (c : Char) : Bool :=
  (decide ('0' ≤ c) && decide (c ≤ '9')) ||
  (decide ('a' ≤ c) && decide (c ≤ 'f')) ||
  (decide ('A' ≤ c) && decide (c ≤ 'F'))

/-- `ClarityLexer.isAlpha`. -/
def isAlphaChar (c : Char) : Bool :=
  (decide ('a' ≤ c) && decide (c ≤ 'z')) ||
  (decide ('A' ≤ c) && decide (c ≤ 'Z'))

/-- `ClarityLexer.isAlphaNumeric`. -/
def isAlphaNumericChar (c : Char) : Bool := isAlphaChar c || isDigitChar c

/-- The extended identifier symbol set from `scanToken`/`scanIdentifier`. -/
def isExtendedSymbolChar (c : Char) : Bool :=
  c == '-' || c == '_' || c == '!' || c == '?' || c == '+' || c == '<' ||
  c == '>' || c == '=' || c == '/' || c == '%' || c == '*'

/-- `ClarityLexer.getCurrentLocation`. -/
def getCurrentLocation (s : LexState) : SourceLocation :=
  { line := s.line, column := s.column, offset := s.position }

/-- `ClarityLexer.addToken` (location and raw default as in the source). -/
def addToken (s : LexState) (type : TokenType) (value : String)
    (location : Option SourceLocation) (raw : Option String) : LexState :=
  { s with tokens := s.tokens ++
      [{ type := type, value := value,
         location := location.getD (getCurrentLocation s),
         raw := raw.getD value }] }

/-- `source.substring(a, b)`. -/
def substr (src : List Char) (a b : Nat) : String :=
  String.mk ((src.drop a).take (b - a))

theorem lt_of_not_lexAtEnd {s : LexState} (h : lexIsAtEnd s = false) :
    s.position < s.source.length := by
  simpa [lexIsAtEnd, Nat.not_le] using h

/-!
The lexer's scanning loops all advance the position while their
continue-condition holds, and every continue-condition fails once the
position reaches the end of the source (`peek` returns NUL there, which
satisfies no continuation predicate, and the conditions that mention
`isAtEnd` test it explicitly).  Each loop is therefore written by
structural recursion on the remaining length `source.length - position`:
when that counter is 0 the position is already at or past the end, where
the loop condition is false anyway, so the bounded and the unbounded loop
coincide on every state.
-/

/-- Loop body of `ClarityLexer.skipComment`. -/
def skipCommentLoopAux : Nat → LexState → LexState
  | 0, s => s
  | n + 1, s =>
    if lexPeek s ≠ '\n' && !lexIsAtEnd s then skipCommentLoopAux n (lexAdvance s).2 else s

def skipCommentLoop (s : LexState) : LexState :=
  skipCommentLoopAux (s.source.length - s.position) s

/-- Loop body of `ClarityLexer.scanString` (tracks line/column on newlines). -/
def scanStringLoopAux : Nat → LexState → LexState
  | 0, s => s
  | n + 1, s =>
    if lexPeek s ≠ '"' && !lexIsAtEnd s then
      scanStringLoopAux n
        (lexAdvance (if lexPeek s = '\n' then { s with line := s.line + 1, column := 1 } else s)).2
    else s

def scanStringLoop (s : LexState) : LexState :=
  scanStringLoopAux (s.source.length - s.position) s

/-- Digit-consuming loop of `scanNumber`/`scanUint`. -/
def digitsLoopAux : Nat → LexState → LexState
  | 0, s => s
  | n + 1, s => if isDigitChar (lexPeek s) then digitsLoopAux n (lexAdvance s).2 else s

def digitsLoop (s : LexState) : LexState :=
  digitsLoopAux (s.source.length - s.position) s

/-- Hex-digit-consuming loop of `scanHexBuffer`. -/
def hexLoopAux : Nat → LexState → LexState
  | 0, s => s
  | n + 1, s => if isHexDigitChar (lexPeek s) then hexLoopAux n (lexAdvance s).2 else s

def hexLoop (s : LexState) : LexState :=
  hexLoopAux (s.source.length - s.position) s

/-- Loop body of `scanPrincipal`. -/
def principalLoopAux : Nat → LexState → LexState
  | 0, s => s
  | n + 1, s =>
    if !lexIsAtEnd s && lexPeek s ≠ ' ' && lexPeek s ≠ ')' && lexPeek s ≠ '\n' then
      principalLoopAux n (lexAdvance s).2
    else s

def principalLoop (s : LexState) : LexState :=
  principalLoopAux (s.source.length - s.position) s

/-- Loop body of `scanIdentifier`. -/
def identLoopAux : Nat → LexState → LexState
  | 0, s => s
  | n + 1, s =>
    if isAlphaNumericChar (lexPeek s) || isExtendedSymbolChar (lexPeek s) then
      identLoopAux n (lexAdvance s).2
    else s

def identLoop (s : LexState) : LexState :=
  identLoopAux (s.source.length - s.position) s

/-- `ClarityLexer.scanString` (entered after the opening quote is consumed). -/
def scanString (s : LexState) : LexState :=
  let start := s.position - 1
  let startLocation : SourceLocation :=
    { line := s.line, column := s.column - 1, offset := s.position }
  let isUtf8 := decide (s.position ≥ 2) && (charAt s.source (s.position - 2) == 'u')
  let s1 := scanStringLoop s
  if lexIsAtEnd s1 then s1  -- unterminated string: no token
  else
    let s2 := (lexAdvance s1).2  -- consume closing quote
    let value := substr s2.source (start + 1) (s2.position - 1)
    let raw := substr s2.source start s2.position
    addToken s2 (if isUtf8 then .stringUtf8 else .stringAscii) value
      (some startLocation) (some raw)

/-- `ClarityLexer.scanNumber` (entered after the first digit is consumed). -/
def scanNumber (s : LexState) : LexState :=
  let start := s.position - 1
  let startLocation : SourceLocation :=
    { line := s.line, column := s.column - 1, offset := s.position }
  let s1 := digitsLoop s
  let value := substr s1.source start s1.position
  addToken s1 .int value (some startLocation) none

/-- `ClarityLexer.scanUint` (entered after the leading `u` is consumed). -/
def scanUint (s : LexState) : LexState :=
  let start := s.position - 1
  let startLocation : SourceLocation :=
    { line := s.line, column := s.column - 1, offset := s.position }
  let s1 := digitsLoop s
  let value := substr s1.source (start + 1) s1.position
  let raw := substr s1.source start s1.position
  addToken s1 .uint value (some startLocation) (some raw)

/-- `ClarityLexer.scanHexBuffer` (entered after `0x` is consumed). -/
def scanHexBuffer (s : LexState) : LexState :=
  let start := s.position - 2
  let startLocation : SourceLocation :=
    { line := s.line, column := s.column - 2, offset := s.position }
  let s1 := hexLoop s
  let value := substr s1.source (start + 2) s1.position
  let raw := substr s1.source start s1.position
  addToken s1 .buff value (some startLocation) (some raw)

/-- `ClarityLexer.scanPrincipal` (entered after the leading quote is consumed). -/
def scanPrincipal (s : LexState) : LexState :=
  let start := s.position - 1
  let startLocation : SourceLocation :=
    { line := s.line, column := s.column - 1, offset := s.position }
  let s1 := principalLoop s
  let value := substr s1.source (start + 1) s1.position
  let raw := substr s1.source start s1.position
  addToken s1 .principal value (some startLocation) (some raw)

/-- `ClarityLexer.scanIdentifier` (entered after the first char is consumed). -/
def scanIdentifier (s : LexState) : LexState :=
  let start := s.position - 1
  let startLocation : SourceLocation :=
    { line := s.line, column := s.column - 1, offset := s.position }
  let s1 := identLoop s
  let text := substr s1.source start s1.position
  if text = "true" || text = "false" then
    addToken s1 .bool text (some startLocation) none
  else
    addToken s1 (if lexerKeywords.contains text then .keyword else .identifier)
      text (some startLocation) none

/-- `ClarityLexer.scanToken`: dispatch on the consumed character. -/
def scanToken (s : LexState) : LexState :=
  let startLocation := getCurrentLocation s
  let (c, s1) := lexAdvance s
  if c = ' ' || c = '\r' || c = '\t' then s1
  else if c = '\n' then { s1 with line := s1.line + 1, column := 1 }
  else if c = '(' then addToken s1 .lparen "(" (some startLocation) none
  else if c = ')' then addToken s1 .rparen ")" (some startLocation) none
  else if c = '\x7b' then addToken s1 .lbrace "\x7b" (some startLocation) none
  else if c = '\x7d' then addToken s1 .rbrace "\x7d" (some startLocation) none
  else if c = '.' then addToken s1 .dot "." (some startLocation) none
  else if c = ',' then addToken s1 .comma "," (some startLocation) none
  else if c = ':' then addToken s1 .colon ":" (some startLocation) none
  else if c = ';' then skipCommentLoop s1
  else if c = '"' then scanString s1
  else if c = '0' then
    if lexPeek s1 = 'x' then scanHexBuffer (lexAdvance s1).2 else scanNumber s1
  else if c = 'u' then
    if isDigitChar (lexPeek s1) then scanUint s1 else scanIdentifier s1
  else if c = '\'' then scanPrincipal s1
  else if isDigitChar c then scanNumber s1
  else if isAlphaChar c || isExtendedSymbolChar c then scanIdentifier s1
  else (lexAdvance s1).2  -- unknown character: consumed, and one more

/-! Position monotonicity of the scanning loops: each loop preserves the
source and never moves the position backwards, so `scanToken` strictly
advances the position and the outer `tokenize` loop terminates. -/

theorem skipCommentLoopAux_mono (n : Nat) : ∀ s : LexState,
    (skipCommentLoopAux n s).source = s.source ∧
      s.position ≤ (skipCommentLoopAux n s).position := by
  induction n with
  | zero => intro s; exact ⟨rfl, le_refl _⟩
  | succ n ih =>
    intro s
    rw [skipCommentLoopAux]
    split
    · obtain ⟨h1, h2⟩ := ih (lexAdvance s).2
      simp only [lexAdvance] at h1 h2 ⊢
      exact ⟨h1, by omega⟩
    · exact ⟨rfl, le_refl _⟩

theorem skipCommentLoop_mono (s : LexState) :
    (skipCommentLoop s).source = s.source ∧ s.position ≤ (skipCommentLoop s).position :=
  skipCommentLoopAux_mono _ s

theorem scanStringLoopAux_mono (n : Nat) : ∀ s : LexState,
    (scanStringLoopAux n s).source = s.source ∧
      s.position ≤ (scanStringLoopAux n s).position := by
  induction n with
  | zero => intro s; exact ⟨rfl, le_refl _⟩
  | succ n ih =>
    intro s
    rw [scanStringLoopAux]
    split
    · by_cases hc : lexPeek s = '\n'
      · obtain ⟨h1, h2⟩ := ih (lexAdvance { s with line := s.line + 1, column := 1 }).2
        simp only [hc, ite_true, eq_self_iff_true, if_pos]
        simp only [lexAdvance] at h1 h2 ⊢
        exact ⟨h1, by omega⟩
      · obtain ⟨h1, h2⟩ := ih (lexAdvance s).2
        simp only [hc, ite_false, if_neg, not_false_iff]
        simp only [lexAdvance] at h1 h2 ⊢
        exact ⟨h1, by omega⟩
    · exact ⟨rfl, le_refl _⟩

theorem scanStringLoop_mono (s : LexState) :
    (scanStringLoop s).source = s.source ∧ s.position ≤ (scanStringLoop s).position :=
  scanStringLoopAux_mono _ s

theorem digitsLoopAux_mono (n : Nat) : ∀ s : LexState,
    (digitsLoopAux n s).source = s.source ∧ s.position ≤ (digitsLoopAux n s).position := by
  induction n with
  | zero => intro s; exact ⟨rfl, le_refl _⟩
  | succ n ih =>
    intro s
    rw [digitsLoopAux]
    split
    · obtain ⟨h1, h2⟩ := ih (lexAdvance s).2
      simp only [lexAdvance] at h1 h2 ⊢
      exact ⟨h1, by omega⟩
    · exact ⟨rfl, le_refl _⟩

theorem digitsLoop_mono (s : LexState) :
    (digitsLoop s).source = s.source ∧ s.position ≤ (digitsLoop s).position :=
  digitsLoopAux_mono _ s

theorem hexLoopAux_mono (n : Nat) : ∀ s : LexState,
    (hexLoopAux n s).source = s.source ∧ s.position ≤ (hexLoopAux n s).position := by
  induction n with
  | zero => intro s; exact ⟨rfl, le_refl _⟩
  | succ n ih =>
    intro s
    rw [hexLoopAux]
    split
    · obtain ⟨h1, h2⟩ := ih (lexAdvance s).2
      simp only [lexAdvance] at h1 h2 ⊢
      exact ⟨h1, by omega⟩
    · exact ⟨rfl, le_refl _⟩

theorem hexLoop_mono (s : LexState) :
    (hexLoop s).source = s.source ∧ s.position ≤ (hexLoop s).position :=
  hexLoopAux_mono _ s

theorem principalLoopAux_mono (n : Nat) : ∀ s : LexState,
    (principalLoopAux n s).source = s.source ∧
      s.position ≤ (principalLoopAux n s).position := by
  induction n with
  | zero => intro s; exact ⟨rfl, le_refl _⟩
  | succ n ih =>
    intro s
    rw [principalLoopAux]
    split
    · obtain ⟨h1, h2⟩ := ih (lexAdvance s).2
      simp only [lexAdvance] at h1 h2 ⊢
      exact ⟨h1, by omega⟩
    · exact ⟨rfl, le_refl _⟩

theorem principalLoop_mono (s : LexState) :
    (principalLoop s).source = s.source ∧ s.position ≤ (principalLoop s).position :=
  principalLoopAux_mono _ s

theorem identLoopAux_mono (n : Nat) : ∀ s : LexState,
    (identLoopAux n s).source = s.source ∧ s.position ≤ (identLoopAux n s).position := by
  induction n with
  | zero => intro s; exact ⟨rfl, le_refl _⟩
  | succ n ih =>
    intro s
    rw [identLoopAux]
    split
    · obtain ⟨h1, h2⟩ := ih (lexAdvance s).2
      simp only [lexAdvance] at h1 h2 ⊢
      exact ⟨h1, by omega⟩
    · exact ⟨rfl, le_refl _⟩

theorem identLoop_mono (s : LexState) :
    (identLoop s).source = s.source ∧ s.position ≤ (identLoop s).position :=
  identLoopAux_mono _ s

@[simp] theorem addToken_source (s : LexState) (t : TokenType) (v : String)
    (l : Option SourceLocation) (r : Option String) :
    (addToken s t v l r).source = s.source := rfl

@[simp] theorem addToken_position (s : LexState) (t : TokenType) (v : String)
    (l : Option SourceLocation) (r : Option String) :
    (addToken s t v l r).position = s.position := rfl

theorem scanString_mono (s : LexState) :
    (scanString s).source = s.source ∧ s.position ≤ (scanString s).position := by
  obtain ⟨h1, h2⟩ := scanStringLoop_mono s
  constructor
  · simp only [scanString]
    split
    · exact h1
    · simp [lexAdvance, h1]
  · simp only [scanString]
    split
    · exact h2
    · simp only [addToken_position, lexAdvance]
      omega

theorem scanNumber_mono (s : LexState) :
    (scanNumber s).source = s.source ∧ s.position ≤ (scanNumber s).position := by
  obtain ⟨h1, h2⟩ := digitsLoop_mono s
  exact ⟨by simp [scanNumber, h1], by simp only [scanNumber, addToken_position]; omega⟩

theorem scanUint_mono (s : LexState) :
    (scanUint s).source = s.source ∧ s.position ≤ (scanUint s).position := by
  obtain ⟨h1, h2⟩ := digitsLoop_mono s
  exact ⟨by simp [scanUint, h1], by simp only [scanUint, addToken_position]; omega⟩

theorem scanHexBuffer_mono (s : LexState) :
    (scanHexBuffer s).source = s.source ∧ s.position ≤ (scanHexBuffer s).position := by
  obtain ⟨h1, h2⟩ := hexLoop_mono s
  exact ⟨by simp [scanHexBuffer, h1], by simp only [scanHexBuffer, addToken_position]; omega⟩

theorem scanPrincipal_mono (s : LexState) :
    (scanPrincipal s).source = s.source ∧ s.position ≤ (scanPrincipal s).position := by
  obtain ⟨h1, h2⟩ := principalLoop_mono s
  exact ⟨by simp [scanPrincipal, h1], by simp only [scanPrincipal, addToken_position]; omega⟩

theorem scanIdentifier_mono (s : LexState) :
    (scanIdentifier s).source = s.source ∧ s.position ≤ (scanIdentifier s).position := by
  obtain ⟨h1, h2⟩ := identLoop_mono s
  constructor
  · simp only [scanIdentifier]
    split
    · simp [h1]
    · simp [h1]
  · simp only [scanIdentifier]
    split
    · simp only [addToken_position]; omega
    · simp only [addToken_position]; omega

/-- `scanToken` preserves the source and strictly advances the position. -/
theorem scanToken_mono (s : LexState) :
    (scanToken s).source = s.source ∧ s.position < (scanToken s).position := by
  unfold scanToken
  dsimp only [lexAdvance]
  set c : Char := charAt s.source s.position with hc
  set s1 : LexState := { s with position := s.position + 1, column := s.column + 1 } with hs1
  have hsrc : s1.source = s.source := rfl
  have hpos : s1.position = s.position + 1 := rfl
  have hstep : s.position < s1.position := by omega
  by_cases h1 : (c = ' ' || c = '\r' || c = '\t' : Bool) = true
  · rw [if_pos h1]; exact ⟨hsrc, hstep⟩
  rw [if_neg h1]
  by_cases h2 : c = '\n'
  · rw [if_pos h2]; exact ⟨hsrc, hstep⟩
  rw [if_neg h2]
  by_cases h3 : c = '('
  · rw [if_pos h3]
    exact ⟨by rw [addToken_source, hsrc], by rw [addToken_position]; exact hstep⟩
  rw [if_neg h3]
  by_cases h4 : c = ')'
  · rw [if_pos h4]
    exact ⟨by rw [addToken_source, hsrc], by rw [addToken_position]; exact hstep⟩
  rw [if_neg h4]
  by_cases h5 : c = '\x7b'
  · rw [if_pos h5]
    exact ⟨by rw [addToken_source, hsrc], by rw [addToken_position]; exact hstep⟩
  rw [if_neg h5]
  by_cases h6 : c = '\x7d'
  · rw [if_pos h6]
    exact ⟨by rw [addToken_source, hsrc], by rw [addToken_position]; exact hstep⟩
  rw [if_neg h6]
  by_cases h7 : c = '.'
  · rw [if_pos h7]
    exact ⟨by rw [addToken_source, hsrc], by rw [addToken_position]; exact hstep⟩
  rw [if_neg h7]
  by_cases h8 : c = ','
  · rw [if_pos h8]
    exact ⟨by rw [addToken_source, hsrc], by rw [addToken_position]; exact hstep⟩
  rw [if_neg h8]
  by_cases h9 : c = ':'
  · rw [if_pos h9]
    exact ⟨by rw [addToken_source, hsrc], by rw [addToken_position]; exact hstep⟩
  rw [if_neg h9]
  by_cases h10 : c = ';'
  · rw [if_pos h10]
    obtain ⟨m1, m2⟩ := skipCommentLoop_mono s1
    exact ⟨by rw [m1, hsrc], by omega⟩
  rw [if_neg h10]
  by_cases h11 : c = '"'
  · rw [if_pos h11]
    obtain ⟨m1, m2⟩ := scanString_mono s1
    exact ⟨by rw [m1, hsrc], by omega⟩
  rw [if_neg h11]
  by_cases h12 : c = '0'
  · rw [if_pos h12]
    by_cases hx : lexPeek s1 = 'x'
    · rw [if_pos hx]
      obtain ⟨m1, m2⟩ := scanHexBuffer_mono
        { source := s.source, position := s.position + 1 + 1, line := s.line,
          column := s.column + 1 + 1, tokens := s.tokens }
      have m2a : s.position + 1 + 1 ≤ _ := m2
      exact ⟨by rw [m1], by omega⟩
    · rw [if_neg hx]
      obtain ⟨m1, m2⟩ := scanNumber_mono s1
      exact ⟨by rw [m1, hsrc], by omega⟩
  rw [if_neg h12]
  by_cases h13 : c = 'u'
  · rw [if_pos h13]
    by_cases hd : isDigitChar (lexPeek s1) = true
    · rw [if_pos hd]
      obtain ⟨m1, m2⟩ := scanUint_mono s1
      exact ⟨by rw [m1, hsrc], by omega⟩
    · rw [if_neg hd]
      obtain ⟨m1, m2⟩ := scanIdentifier_mono s1
      exact ⟨by rw [m1, hsrc], by omega⟩
  rw [if_neg h13]
  by_cases h14 : c = '\''
  · rw [if_pos h14]
    obtain ⟨m1, m2⟩ := scanPrincipal_mono s1
    exact ⟨by rw [m1, hsrc], by omega⟩
  rw [if_neg h14]
  by_cases h15 : isDigitChar c = true
  · rw [if_pos h15]
    obtain ⟨m1, m2⟩ := scanNumber_mono s1
    exact ⟨by rw [m1, hsrc], by omega⟩
  rw [if_neg h15]
  by_cases h16 : (isAlphaChar c || isExtendedSymbolChar c) = true
  · rw [if_pos h16]
    obtain ⟨m1, m2⟩ := scanIdentifier_mono s1
    exact ⟨by rw [m1, hsrc], by omega⟩
  rw [if_neg h16]
  exact ⟨hsrc, by dsimp only [lexAdvance]; omega⟩

/-- Loop of `ClarityLexer.tokenize`: scan tokens until the end of input.
Bounded by the remaining length: every `scanToken` call strictly advances
the position (`scanToken_mono`), so the bound is never reached before
`isAtEnd` holds, where the loop stops anyway. -/
def tokenizeLoopAux : Nat → LexState → LexState
  | 0, s => s
  | n + 1, s => if lexIsAtEnd s = false then tokenizeLoopAux n (scanToken s) else s

def tokenizeLoop (s : LexState) : LexState :=
  tokenizeLoopAux (s.source.length - s.position) s

/-- `ClarityLexer.tokenize`: scan the whole source, then append the EOF token. -/
def tokenize (source : List Char) : List Token :=
  let s := tokenizeLoop { source := source, position := 0, line := 1, column := 1, tokens := [] }
  (addToken s .eof "" none none).tokens

/-! ## AST (enhanced parser node types, as constructed in `parser.ts`)

The enhanced node interfaces are reconstructed from their construction
sites in `EnhancedClarityParser` and their uses in the semantic and static
analyzers.  Cached annotation fields and source ranges are omitted as
described in the header. -/

inductive ClarityTypeKind where
  | uint | int | bool | stringAscii | stringUtf8 | buff | principal
  | response | list | tuple | custom
deriving Repr, DecidableEq

/-- `ClarityType`, flattened to its `kind` plus the parameters the sources
actually construct (`buff` size, `response` ok/err, `list` element); tuple
field types are not needed by any claim and are dropped. -/
inductive ClarityType where
  | uint | int | bool | stringAscii | stringUtf8
  | buff (size : Nat)
  | principal
  | response (okType errType : ClarityType)
  | listT (elementType : ClarityType)
  | tupleT
  | custom
deriving Repr, DecidableEq

def ClarityType.kind : ClarityType → ClarityTypeKind
  | .uint => .uint
  | .int => .int
  | .bool => .bool
  | .stringAscii => .stringAscii
  | .stringUtf8 => .stringUtf8
  | .buff _ => .buff
  | .principal => .principal
  | .response _ _ => .response
  | .listT _ => .list
  | .tupleT => .tuple
  | .custom => .custom

inductive StringEncoding where
  | ascii | utf8
deriving Repr, DecidableEq

mutual

inductive Expression where
  | functionCall (function : Expression) (arguments : List Expression)
  | identifier (name : String)
  | letExpression (bindings : List Binding) (body : List Expression)
  | beginExpression (body : List Expression)
  | ifExpression (condition thenBranch : Expression) (elseBranch : Option Expression)
  | matchExpression (expression : Expression) (arms : List MatchArm)
  | listExpression (elements : List Expression)
  | tupleExpression (fields : List TupleField)
  | uintLiteral (value : Nat)
  | intLiteral (value : Int)
  | boolLiteral (value : Bool)
  | stringLiteral (value : String) (encoding : StringEncoding)
  | buffLiteral (value : List Nat)
  | principalLiteral (value : String) (isContract : Bool) (contractName : Option String)
deriving Repr

inductive Binding where
  | mk (name : String) (value : Expression)
deriving Repr

inductive MatchArm where
  | mk (pattern : Pattern) (body : Expression)
deriving Repr

inductive Pattern where
  | okPattern (value : Pattern)
  | errPattern (value : Pattern)
  | somePattern (value : Pattern)
  | nonePattern
  | identifierPattern (name : String)
  | literalPattern (value : Expression)
deriving Repr

inductive TupleField where
  | mk (name : String) (value : Expression)
deriving Repr

end

def Binding.name : Binding → String
  | .mk n _ => n

def Binding.value : Binding → Expression
  | .mk _ v => v

inductive Visibility where
  | publicV | privateV | readOnly
deriving Repr, DecidableEq

structure Parameter where
  name : String
  paramType : ClarityType
deriving Repr

inductive TopLevelStatement where
  | functionDefinition (name : String) (visibility : Visibility)
      (parameters : List Parameter) (body : List Expression)
  | constantDefinition (name : String) (value : Expression)
  | mapDefinition (name : String) (keyType valueType : ClarityType)
  | dataVarDefinition (name : String) (varType : ClarityType) (initialValue : Expression)
  | nftDefinition (name : String) (tokenType : ClarityType)
  | ftDefinition (name : String) (totalSupply : Option Expression)
  | traitDefinition (name : String)
  | useTrait (name : String) (contractPrincipal : Expression)
  | implTrait (traitName : String) (contractPrincipal : Expression)
deriving Repr

structure ClarityAst where
  body : List TopLevelStatement
deriving Repr

/-! ## Parser (`src/parser/parser.ts`, `EnhancedClarityParser`)

The parser's error-reporting paths do not throw (`addError` only pushes
onto the error list), so the `try`/`catch` with `synchronize` in
`parseProgram` is unreachable; `synchronize` is modelled below for
completeness and is never invoked, exactly as in a run of the source.
The only genuinely exceptional TS path is `BigInt(value)` on a
non-numeric string, which cannot occur for lexer-produced tokens;
literal values are therefore parsed with a total conversion.

Every recursive parser function takes a fuel argument and returns `none`
when the fuel is exhausted.  The parser really can loop forever (see the
termination theorem below), so this cannot be avoided. -/

structure ParserError where
  message : String
  location : SourceLocation
  severity : String
  code : String
deriving Repr, DecidableEq

structure ParserWarning where
  message : String
  location : SourceLocation
  code : String
deriving Repr, DecidableEq

structure PState where
  tokens : List Token
  current : Nat
  errors : List ParserError
  warnings : List ParserWarning
deriving Repr

/-- Fallback token for an out-of-range `this.tokens[...]` access.  In TS
this would be `undefined` and any use would throw; all theorems below use
EOF-terminated token streams, for which the parser never reads out of
range, so the fallback is never observable. -/
def undefinedToken : Token :=
  { type := .eof, value := "", location := { line := 0, column := 0, offset := 0 }, raw := "" }

/-- `EnhancedClarityParser.peek`. -/
def peekT (s : PState) : Token := s.tokens.getD s.current undefinedToken

/-- `EnhancedClarityParser.previous`. -/
def previousT (s : PState) : Token := s.tokens.getD (s.current - 1) undefinedToken

/-- `EnhancedClarityParser.isAtEnd`. -/
def pIsAtEnd (s : PState) : Bool := (peekT s).type == .eof

/-- `EnhancedClarityParser.advance` (returns `previous()` of the new state). -/
def pAdvance (s : PState) : Token × PState :=
  let s1 := if pIsAtEnd s then s else { s with current := s.current + 1 }
  (previousT s1, s1)

/-- `EnhancedClarityParser.check` (`false` at EOF, else compare the
current token type). -/
def pCheck (s : PState) (t : TokenType) : Bool :=
  !pIsAtEnd s && ((peekT s).type == t)

/-- `EnhancedClarityParser.getCurrentLocation`. -/
def pCurrentLocation (s : PState) : SourceLocation := (peekT s).location

/-- `EnhancedClarityParser.getPreviousLocation`. -/
def pPreviousLocation (s : PState) : SourceLocation := (previousT s).location

/-- `EnhancedClarityParser.addError` (default code `PARSE_ERROR`). -/
def pAddError (s : PState) (message : String) (location : SourceLocation) : PState :=
  { s with errors := s.errors ++
      [{ message := message, location := location, severity := "error", code := "PARSE_ERROR" }] }

/-- `EnhancedClarityParser.consume`: advance on a match, otherwise report
the error and return the current token unconsumed. -/
def pConsume (s : PState) (t : TokenType) (message : String) : Token × PState :=
  if pCheck s t then pAdvance s
  else (peekT s, pAddError s message (pCurrentLocation s))

theorem pCheck_not_atEnd {s : PState} {t : TokenType} (h : pCheck s t = true) :
    pIsAtEnd s = false := by
  simp only [pCheck, Bool.and_eq_true, Bool.not_eq_true'] at h
  exact h.1

theorem lt_of_not_pAtEnd {s : PState} (h : pIsAtEnd s = false) :
    s.current < s.tokens.length := by
  by_contra hge
  have hp : peekT s = undefinedToken := by
    simp only [peekT]
    exact List.getD_eq_default _ _ (by omega)
  simp [pIsAtEnd, hp, undefinedToken] at h

theorem pAdvance_of_not_atEnd {s : PState} (h : pIsAtEnd s = false) :
    (pAdvance s).2 = { s with current := s.current + 1 } := by
  simp [pAdvance, h]

/-- `EnhancedClarityParser.skipWhitespace`.  Each continuing iteration
has `check` true, hence is not at the end and consumes one token; at or
past the end `check` is false.  Bounded by the remaining token count,
which therefore never runs out before the condition fails. -/
def pSkipWhitespaceAux : Nat → PState → PState
  | 0, s => s
  | n + 1, s =>
    if pCheck s .whitespace || pCheck s .newline || pCheck s .comment then
      pSkipWhitespaceAux n (pAdvance s).2
    else s

def pSkipWhitespace (s : PState) : PState :=
  pSkipWhitespaceAux (s.tokens.length - s.current) s

/-- Inner loop of `EnhancedClarityParser.synchronize`. -/
def pSynchronizeLoop (s : PState) : PState :=
  if pIsAtEnd s then s
  else if (previousT s).type == .newline then s
  else if (peekT s).type == .keyword && (peekT s).value.startsWith "define-" then s
  else pSynchronizeLoop (pAdvance s).2
termination_by s.tokens.length - s.current
decreasing_by
  rename_i h _ _
  have hend : pIsAtEnd s = false := by simpa using h
  have hlt := lt_of_not_pAtEnd hend
  rw [pAdvance_of_not_atEnd hend]
  simp only
  omega

/-- `EnhancedClarityParser.synchronize`.  Total, but unreachable from
`parseProgram` because no parser path throws. -/
def pSynchronize (s : PState) : PState := pSynchronizeLoop (pAdvance s).2

/-- JS `string.includes(c)` for a single character, computed on the
character list (kernel-reducible, unlike `String.contains`). -/
def stringIncludesChar (s : String) (c : Char) : Bool := s.data.contains c

/-- Decimal digits to a number (`BigInt(value)` for the digit-only values
the lexer produces; any other input would throw in TS and never occurs). -/
def digitsToNat (l : List Char) : Nat :=
  l.foldl (fun acc c => acc * 10 + (c.toNat - 48)) 0

def strToNatTotal (s : String) : Nat :=
  if !s.data.isEmpty && s.data.all isDigitChar then digitsToNat s.data else 0

/-- The text between the first dot and the following dot or end:
`value.split('.')[1]`. -/
def afterFirstDot (s : String) : String :=
  String.mk (((s.data.dropWhile (fun c => !(c == '.'))).drop 1).takeWhile
    (fun c => !(c == '.')))

/-- `EnhancedClarityParser.parseIdentifier`. -/
def parseIdentifier (s : PState) : Expression × PState :=
  let (tok, s1) := pAdvance s
  (.identifier tok.value, s1)

/-- Hex value of one digit (`parseInt(_, 16)`; non-digits give `NaN`,
which a `Uint8Array` stores as 0). -/
def hexVal (c : Char) : Nat :=
  if isDigitChar c then c.toNat - 48
  else if decide ('a' ≤ c) && decide (c ≤ 'f') then c.toNat - 87
  else if decide ('A' ≤ c) && decide (c ≤ 'F') then c.toNat - 55
  else 0

/-- `EnhancedClarityParser.hexToUint8Array` (two hex chars per byte). -/
def hexToBytes : List Char → List Nat
  | a :: b :: rest => (hexVal a * 16 + hexVal b) :: hexToBytes rest
  | [a] => [hexVal a]
  | [] => []

/-- `EnhancedClarityParser.parseLiteral`.  `BigInt(value)` is modelled by a
total conversion; it can differ from TS only on non-numeric literal values,
which the lexer never produces. -/
def parseLiteral (s : PState) : Expression × PState :=
  let (tok, s1) := pAdvance s
  match tok.type with
  | .uint => (.uintLiteral (strToNatTotal tok.value), s1)
  | .int => (.intLiteral ((strToNatTotal tok.value : Nat) : Int), s1)
  | .bool => (.boolLiteral (tok.value == "true"), s1)
  | .stringAscii => (.stringLiteral tok.value .ascii, s1)
  | .stringUtf8 => (.stringLiteral tok.value .utf8, s1)
  | .buff => (.buffLiteral (hexToBytes tok.value.toList), s1)
  | .principal =>
      let isContract := stringIncludesChar tok.value '.'
      let contractName := if isContract then some (afterFirstDot tok.value) else none
      (.principalLiteral tok.value isContract contractName, s1)
  | _ => (.boolLiteral false, pAddError s1 "Unexpected literal type" tok.location)

/-- `EnhancedClarityParser.mapTypeNameToKind`. -/
def mapTypeNameToKind (typeName : String) : ClarityType :=
  match typeName with
  | "uint" => .uint
  | "int" => .int
  | "bool" => .bool
  | "principal" => .principal
  | _ => .custom

/-- `EnhancedClarityParser.parseType`. -/
def parseType (s : PState) : ClarityType × PState :=
  if pCheck s .identifier then
    let (tok, s1) := pAdvance s
    (mapTypeNameToKind tok.value, s1)
  else
    (.uint, pAddError s "Expected type" (pCurrentLocation s))

/-- `EnhancedClarityParser.parseParameter` (total: only called when the
current token is `(`, and every sub-step is non-recursive). -/
def parseParameter (s : PState) : Parameter × PState :=
  let (_, s1) := pConsume s .lparen "Expected \"(\" before parameter"
  let (nameTok, s2) := pConsume s1 .identifier "Expected parameter name"
  let (paramType, s3) := parseType s2
  let (_, s4) := pConsume s3 .rparen "Expected \")\" after parameter"
  ({ name := nameTok.value, paramType := paramType }, s4)

/-- `EnhancedClarityParser.parseMapDefinition` (after the keyword). -/
def parseMapDefinition (s : PState) : TopLevelStatement × PState :=
  let (nameTok, s1) := pConsume s .identifier "Expected map name"
  let (keyType, s2) := parseType s1
  let (valueType, s3) := parseType s2
  let (_, s4) := pConsume s3 .rparen "Expected \")\" after map definition"
  (.mapDefinition nameTok.value keyType valueType, s4)

/-- `EnhancedClarityParser.parseNftDefinition` (after the keyword). -/
def parseNftDefinition (s : PState) : TopLevelStatement × PState :=
  let (nameTok, s1) := pConsume s .identifier "Expected NFT name"
  let (tokenType, s2) := parseType s1
  let (_, s3) := pConsume s2 .rparen "Expected \")\" after NFT definition"
  (.nftDefinition nameTok.value tokenType, s3)

mutual

/-- `EnhancedClarityParser.parseProgram`. -/
def parseProgram : Nat → PState → Option (ClarityAst × PState)
  | 0, _ => none
  | fuel + 1, s =>
    match programLoop fuel (pSkipWhitespace s) [] with
    | none => none
    | some (body, s1) => some ({ body := body }, s1)

/-- The top-level `while (!this.isAtEnd())` loop of `parseProgram`.  The
`catch`/`synchronize` arm is unreachable (no parser path throws). -/
def programLoop : Nat → PState → List TopLevelStatement →
    Option (List TopLevelStatement × PState)
  | 0, _, _ => none
  | fuel + 1, s, acc =>
    if pIsAtEnd s then some (acc, s)
    else
      match parseTopLevelStatement fuel s with
      | none => none
      | some (stmt, s1) =>
        programLoop fuel (pSkipWhitespace s1)
          (match stmt with
           | some st => acc ++ [st]
           | none => acc)

/-- `EnhancedClarityParser.parseTopLevelStatement`. -/
def parseTopLevelStatement : Nat → PState → Option (Option TopLevelStatement × PState)
  | 0, _ => none
  | fuel + 1, s =>
    if pCheck s .lparen then parseParenthesizedStatement fuel s
    else some (none, pAddError s "Expected top-level statement" (pCurrentLocation s))

/-- `EnhancedClarityParser.parseParenthesizedStatement`. -/
def parseParenthesizedStatement : Nat → PState → Option (Option TopLevelStatement × PState)
  | 0, _ => none
  | fuel + 1, s =>
    let (_, s1) := pConsume s .lparen "Expected \"(\""
    if !(pCheck s1 .keyword) then
      some (none, pAddError s1 "Expected keyword after \"(\"" (pCurrentLocation s1))
    else
      let (kw, s2) := pAdvance s1
      match kw.value with
      | "define-constant" =>
          (parseConstantDefinition fuel s2).map (fun r => (some r.1, r.2))
      | "define-private" =>
          (parseFunctionDefinition fuel "define-private" s2).map (fun r => (some r.1, r.2))
      | "define-public" =>
          (parseFunctionDefinition fuel "define-public" s2).map (fun r => (some r.1, r.2))
      | "define-read-only" =>
          (parseFunctionDefinition fuel "define-read-only" s2).map (fun r => (some r.1, r.2))
      | "define-map" => some ((parseMapDefinition s2).map some id)
      | "define-data-var" =>
          (parseDataVarDefinition fuel s2).map (fun r => (some r.1, r.2))
      | "define-non-fungible-token" => some ((parseNftDefinition s2).map some id)
      | "define-fungible-token" =>
          (parseFtDefinition fuel s2).map (fun r => (some r.1, r.2))
      | "define-trait" =>
          (parseTraitDefinition fuel s2).map (fun r => (some r.1, r.2))
      | "use-trait" =>
          (parseUseTrait fuel s2).map (fun r => (some r.1, r.2))
      | "impl-trait" =>
          (parseImplTrait fuel s2).map (fun r => (some r.1, r.2))
      | _ =>
          some (none,
            pAddError s2 ("Unknown top-level keyword: " ++ kw.value) (pPreviousLocation s2))

/-- `EnhancedClarityParser.parseConstantDefinition`. -/
def parseConstantDefinition : Nat → PState → Option (TopLevelStatement × PState)
  | 0, _ => none
  | fuel + 1, s =>
    let (nameTok, s1) := pConsume s .identifier "Expected constant name"
    match parseExpression fuel s1 with
    | none => none
    | some (value, s2) =>
      let (_, s3) := pConsume s2 .rparen "Expected \")\" after constant definition"
      some (.constantDefinition nameTok.value value, s3)

/-- `EnhancedClarityParser.parseFunctionDefinition`. -/
def parseFunctionDefinition : Nat → String → PState → Option (TopLevelStatement × PState)
  | 0, _, _ => none
  | fuel + 1, defineType, s =>
    let (_, s1) := pConsume s .lparen "Expected \"(\" before function signature"
    let (nameTok, s2) := pConsume s1 .identifier "Expected function name"
    match paramsLoop fuel s2 [] with
    | none => none
    | some (parameters, s3) =>
      let (_, s4) := pConsume s3 .rparen "Expected \")\" after function signature"
      match exprListLoop fuel s4 [] with
      | none => none
      | some (body, s5) =>
        let (_, s6) := pConsume s5 .rparen "Expected \")\" after function body"
        let visibility : Visibility :=
          if defineType == "define-private" then .privateV
          else if defineType == "define-public" then .publicV
          else .readOnly
        some (.functionDefinition nameTok.value visibility parameters body, s6)

/-- The `while (this.check(LPAREN))` parameter loop of
`parseFunctionDefinition`. -/
def paramsLoop : Nat → PState → List Parameter → Option (List Parameter × PState)
  | 0, _, _ => none
  | fuel + 1, s, acc =>
    if pCheck s .lparen then
      let (p, s1) := parseParameter s
      paramsLoop fuel s1 (acc ++ [p])
    else some (acc, s)

/-- The `while (!this.check(RPAREN)) xs.push(this.parseExpression())`
loop that appears verbatim in `parseFunctionDefinition` (body),
`parseLetExpression` (body), `parseBeginExpression`,
`parseListExpression` and `parseFunctionCall` (arguments). -/
def exprListLoop : Nat → PState → List Expression → Option (List Expression × PState)
  | 0, _, _ => none
  | fuel + 1, s, acc =>
    if !(pCheck s .rparen) then
      match parseExpression fuel s with
      | none => none
      | some (e, s1) => exprListLoop fuel s1 (acc ++ [e])
    else some (acc, s)

/-- `EnhancedClarityParser.parseDataVarDefinition`. -/
def parseDataVarDefinition : Nat → PState → Option (TopLevelStatement × PState)
  | 0, _ => none
  | fuel + 1, s =>
    let (nameTok, s1) := pConsume s .identifier "Expected variable name"
    let (varType, s2) := parseType s1
    match parseExpression fuel s2 with
    | none => none
    | some (initialValue, s3) =>
      let (_, s4) := pConsume s3 .rparen "Expected \")\" after data var definition"
      some (.dataVarDefinition nameTok.value varType initialValue, s4)

/-- `EnhancedClarityParser.parseFtDefinition`. -/
def parseFtDefinition : Nat → PState → Option (TopLevelStatement × PState)
  | 0, _ => none
  | fuel + 1, s =>
    let (nameTok, s1) := pConsume s .identifier "Expected FT name"
    if !(pCheck s1 .rparen) then
      match parseExpression fuel s1 with
      | none => none
      | some (totalSupply, s2) =>
        let (_, s3) := pConsume s2 .rparen "Expected \")\" after FT definition"
        some (.ftDefinition nameTok.value (some totalSupply), s3)
    else
      let (_, s3) := pConsume s1 .rparen "Expected \")\" after FT definition"
      some (.ftDefinition nameTok.value none, s3)

/-- `EnhancedClarityParser.parseTraitDefinition` (skips the trait body). -/
def parseTraitDefinition : Nat → PState → Option (TopLevelStatement × PState)
  | 0, _ => none
  | fuel + 1, s =>
    let (nameTok, s1) := pConsume s .identifier "Expected trait name"
    match traitSkipLoop fuel s1 with
    | none => none
    | some s2 =>
      let (_, s3) := pConsume s2 .rparen "Expected \")\" after trait definition"
      some (.traitDefinition nameTok.value, s3)

/-- The token-skipping loop of `parseTraitDefinition`. -/
def traitSkipLoop : Nat → PState → Option PState
  | 0, _ => none
  | fuel + 1, s =>
    if !(pCheck s .rparen) then traitSkipLoop fuel (pAdvance s).2
    else some s

/-- `EnhancedClarityParser.parseUseTrait`. -/
def parseUseTrait : Nat → PState → Option (TopLevelStatement × PState)
  | 0, _ => none
  | fuel + 1, s =>
    let (nameTok, s1) := pConsume s .identifier "Expected trait alias"
    match parseExpression fuel s1 with
    | none => none
    | some (contractPrincipal, s2) =>
      let (_, s3) := pConsume s2 .rparen "Expected \")\" after use-trait"
      some (.useTrait nameTok.value contractPrincipal, s3)

/-- `EnhancedClarityParser.parseImplTrait`. -/
def parseImplTrait : Nat → PState → Option (TopLevelStatement × PState)
  | 0, _ => none
  | fuel + 1, s =>
    let (nameTok, s1) := pConsume s .identifier "Expected trait name"
    match parseExpression fuel s1 with
    | none => none
    | some (contractPrincipal, s2) =>
      let (_, s3) := pConsume s2 .rparen "Expected \")\" after impl-trait"
      some (.implTrait nameTok.value contractPrincipal, s3)

/-- `EnhancedClarityParser.parseExpression`. -/
def parseExpression : Nat → PState → Option (Expression × PState)
  | 0, _ => none
  | fuel + 1, s =>
    if pCheck s .lparen then parseParenthesizedExpression fuel s
    else if pCheck s .identifier then some (parseIdentifier s)
    else if pCheck s .uint || pCheck s .int || pCheck s .bool || pCheck s .stringAscii ||
        pCheck s .stringUtf8 || pCheck s .buff || pCheck s .principal then
      some (parseLiteral s)
    else
      some (.identifier "error", pAddError s "Expected expression" (pCurrentLocation s))

/-- `EnhancedClarityParser.parseParenthesizedExpression`. -/
def parseParenthesizedExpression : Nat → PState → Option (Expression × PState)
  | 0, _ => none
  | fuel + 1, s =>
    let (_, s1) := pConsume s .lparen "Expected \"(\""
    if pCheck s1 .keyword then
      match (peekT s1).value with
      | "let" => parseLetExpression fuel s1
      | "begin" => parseBeginExpression fuel s1
      | "if" => parseIfExpression fuel s1
      | "match" => parseMatchExpression fuel s1
      | "list" => parseListExpression fuel s1
      | "tuple" => parseTupleExpression fuel s1
      | _ => parseFunctionCall fuel s1
    else parseFunctionCall fuel s1

/-- `EnhancedClarityParser.parseLetExpression`. -/
def parseLetExpression : Nat → PState → Option (Expression × PState)
  | 0, _ => none
  | fuel + 1, s =>
    let (_, s1) := pConsume s .keyword "Expected \"let\""
    let (_, s2) := pConsume s1 .lparen "Expected \"(\" before let bindings"
    match bindingsLoop fuel s2 [] with
    | none => none
    | some (bindings, s3) =>
      let (_, s4) := pConsume s3 .rparen "Expected \")\" after let bindings"
      match exprListLoop fuel s4 [] with
      | none => none
      | some (body, s5) =>
        let (_, s6) := pConsume s5 .rparen "Expected \")\" after let body"
        some (.letExpression bindings body, s6)

/-- The `while (this.check(LPAREN))` binding loop of `parseLetExpression`. -/
def bindingsLoop : Nat → PState → List Binding → Option (List Binding × PState)
  | 0, _, _ => none
  | fuel + 1, s, acc =>
    if pCheck s .lparen then
      match parseBinding fuel s with
      | none => none
      | some (b, s1) => bindingsLoop fuel s1 (acc ++ [b])
    else some (acc, s)

/-- `EnhancedClarityParser.parseBinding`. -/
def parseBinding : Nat → PState → Option (Binding × PState)
  | 0, _ => none
  | fuel + 1, s =>
    let (_, s1) := pConsume s .lparen "Expected \"(\" before binding"
    let (nameTok, s2) := pConsume s1 .identifier "Expected binding name"
    match parseExpression fuel s2 with
    | none => none
    | some (value, s3) =>
      let (_, s4) := pConsume s3 .rparen "Expected \")\" after binding"
      some (.mk nameTok.value value, s4)

/-- `EnhancedClarityParser.parseBeginExpression`. -/
def parseBeginExpression : Nat → PState → Option (Expression × PState)
  | 0, _ => none
  | fuel + 1, s =>
    let (_, s1) := pConsume s .keyword "Expected \"begin\""
    match exprListLoop fuel s1 [] with
    | none => none
    | some (body, s2) =>
      let (_, s3) := pConsume s2 .rparen "Expected \")\" after begin body"
      some (.beginExpression body, s3)

/-- `EnhancedClarityParser.parseIfExpression`. -/
def parseIfExpression : Nat → PState → Option (Expression × PState)
  | 0, _ => none
  | fuel + 1, s =>
    let (_, s1) := pConsume s .keyword "Expected \"if\""
    match parseExpression fuel s1 with
    | none => none
    | some (condition, s2) =>
      match parseExpression fuel s2 with
      | none => none
      | some (thenBranch, s3) =>
        if !(pCheck s3 .rparen) then
          match parseExpression fuel s3 with
          | none => none
          | some (elseExpr, s4) =>
            let (_, s5) := pConsume s4 .rparen "Expected \")\" after if expression"
            some (.ifExpression condition thenBranch (some elseExpr), s5)
        else
          let (_, s5) := pConsume s3 .rparen "Expected \")\" after if expression"
          some (.ifExpression condition thenBranch none, s5)

/-- `EnhancedClarityParser.parseMatchExpression`. -/
def parseMatchExpression : Nat → PState → Option (Expression × PState)
  | 0, _ => none
  | fuel + 1, s =>
    let (_, s1) := pConsume s .keyword "Expected \"match\""
    match parseExpression fuel s1 with
    | none => none
    | some (subject, s2) =>
      match armsLoop fuel s2 [] with
      | none => none
      | some (arms, s3) =>
        let (_, s4) := pConsume s3 .rparen "Expected \")\" after match expression"
        some (.matchExpression subject arms, s4)

/-- The `while (!this.check(RPAREN))` arm loop of `parseMatchExpression`. -/
def armsLoop : Nat → PState → List MatchArm → Option (List MatchArm × PState)
  | 0, _, _ => none
  | fuel + 1, s, acc =>
    if !(pCheck s .rparen) then
      match parseMatchArm fuel s with
      | none => none
      | some (arm, s1) => armsLoop fuel s1 (acc ++ [arm])
    else some (acc, s)

/-- `EnhancedClarityParser.parseMatchArm`. -/
def parseMatchArm : Nat → PState → Option (MatchArm × PState)
  | 0, _ => none
  | fuel + 1, s =>
    match parsePattern fuel s with
    | none => none
    | some (pattern, s1) =>
      match parseExpression fuel s1 with
      | none => none
      | some (body, s2) => some (.mk pattern body, s2)

/-- `EnhancedClarityParser.parsePattern`. -/
def parsePattern : Nat → PState → Option (Pattern × PState)
  | 0, _ => none
  | fuel + 1, s =>
    if pCheck s .keyword then
      let (kw, s1) := pAdvance s
      match kw.value with
      | "ok" => (parsePattern fuel s1).map (fun r => (.okPattern r.1, r.2))
      | "err" => (parsePattern fuel s1).map (fun r => (.errPattern r.1, r.2))
      | "some" => (parsePattern fuel s1).map (fun r => (.somePattern r.1, r.2))
      | "none" => some (.nonePattern, s1)
      | _ =>
          some (.nonePattern,
            pAddError s1 ("Unknown pattern keyword: " ++ kw.value) (pPreviousLocation s1))
    else if pCheck s .identifier then
      let (nameTok, s1) := pAdvance s
      some (.identifierPattern nameTok.value, s1)
    else
      let (lit, s1) := parseLiteral s
      some (.literalPattern lit, s1)

/-- `EnhancedClarityParser.parseListExpression`. -/
def parseListExpression : Nat → PState → Option (Expression × PState)
  | 0, _ => none
  | fuel + 1, s =>
    let (_, s1) := pConsume s .keyword "Expected \"list\""
    match exprListLoop fuel s1 [] with
    | none => none
    | some (elements, s2) =>
      let (_, s3) := pConsume s2 .rparen "Expected \")\" after list expression"
      some (.listExpression elements, s3)

/-- `EnhancedClarityParser.parseTupleExpression`. -/
def parseTupleExpression : Nat → PState → Option (Expression × PState)
  | 0, _ => none
  | fuel + 1, s =>
    let (_, s1) := pConsume s .keyword "Expected \"tuple\""
    match tupleFieldsLoop fuel s1 [] with
    | none => none
    | some (fields, s2) =>
      let (_, s3) := pConsume s2 .rparen "Expected \")\" after tuple expression"
      some (.tupleExpression fields, s3)

/-- The `while (!this.check(RPAREN))` field loop of `parseTupleExpression`. -/
def tupleFieldsLoop : Nat → PState → List TupleField → Option (List TupleField × PState)
  | 0, _, _ => none
  | fuel + 1, s, acc =>
    if !(pCheck s .rparen) then
      match parseTupleField fuel s with
      | none => none
      | some (f, s1) => tupleFieldsLoop fuel s1 (acc ++ [f])
    else some (acc, s)

/-- `EnhancedClarityParser.parseTupleField`. -/
def parseTupleField : Nat → PState → Option (TupleField × PState)
  | 0, _ => none
  | fuel + 1, s =>
    let (_, s1) := pConsume s .lparen "Expected \"(\" before tuple field"
    let (nameTok, s2) := pConsume s1 .identifier "Expected field name"
    match parseExpression fuel s2 with
    | none => none
    | some (value, s3) =>
      let (_, s4) := pConsume s3 .rparen "Expected \")\" after tuple field"
      some (.mk nameTok.value value, s4)

/-- `EnhancedClarityParser.parseFunctionCall` (the callee is parsed with
`parseExpression`, which accepts no keyword token — see the termination
theorem below). -/
def parseFunctionCall : Nat → PState → Option (Expression × PState)
  | 0, _ => none
  | fuel + 1, s =>
    match parseExpression fuel s with
    | none => none
    | some (fn, s1) =>
      match exprListLoop fuel s1 [] with
      | none => none
      | some (args, s2) =>
        let (_, s3) := pConsume s2 .rparen "Expected \")\" after function call"
        some (.functionCall fn args, s3)

end

/-- `ParseResult` of `EnhancedClarityParser.parse`/`parseTokens`
(`success == (errors.length == 0)`). -/
structure ParseResult where
  ast : Option ClarityAst
  errors : List ParserError
  warnings : List ParserWarning
  success : Bool
deriving Repr

/-- `EnhancedClarityParser.parseTokens`. -/
def parseTokens (fuel : Nat) (tokens : List Token) : Option ParseResult :=
  match parseProgram fuel { tokens := tokens, current := 0, errors := [], warnings := [] } with
  | none => none
  | some (ast, s) =>
    some { ast := some ast, errors := s.errors, warnings := s.warnings,
           success := s.errors.isEmpty }

/-- `EnhancedClarityParser.parse` (tokenize, then parse). -/
def parse (fuel : Nat) (source : List Char) : Option ParseResult :=
  parseTokens fuel (tokenize source)

/-! ## Semantic analyzer (`EnhancedSemanticAnalyzer`)

JS `Map`s become association lists in insertion order.  The analyzer's
`currentFunction` cursor is written but never read on any path and is
omitted.  Error and warning messages follow fixed templates; they are
modelled as an inductive type together with the exact template text. -/

/-- `Map.has`. -/
def hasA {α : Type} (l : List (String × α)) (k : String) : Bool :=
  l.any (fun p => p.1 == k)

/-- `Map.get`. -/
def getA {α : Type} (l : List (String × α)) (k : String) : Option α :=
  (l.find? (fun p => p.1 == k)).map (fun p => p.2)

/-- `Map.set`: overwrite in place, else append (insertion order kept). -/
def setA {α : Type} : List (String × α) → String → α → List (String × α)
  | [], k, v => [(k, v)]
  | (k1, v1) :: rest, k, v =>
      if k1 == k then (k1, v) :: rest else (k1, v1) :: setA rest k v

/-- In-place record mutation of one entry. -/
def updateA {α : Type} : List (String × α) → String → (α → α) → List (String × α)
  | [], _, _ => []
  | (k1, v1) :: rest, k, f =>
      if k1 == k then (k1, f v1) :: rest else (k1, v1) :: updateA rest k f

structure FunctionSignature where
  name : String
  visibility : Visibility
  parameters : List Parameter
  returnType : ClarityType
  pure : Bool
  payable : Bool
deriving Repr

structure ConstantInfo where
  name : String
  type : ClarityType
  value : Expression
  used : Bool
deriving Repr

structure VariableInfo where
  name : String
  type : ClarityType
  initialValue : Expression
  mutable : Bool
  accessed : Bool
  modified : Bool
deriving Repr

structure MapInfo where
  name : String
  keyType : ClarityType
  valueType : ClarityType
  accessed : Bool
  modified : Bool
deriving Repr

structure TraitInfo where
  name : String
deriving Repr

structure TypeEnvironment where
  functions : List (String × FunctionSignature)
  constants : List (String × ConstantInfo)
  vars : List (String × VariableInfo)  -- `variables` in TS; renamed (reserved word)
  maps : List (String × MapInfo)
  traits : List (String × TraitInfo)
deriving Repr

/-- `EnhancedSemanticAnalyzer.createEmptyTypeEnvironment`. -/
def emptyTypeEnvironment : TypeEnvironment :=
  { functions := [], constants := [], vars := [], maps := [], traits := [] }

inductive DefCategory where
  | functionCat | constantCat | mapCat | variableCat | traitCat
deriving Repr, DecidableEq

/-- The semantic error messages of `EnhancedSemanticAnalyzer.addError`,
by template. -/
inductive SemanticError where
  | alreadyDefined (category : DefCategory) (name : String)
  | undefinedIdentifier (name : String)
deriving Repr, DecidableEq

/-- The exact message text each structured error renders to.  (`addError`
stores strings; the structure above is recoverable from the template.) -/
def SemanticError.message : SemanticError → String
  | .alreadyDefined .functionCat n => "Function " ++ sq n ++ " is already defined"
  | .alreadyDefined .constantCat n => "Constant " ++ sq n ++ " is already defined"
  | .alreadyDefined .mapCat n => "Map " ++ sq n ++ " is already defined"
  | .alreadyDefined .variableCat n => "Variable " ++ sq n ++ " is already defined"
  | .alreadyDefined .traitCat n => "Trait " ++ sq n ++ " is already defined"
  | .undefinedIdentifier n => "Undefined identifier: " ++ n
where sq (n : String) : String := "\x27" ++ n ++ "\x27"

/-- The semantic warning messages, by template. -/
inductive SemanticWarning where
  | unknownExpressionType (exprType : String)
  | ifConditionShouldBeBool
  | ifBranchesIncompatible
  | listElementsIncompatible
  | privateFunctionNeverCalled (name : String)
  | constantNeverUsed (name : String)
  | variableNeverAccessed (name : String)
  | mapNeverAccessed (name : String)
deriving Repr, DecidableEq

structure SemState where
  env : TypeEnvironment
  errors : List SemanticError
  warnings : List SemanticWarning
deriving Repr

def addSemError (st : SemState) (e : SemanticError) : SemState :=
  { st with errors := st.errors ++ [e] }

def addSemWarning (st : SemState) (w : SemanticWarning) : SemState :=
  { st with warnings := st.warnings ++ [w] }

/-- `EnhancedSemanticAnalyzer.getFunctionName` (note: returns `"unknown"`
for a non-identifier callee, unlike the static analyzer's variant). -/
def getFunctionNameSem : Expression → String
  | .identifier n => n
  | _ => "unknown"

/-- `EnhancedSemanticAnalyzer.containsExternalCalls`: scans only the
top-level expressions of the list. -/
def containsExternalCalls (es : List Expression) : Bool :=
  es.any fun e =>
    match e with
    | .functionCall fn _ =>
        getFunctionNameSem fn == "contract-call?" ||
          stringIncludesChar (getFunctionNameSem fn) '.'
    | _ => false

/-- `EnhancedSemanticAnalyzer.containsStateModifications`: scans only the
top-level expressions of the list. -/
def containsStateModifications (es : List Expression) : Bool :=
  es.any fun e =>
    match e with
    | .functionCall fn _ =>
        ["map-set", "map-insert", "map-delete", "var-set"].contains (getFunctionNameSem fn)
    | _ => false

/-- `EnhancedSemanticAnalyzer.containsFailableOperations`: scans only the
top-level expressions of the list, and only for these three names. -/
def containsFailableOperations (es : List Expression) : Bool :=
  es.any fun e =>
    match e with
    | .functionCall fn _ =>
        ["unwrap!", "unwrap-panic", "asserts!"].contains (getFunctionNameSem fn)
    | _ => false

/-- `functionCallsExternal` / the `callsExternal` flag written back onto a
function definition by `analyzeFunctionDefinition`. -/
def callsExternalOf (body : List Expression) : Bool := containsExternalCalls body

/-- `functionModifiesState` / the `modifiesState` flag. -/
def modifiesStateOf (body : List Expression) : Bool := containsStateModifications body

/-- `functionCanFail` / the `canFail` flag. -/
def canFailOf (body : List Expression) : Bool := containsFailableOperations body

/-- `EnhancedSemanticAnalyzer.callCanFail`. -/
def callCanFail (functionName : String) : Bool :=
  ["unwrap!", "unwrap-panic", "unwrap-err!", "unwrap-err-panic",
   "asserts!", "stx-transfer?", "ft-transfer?", "nft-transfer?",
   "map-insert", "contract-call?"].contains functionName

/-- `EnhancedSemanticAnalyzer.isExternalCall` (the cached `isExternal`
annotation, as a pure function of the call's callee). -/
def semIsExternalCall (fn : Expression) : Bool :=
  getFunctionNameSem fn == "contract-call?" || stringIncludesChar (getFunctionNameSem fn) '.'

/-- `EnhancedSemanticAnalyzer.createBuiltinFunctionSet`. -/
def builtinFunctions : List String :=
  ["+", "-", "*", "/", "mod", "pow", "sqrti",
   "<", "<=", ">", ">=", "is-eq",
   "and", "or", "not",
   "unwrap!", "unwrap-panic", "unwrap-err!", "unwrap-err-panic",
   "is-ok", "is-err", "is-some", "is-none",
   "ok", "err", "some", "none",
   "map-get?", "map-set", "map-insert", "map-delete",
   "var-get", "var-set",
   "list", "append", "concat", "len", "element-at", "index-of",
   "filter", "map", "fold",
   "get", "merge", "tuple",
   "begin", "if", "let", "match", "try",
   "asserts!", "print",
   "contract-call?", "as-contract",
   "tx-sender", "contract-caller", "block-height",
   "stx-get-balance", "stx-transfer?",
   "ft-mint?", "ft-transfer?", "ft-burn?", "ft-get-balance",
   "nft-mint?", "nft-transfer?", "nft-burn?", "nft-get-owner?"]

inductive SideEffectType where
  | mapAccess | stateModification | tokenTransfer | externalCall
deriving Repr, DecidableEq

inductive SideEffectOp where
  | read | write
deriving Repr, DecidableEq

structure SideEffect where
  type : SideEffectType
  target : Option String
  operation : SideEffectOp
deriving Repr, DecidableEq

/-- `EnhancedSemanticAnalyzer.analyzeSideEffects` (the cached
`sideEffects` annotation of a call, as a pure function; the `localScope`
parameter of the source is unused there and omitted). -/
def analyzeSideEffects (functionName : String) (args : List Expression) : List SideEffect :=
  match functionName with
  | "map-set" | "map-insert" =>
      match args.head? with
      | some (.identifier n) => [{ type := .mapAccess, target := some n, operation := .write }]
      | _ => []
  | "map-get?" =>
      match args.head? with
      | some (.identifier n) => [{ type := .mapAccess, target := some n, operation := .read }]
      | _ => []
  | "var-set" =>
      match args.head? with
      | some (.identifier n) =>
          [{ type := .stateModification, target := some n, operation := .write }]
      | _ => []
  | "var-get" =>
      match args.head? with
      | some (.identifier n) =>
          [{ type := .stateModification, target := some n, operation := .read }]
      | _ => []
  | "stx-transfer?" | "ft-transfer?" | "nft-transfer?" =>
      [{ type := .tokenTransfer, target := none, operation := .write }]
  | "contract-call?" =>
      [{ type := .externalCall, target := none, operation := .write }]
  | _ => []

/-- `EnhancedSemanticAnalyzer.markResourceAccess`. -/
def markResourceAccess (functionName : String) (args : List Expression)
    (env : TypeEnvironment) : TypeEnvironment :=
  let env1 :=
    if ["map-get?", "map-set", "map-insert", "map-delete"].contains functionName then
      match args.head? with
      | some (.identifier mapName) =>
          if hasA env.maps mapName then
            { env with maps := updateA env.maps mapName (fun mi =>
                { mi with
                  accessed := true
                  modified :=
                    if ["map-set", "map-insert", "map-delete"].contains functionName then true
                    else mi.modified }) }
          else env
      | _ => env
    else env
  if ["var-get", "var-set"].contains functionName then
    match args.head? with
    | some (.identifier varName) =>
        if hasA env1.vars varName then
          { env1 with vars := updateA env1.vars varName (fun vi =>
              { vi with
                accessed := true
                modified := if functionName == "var-set" then true else vi.modified }) }
        else env1
    | _ => env1
  else env1

/-- `EnhancedSemanticAnalyzer.inferExpressionType`. -/
def inferExpressionType : Expression → ClarityType
  | .uintLiteral _ => .uint
  | .intLiteral _ => .int
  | .boolLiteral _ => .bool
  | _ => .uint

/-- `EnhancedSemanticAnalyzer.inferReturnType`. -/
def inferReturnType (body : List Expression) : ClarityType :=
  match body.getLast? with
  | some e => inferExpressionType e
  | none => .uint

/-- `EnhancedSemanticAnalyzer.isPureFunction`. -/
def isPureFunction (body : List Expression) : Bool := !containsStateModifications body

/-- `EnhancedSemanticAnalyzer.isPayableFunction`. -/
def isPayableFunction (visibility : Visibility) : Bool := visibility == .publicV

/-- `EnhancedSemanticAnalyzer.typesCompatible`. -/
def typesCompatible (t1 t2 : ClarityType) : Bool := t1.kind == t2.kind

/-- Phase 1: `EnhancedSemanticAnalyzer.collectDeclarations` over one
statement (`collectFunctionDeclaration` .. `collectTraitDeclaration`). -/
def collectStatement (st : SemState) : TopLevelStatement → SemState
  | .functionDefinition name visibility parameters body =>
      if hasA st.env.functions name then
        addSemError st (.alreadyDefined .functionCat name)
      else
        let signature : FunctionSignature :=
          { name := name, visibility := visibility, parameters := parameters,
            returnType := inferReturnType body,
            pure := isPureFunction body, payable := isPayableFunction visibility }
        { st with env := { st.env with functions := setA st.env.functions name signature } }
  | .constantDefinition name value =>
      if hasA st.env.constants name then
        addSemError st (.alreadyDefined .constantCat name)
      else
        let constantInfo : ConstantInfo :=
          { name := name, type := inferExpressionType value, value := value, used := false }
        { st with env := { st.env with constants := setA st.env.constants name constantInfo } }
  | .mapDefinition name keyType valueType =>
      if hasA st.env.maps name then
        addSemError st (.alreadyDefined .mapCat name)
      else
        let mapInfo : MapInfo :=
          { name := name, keyType := keyType, valueType := valueType,
            accessed := false, modified := false }
        { st with env := { st.env with maps := setA st.env.maps name mapInfo } }
  | .dataVarDefinition name varType initialValue =>
      if hasA st.env.vars name then
        addSemError st (.alreadyDefined .variableCat name)
      else
        let variableInfo : VariableInfo :=
          { name := name, type := varType, initialValue := initialValue,
            mutable := true, accessed := false, modified := false }
        { st with env := { st.env with vars := setA st.env.vars name variableInfo } }
  | .traitDefinition name =>
      if hasA st.env.traits name then
        addSemError st (.alreadyDefined .traitCat name)
      else
        let traitInfo : TraitInfo := { name := name }
        { st with env := { st.env with traits := setA st.env.traits name traitInfo } }
  | _ => st

/-- Phase 1 over the whole program body (NFT/FT/use/impl statements have
no case and are skipped). -/
def collectDeclarations (body : List TopLevelStatement) (st : SemState) : SemState :=
  body.foldl collectStatement st

/-- A lexical scope: the `localScope` map of `analyzeExpression`. -/
abbrev Scope := List (String × VariableInfo)

/-- The resolution outcome of `analyzeIdentifier` (the source caches it as
`identifier.resolvedBinding` / `isContractCall`; modelled as a pure
function of the same lookup chain). -/
inductive Resolution where
  | localScopeR | constantR | variableR | functionR | contractRefR | undefinedR
deriving Repr, DecidableEq

/-- The lookup chain of `analyzeIdentifier`, as a pure classification:
local scope, then constants, then variables, then functions, then a
dotted name as contract reference, otherwise undefined. -/
def resolveIdentifier (name : String) (scope : Scope) (env : TypeEnvironment) : Resolution :=
  if hasA scope name then .localScopeR
  else if hasA env.constants name then .constantR
  else if hasA env.vars name then .variableR
  else if hasA env.functions name then .functionR
  else if stringIncludesChar name '.' then .contractRefR
  else .undefinedR

/-- `EnhancedSemanticAnalyzer.analyzeIdentifier`: resolve through the
chain, marking the matched binding's usage flag; an unresolved, undotted
name reports one undefined-identifier error. -/
def analyzeIdentifier (name : String) (scope : Scope) (st : SemState) :
    ClarityType × Scope × SemState :=
  match getA scope name with
  | some localVar =>
      (localVar.type, updateA scope name (fun v => { v with accessed := true }), st)
  | none =>
  match getA st.env.constants name with
  | some constant =>
      (constant.type, scope,
       { st with env := { st.env with constants := updateA st.env.constants name (fun c =>
           { c with used := true }) } })
  | none =>
  match getA st.env.vars name with
  | some variableInfo =>
      (variableInfo.type, scope,
       { st with env := { st.env with vars := updateA st.env.vars name (fun v =>
           { v with accessed := true }) } })
  | none =>
  match getA st.env.functions name with
  | some signature => (signature.returnType, scope, st)
  | none =>
  if stringIncludesChar name '.' then (.uint, scope, st)
  else (.uint, scope, addSemError st (.undefinedIdentifier name))

/-- `EnhancedSemanticAnalyzer.inferFunctionCallReturnType`. -/
def inferFunctionCallReturnType (functionName : String) (argTypes : List ClarityType)
    (env : TypeEnvironment) : ClarityType :=
  match functionName with
  | "+" | "-" | "*" | "/" | "mod" => argTypes.headD .uint
  | "<" | "<=" | ">" | ">=" | "is-eq" | "and" | "or" | "not" => .bool
  | "ok" => .response (argTypes.headD .uint) .uint
  | "err" => .response .uint (argTypes.headD .uint)
  | _ =>
    match getA env.functions functionName with
    | some signature => signature.returnType
    | none => .uint

mutual

/-- Phase 2: `EnhancedSemanticAnalyzer.analyzeExpression`.  A call's
cached annotations (`isBuiltin`, `isExternal`, `canFail`, `sideEffects`)
are pure functions of the call and are not re-stored; `match-expression`
has no case in the source's dispatch and falls into the
unknown-expression-type default. -/
def analyzeExpression : Expression → Scope → SemState → ClarityType × Scope × SemState
  | .functionCall fn args, scope, st =>
      let functionName := getFunctionNameSem fn
      let (argTypes, scope1, st1) := analyzeExpressionList args scope st
      let st2 := { st1 with env := markResourceAccess functionName args st1.env }
      (inferFunctionCallReturnType functionName argTypes st2.env, scope1, st2)
  | .identifier name, scope, st => analyzeIdentifier name scope st
  | .letExpression bindings body, scope, st =>
      -- binding values are analyzed against the enclosing scope; the body
      -- against the extended copy.  (In TS the copy shares the binding
      -- records with the enclosing map; the shared mutations are the
      -- `accessed` marks, which nothing reads afterwards.)
      let (scope1, pairs, st1) := analyzeBindingList bindings scope [] st
      let newScope := pairs.foldl (fun sc p => setA sc p.1 p.2) scope1
      let (ts, _, st2) := analyzeExpressionList body newScope st1
      ((ts.getLast?).getD .uint, scope1, st2)
  | .beginExpression body, scope, st =>
      let (ts, scope1, st1) := analyzeExpressionList body scope st
      ((ts.getLast?).getD .uint, scope1, st1)
  | .ifExpression condition thenBranch elseBranch, scope, st =>
      let (condT, scope1, st1) := analyzeExpression condition scope st
      let st2 :=
        if condT.kind != .bool then addSemWarning st1 .ifConditionShouldBeBool else st1
      let (thenT, scope2, st3) := analyzeExpression thenBranch scope1 st2
      (match elseBranch with
       | some e =>
          let (elseT, scope3, st4) := analyzeExpression e scope2 st3
          let st5 :=
            if !typesCompatible thenT elseT then addSemWarning st4 .ifBranchesIncompatible
            else st4
          (thenT, scope3, st5)
       | none => (thenT, scope2, st3))
  | .listExpression elements, scope, st =>
      let (elementType, scope1, st1) := analyzeListElements elements none scope st
      (.listT (elementType.getD .uint), scope1, st1)
  | .tupleExpression fields, scope, st =>
      let (scope1, st1) := analyzeTupleFields fields scope st
      (.tupleT, scope1, st1)
  | .uintLiteral _, scope, st => (.uint, scope, st)
  | .intLiteral _, scope, st => (.int, scope, st)
  | .boolLiteral _, scope, st => (.bool, scope, st)
  | .stringLiteral _ encoding, scope, st =>
      (if encoding == .ascii then .stringAscii else .stringUtf8, scope, st)
  | .buffLiteral value, scope, st => (.buff value.length, scope, st)
  | .principalLiteral _ _ _, scope, st => (.principal, scope, st)
  | .matchExpression _ _, scope, st =>
      (.uint, scope, addSemWarning st (.unknownExpressionType "match-expression"))

/-- Sequential analysis of an expression list (argument lists and bodies). -/
def analyzeExpressionList :
    List Expression → Scope → SemState → List ClarityType × Scope × SemState
  | [], scope, st => ([], scope, st)
  | e :: rest, scope, st =>
      let (t, scope1, st1) := analyzeExpression e scope st
      let (ts, scope2, st2) := analyzeExpressionList rest scope1 st1
      (t :: ts, scope2, st2)

/-- The binding loop of `analyzeLetExpression` (values analyzed against
the enclosing scope). -/
def analyzeBindingList :
    List Binding → Scope → List (String × VariableInfo) → SemState →
      Scope × List (String × VariableInfo) × SemState
  | [], scope, acc, st => (scope, acc, st)
  | .mk name value :: rest, scope, acc, st =>
      let (bindingType, scope1, st1) := analyzeExpression value scope st
      let vi : VariableInfo :=
        { name := name, type := bindingType, initialValue := value,
          mutable := false, accessed := false, modified := false }
      analyzeBindingList rest scope1 (setA acc name vi) st1

/-- The element loop of `analyzeListExpression` (first element fixes the
element type; later incompatible elements warn). -/
def analyzeListElements :
    List Expression → Option ClarityType → Scope → SemState →
      Option ClarityType × Scope × SemState
  | [], elementType, scope, st => (elementType, scope, st)
  | e :: rest, elementType, scope, st =>
      let (t, scope1, st1) := analyzeExpression e scope st
      match elementType with
      | none => analyzeListElements rest (some t) scope1 st1
      | some t0 =>
          let st2 :=
            if !typesCompatible t0 t then addSemWarning st1 .listElementsIncompatible else st1
          analyzeListElements rest (some t0) scope1 st2

/-- The field loop of `analyzeTupleExpression`. -/
def analyzeTupleFields : List TupleField → Scope → SemState → Scope × SemState
  | [], scope, st => (scope, st)
  | .mk _ value :: rest, scope, st =>
      let (_, scope1, st1) := analyzeExpression value scope st
      analyzeTupleFields rest scope1 st1

end

/-- `EnhancedSemanticAnalyzer.analyzeFunctionDefinition`: build the local
scope from the parameters, then walk the body.  (The three summary flags
the source writes onto the node are the pure functions `callsExternalOf`,
`modifiesStateOf`, `canFailOf` of the body.) -/
def analyzeFunctionDefinitionSem (parameters : List Parameter) (body : List Expression)
    (st : SemState) : SemState :=
  let localScope : Scope := parameters.foldl
    (fun sc p => setA sc p.name
      { name := p.name, type := p.paramType, initialValue := .identifier "parameter",
        mutable := false, accessed := false, modified := false })
    []
  (analyzeExpressionList body localScope st).2.2

/-- `EnhancedSemanticAnalyzer.analyzeTopLevelExpression` (statements with
a `value` or `initialValue` expression field). -/
def analyzeTopLevelExpression (stmt : TopLevelStatement) (st : SemState) : SemState :=
  match stmt with
  | .constantDefinition _ value => (analyzeExpression value [] st).2.2
  | .dataVarDefinition _ _ initialValue => (analyzeExpression initialValue [] st).2.2
  | _ => st

/-- Phase 2: `EnhancedSemanticAnalyzer.analyzeExpressions`. -/
def analyzeExpressionsPhase (body : List TopLevelStatement) (st : SemState) : SemState :=
  body.foldl
    (fun st stmt =>
      match stmt with
      | .functionDefinition _ _ parameters fbody =>
          analyzeFunctionDefinitionSem parameters fbody st
      | _ => analyzeTopLevelExpression stmt st)
    st

mutual

/-- `EnhancedSemanticAnalyzer.expressionCallsFunction` (recurses into
call arguments only). -/
def expressionCallsFunction : Expression → String → Bool
  | .functionCall fn args, functionName =>
      getFunctionNameSem fn == functionName || expressionsCallFunction args functionName
  | _, _ => false

/-- `EnhancedSemanticAnalyzer.expressionsCallFunction`. -/
def expressionsCallFunction : List Expression → String → Bool
  | [], _ => false
  | e :: rest, functionName =>
      expressionCallsFunction e functionName || expressionsCallFunction rest functionName

end

/-- `EnhancedSemanticAnalyzer.statementCallsFunction`. -/
def statementCallsFunction (stmt : TopLevelStatement) (functionName : String) : Bool :=
  match stmt with
  | .functionDefinition _ _ _ body => expressionsCallFunction body functionName
  | _ => false

/-- `EnhancedSemanticAnalyzer.isFunctionCalled`. -/
def isFunctionCalled (functionName : String) (body : List TopLevelStatement) : Bool :=
  body.any (fun stmt => statementCallsFunction stmt functionName)

/-- Phase 3: `EnhancedSemanticAnalyzer.performUsageAnalysis`. -/
def performUsageAnalysis (body : List TopLevelStatement) (st : SemState) : SemState :=
  let st1 := st.env.functions.foldl
    (fun acc p =>
      if p.2.visibility == .privateV && !isFunctionCalled p.1 body then
        addSemWarning acc (.privateFunctionNeverCalled p.1)
      else acc)
    st
  let st2 := st1.env.constants.foldl
    (fun acc p => if !p.2.used then addSemWarning acc (.constantNeverUsed p.1) else acc) st1
  let st3 := st2.env.vars.foldl
    (fun acc p => if !p.2.accessed then addSemWarning acc (.variableNeverAccessed p.1) else acc)
    st2
  st3.env.maps.foldl
    (fun acc p => if !p.2.accessed then addSemWarning acc (.mapNeverAccessed p.1) else acc) st3

structure SemanticAnalysisResult where
  typeEnvironment : TypeEnvironment
  errors : List SemanticError
  warnings : List SemanticWarning
  success : Bool
deriving Repr

/-- `EnhancedSemanticAnalyzer.analyze`: the four ordered passes.  Phase 4
(`updateAstWithSemanticInfo`) attaches the environment to the program
node and writes inferred return types back onto function definitions;
both are cached copies of environment data and need no separate model. -/
def analyze (ast : ClarityAst) : SemanticAnalysisResult :=
  let st0 : SemState := { env := emptyTypeEnvironment, errors := [], warnings := [] }
  let st1 := collectDeclarations ast.body st0
  let st2 := analyzeExpressionsPhase ast.body st1
  let st3 := performUsageAnalysis ast.body st2
  { typeEnvironment := st3.env, errors := st3.errors, warnings := st3.warnings,
    success := st3.errors.isEmpty }

/-! ## Parsing service (`EnhancedClarityParserService.parseText`) -/

/-- The message text of each semantic warning template. -/
def SemanticWarning.message : SemanticWarning → String
  | .unknownExpressionType t => "Unknown expression type: " ++ t
  | .ifConditionShouldBeBool => "If condition should be boolean"
  | .ifBranchesIncompatible => "If branches have incompatible types"
  | .listElementsIncompatible => "List elements have incompatible types"
  | .privateFunctionNeverCalled n => "Private function \x27" ++ n ++ "\x27 is never called"
  | .constantNeverUsed n => "Constant \x27" ++ n ++ "\x27 is never used"
  | .variableNeverAccessed n => "Variable \x27" ++ n ++ "\x27 is never accessed"
  | .mapNeverAccessed n => "Map \x27" ++ n ++ "\x27 is never accessed"

/-- The `'parse' | 'semantic'` origin tag of an aggregated diagnostic. -/
inductive ErrorOrigin where
  | parse | semantic
deriving Repr, DecidableEq

/-- One aggregated error/warning entry of `EnhancedParseResult`
(locations and machine codes are projections of the underlying records
and are dropped here). -/
structure TaggedMessage where
  origin : ErrorOrigin
  message : String
deriving Repr, DecidableEq

structure EnhancedParseResult where
  ast : Option ClarityAst
  parseResult : ParseResult
  semanticResult : Option SemanticAnalysisResult
  success : Bool
  errors : List TaggedMessage
  warnings : List TaggedMessage
deriving Repr

/-- `EnhancedClarityParserService.parseText`: parse, collect parse
diagnostics, and — only when parsing produced no error and an AST —
run semantic analysis and aggregate its diagnostics. -/
def parseText (fuel : Nat) (sourceCode : List Char) : Option EnhancedParseResult :=
  match parse fuel sourceCode with
  | none => none
  | some parseResult =>
    let errors := parseResult.errors.map
      (fun e => ({ origin := .parse, message := e.message } : TaggedMessage))
    let warnings := parseResult.warnings.map
      (fun w => ({ origin := .parse, message := w.message } : TaggedMessage))
    -- `if (!parseResult.success || !parseResult.ast) return result;`
    if !parseResult.success || parseResult.ast.isNone then
      some { ast := none, parseResult := parseResult, semanticResult := none,
             success := false, errors := errors, warnings := warnings }
    else
      match parseResult.ast with
      | none =>
          some { ast := none, parseResult := parseResult, semanticResult := none,
                 success := false, errors := errors, warnings := warnings }
      | some ast =>
        let semanticResult := analyze ast
        let errors := errors ++ semanticResult.errors.map
          (fun e => ({ origin := .semantic, message := e.message } : TaggedMessage))
        let warnings := warnings ++ semanticResult.warnings.map
          (fun w => ({ origin := .semantic, message := w.message } : TaggedMessage))
        some { ast := some ast, parseResult := parseResult,
               semanticResult := some semanticResult,
               success := parseResult.success && semanticResult.success,
               errors := errors, warnings := warnings }

/-! ## Static / vulnerability analyzer (`EnhancedStaticAnalyzer`)

Only the vulnerability detectors and the data-flow graph are modelled —
the fields of `analyzeEnhanced`'s result that the claims are about.  The
detectors read two cached annotations: `call.isExternal` (the pure
function `semIsExternalCall`) and `func.modifiesState` (the pure function
`modifiesStateOf`), exactly the values the semantic analyzer writes for
every node these detectors inspect. -/

/-- `EnhancedStaticAnalyzer.getFunctionName` (returns `""` for a
non-identifier callee, unlike the semantic analyzer's variant). -/
def getFunctionNameSA : Expression → String
  | .identifier n => n
  | _ => ""

/-- `EnhancedStaticAnalyzer.isExternalCall`
(`call.isExternal || name === 'contract-call?'`). -/
def isExternalCallSA : Expression → Bool
  | .functionCall fn _ => semIsExternalCall fn || getFunctionNameSA fn == "contract-call?"
  | _ => false

/-- `EnhancedStaticAnalyzer.isStateModification`. -/
def isStateModification : Expression → Bool
  | .functionCall fn _ =>
      ["var-set", "map-set", "map-insert", "map-delete"].contains (getFunctionNameSA fn)
  | _ => false

/-- The scanning loop of `EnhancedStaticAnalyzer.hasReentrancyPattern`:
an external call, then later in the (top-level) list a state-mutating
call. -/
def hasReentrancyPatternLoop : List Expression → Bool → Bool
  | [], _ => false
  | e :: rest, hasExternalCall =>
      if isExternalCallSA e then hasReentrancyPatternLoop rest true
      else if hasExternalCall && isStateModification e then true
      else hasReentrancyPatternLoop rest hasExternalCall

/-- `EnhancedStaticAnalyzer.hasReentrancyPattern`. -/
def hasReentrancyPattern (expressions : List Expression) : Bool :=
  hasReentrancyPatternLoop expressions false

/-- `EnhancedStaticAnalyzer.hasArithmeticBoundsCheck`: the stub that
always reports "no check found". -/
def hasArithmeticBoundsCheck (_function : Expression) (_arguments : List Expression) : Bool :=
  false

/-- `EnhancedStaticAnalyzer.findUnsafeArithmetic`: top-level `+`/`-`/`*`
calls (without a bounds check, which is always absent). -/
def findUnsafeArithmetic (expressions : List Expression) : List String :=
  expressions.filterMap fun e =>
    match e with
    | .functionCall fn args =>
        let funcName := getFunctionNameSA fn
        if ["+", "-", "*"].contains funcName && !hasArithmeticBoundsCheck fn args then
          some funcName
        else none
    | _ => none

/-- `EnhancedStaticAnalyzer.involvesAuthIdentifiers`: a *direct* argument
that is an identifier named `tx-sender`/`contract-caller`/`contract-owner`. -/
def involvesAuthIdentifiers (args : List Expression) : Bool :=
  args.any fun a =>
    match a with
    | .identifier n => ["tx-sender", "contract-caller", "contract-owner"].contains n
    | _ => false

/-- `EnhancedStaticAnalyzer.isAuthorizationCheck`. -/
def isAuthorizationCheck : Expression → Bool
  | .functionCall fn args =>
      let funcName := getFunctionNameSA fn
      if funcName == "asserts!" || funcName == "is-eq" then involvesAuthIdentifiers args
      else false
  | _ => false

/-- `EnhancedStaticAnalyzer.hasAuthorizationCheck`: scans only the
top-level expressions of the body. -/
def hasAuthorizationCheck (expressions : List Expression) : Bool :=
  expressions.any isAuthorizationCheck

/-- `EnhancedStaticAnalyzer.findUnsafeOperations`: top-level
`unwrap!`/`unwrap-panic` and `/` calls, with their recommendations. -/
def findUnsafeOperations (expressions : List Expression) : List (String × String) :=
  expressions.foldl
    (fun acc e =>
      match e with
      | .functionCall fn _ =>
          let funcName := getFunctionNameSA fn
          let acc1 :=
            if funcName == "unwrap!" || funcName == "unwrap-panic" then
              acc ++ [(funcName, "Use proper error handling instead of unwrap! or unwrap-panic.")]
            else acc
          if funcName == "/" then
            acc1 ++ [("division", "Check for division by zero before performing division.")]
          else acc1
      | _ => acc)
    []

inductive VulnCategory where
  | reentrancy | overflow | authorization | unsafeOperation | stateInconsistency
deriving Repr, DecidableEq

inductive RiskLevel where
  | low | medium | high | critical
deriving Repr, DecidableEq

/-- A `VulnerabilityIssue` (suggestion, location and code example are
diagnostic payload and dropped). -/
structure VulnerabilityIssue where
  type : String
  category : VulnCategory
  severity : String
  riskLevel : RiskLevel
  cwe : Option String
  message : String
  recommendation : String
deriving Repr, DecidableEq

/-- The reentrancy finding's message for a function name. -/
def reentrancyMessage (name : String) : String :=
  "Function \x27" ++ name ++ "\x27 may be vulnerable to reentrancy attacks"

/-- `EnhancedStaticAnalyzer.detectReentrancyVulnerabilities`. -/
def detectReentrancyVulnerabilities (ast : ClarityAst) : List VulnerabilityIssue :=
  ast.body.filterMap fun stmt =>
    match stmt with
    | .functionDefinition name _ _ body =>
        if hasReentrancyPattern body then
          some { type := "reentrancy-vulnerability", category := .reentrancy,
                 severity := "error", riskLevel := .high, cwe := some "CWE-841",
                 message := reentrancyMessage name,
                 recommendation := "Use the checks-effects-interactions pattern: perform all checks first, then update state, then make external calls." }
        else none
    | _ => none

/-- `EnhancedStaticAnalyzer.detectOverflowVulnerabilities`. -/
def detectOverflowVulnerabilities (ast : ClarityAst) : List VulnerabilityIssue :=
  ast.body.foldl
    (fun acc stmt =>
      match stmt with
      | .functionDefinition _ _ _ body =>
          acc ++ (findUnsafeArithmetic body).map (fun op =>
            { type := "integer-overflow", category := .overflow,
              severity := "warning", riskLevel := .medium, cwe := some "CWE-190",
              message := "Potential integer overflow in " ++ op ++ " operation",
              recommendation := "Add bounds checking before arithmetic operations to prevent overflow/underflow." })
      | _ => acc)
    []

/-- The missing-authorization finding's message for a function name. -/
def missingAuthMessage (name : String) : String :=
  "Public function \x27" ++ name ++ "\x27 modifies state without authorization checks"

/-- `EnhancedStaticAnalyzer.detectAuthorizationIssues` (reads the
`modifiesState` flag, i.e. `modifiesStateOf`). -/
def detectAuthorizationIssues (ast : ClarityAst) : List VulnerabilityIssue :=
  ast.body.filterMap fun stmt =>
    match stmt with
    | .functionDefinition name visibility _ body =>
        if visibility == .publicV && modifiesStateOf body then
          if !hasAuthorizationCheck body then
            some { type := "missing-authorization", category := .authorization,
                   severity := "error", riskLevel := .high, cwe := some "CWE-862",
                   message := missingAuthMessage name,
                   recommendation := "Add proper authorization checks to ensure only authorized users can modify state." }
          else none
        else none
    | _ => none

/-- `EnhancedStaticAnalyzer.detectUnsafeOperations`. -/
def detectUnsafeOperations (ast : ClarityAst) : List VulnerabilityIssue :=
  ast.body.foldl
    (fun acc stmt =>
      match stmt with
      | .functionDefinition _ _ _ body =>
          acc ++ (findUnsafeOperations body).map (fun op =>
            { type := "unsafe-operation", category := .unsafeOperation,
              severity := "warning", riskLevel := .medium, cwe := none,
              message := "Unsafe operation: " ++ op.1,
              recommendation := op.2 })
      | _ => acc)
    []

inductive DataFlowType where
  | variableT | mapT | constantT
deriving Repr, DecidableEq

structure DataFlowNode where
  name : String
  type : DataFlowType
  readers : List String
  writers : List String
  dependencies : List String
deriving Repr, DecidableEq

/-- `EnhancedStaticAnalyzer.findVariableReaders`: unimplemented stub. -/
def findVariableReaders (_ast : ClarityAst) (_name : String) : List String := []

/-- `EnhancedStaticAnalyzer.findVariableWriters`: unimplemented stub. -/
def findVariableWriters (_ast : ClarityAst) (_name : String) : List String := []

/-- `EnhancedStaticAnalyzer.findVariableDependencies`: unimplemented stub. -/
def findVariableDependencies (_ast : ClarityAst) (_name : String) : List String := []

/-- `EnhancedStaticAnalyzer.findMapReaders`: unimplemented stub. -/
def findMapReaders (_ast : ClarityAst) (_name : String) : List String := []

/-- `EnhancedStaticAnalyzer.findMapWriters`: unimplemented stub. -/
def findMapWriters (_ast : ClarityAst) (_name : String) : List String := []

/-- `EnhancedStaticAnalyzer.findMapDependencies`: unimplemented stub. -/
def findMapDependencies (_ast : ClarityAst) (_name : String) : List String := []

/-- `EnhancedStaticAnalyzer.findConstantReaders`: unimplemented stub. -/
def findConstantReaders (_ast : ClarityAst) (_name : String) : List String := []

/-- `EnhancedStaticAnalyzer.findConstantDependencies`: unimplemented stub. -/
def findConstantDependencies (_ast : ClarityAst) (_name : String) : List String := []

/-- `EnhancedStaticAnalyzer.buildDataFlowGraph`: one node per variable,
map and constant of the type environment (constants get an empty writer
list directly; the rest come from the stub finders). -/
def buildDataFlowGraph (ast : ClarityAst) (env : TypeEnvironment) : List DataFlowNode :=
  env.vars.map (fun p =>
    ({ name := p.1, type := .variableT,
       readers := findVariableReaders ast p.1, writers := findVariableWriters ast p.1,
       dependencies := findVariableDependencies ast p.1 } : DataFlowNode)) ++
  env.maps.map (fun p =>
    ({ name := p.1, type := .mapT,
       readers := findMapReaders ast p.1, writers := findMapWriters ast p.1,
       dependencies := findMapDependencies ast p.1 } : DataFlowNode)) ++
  env.constants.map (fun p =>
    ({ name := p.1, type := .constantT,
       readers := findConstantReaders ast p.1, writers := [],
       dependencies := findConstantDependencies ast p.1 } : DataFlowNode))

/-- `EnhancedStaticAnalyzer.detectStateInconsistencies`: a variable node
with more than one writer. -/
def detectStateInconsistencies (ast : ClarityAst) (env : TypeEnvironment) :
    List VulnerabilityIssue :=
  (buildDataFlowGraph ast env).filterMap fun node =>
    if node.type == .variableT && node.writers.length > 1 then
      some { type := "state-inconsistency", category := .stateInconsistency,
             severity := "info", riskLevel := .low, cwe := none,
             message := "Variable \x27" ++ node.name ++
               "\x27 is modified by multiple functions: " ++
               String.intercalate ", " node.writers,
             recommendation := "Ensure proper synchronization and access patterns for shared state." }
    else none

/-- The `vulnerabilities` list of `EnhancedStaticAnalyzer.analyzeEnhanced`
(the five detectors, in source order), over a program and its analyzed
type environment. -/
def analyzeEnhancedVulnerabilities (ast : ClarityAst) (env : TypeEnvironment) :
    List VulnerabilityIssue :=
  detectReentrancyVulnerabilities ast ++
  detectOverflowVulnerabilities ast ++
  detectAuthorizationIssues ast ++
  detectUnsafeOperations ast ++
  detectStateInconsistencies ast env

/-! ## Claim-side (specification) predicates

The following definitions are modelled from the spec's words, not from
the source: they state what the claims say "contains" means (any nesting
depth), to be compared against the source-derived top-level scans. -/

mutual

/-- Modelled from the spec: a call at any nesting depth whose callee name
and argument list satisfy `q` ("contains covers calls at any nesting
depth within the body"). -/
def specExprAnyCall (q : String → List Expression → Bool) : Expression → Bool
  | .functionCall fn args =>
      q (getFunctionNameSem fn) args || specExprAnyCall q fn || specExprsAnyCall q args
  | .letExpression bindings body =>
      specBindingsAnyCall q bindings || specExprsAnyCall q body
  | .beginExpression body => specExprsAnyCall q body
  | .ifExpression c t e =>
      specExprAnyCall q c || specExprAnyCall q t || specOptAnyCall q e
  | .matchExpression subject arms =>
      specExprAnyCall q subject || specArmsAnyCall q arms
  | .listExpression es => specExprsAnyCall q es
  | .tupleExpression fs => specFieldsAnyCall q fs
  | _ => false

def specExprsAnyCall (q : String → List Expression → Bool) : List Expression → Bool
  | [] => false
  | e :: rest => specExprAnyCall q e || specExprsAnyCall q rest

def specOptAnyCall (q : String → List Expression → Bool) : Option Expression → Bool
  | none => false
  | some e => specExprAnyCall q e

def specBindingsAnyCall (q : String → List Expression → Bool) : List Binding → Bool
  | [] => false
  | .mk _ v :: rest => specExprAnyCall q v || specBindingsAnyCall q rest

def specArmsAnyCall (q : String → List Expression → Bool) : List MatchArm → Bool
  | [] => false
  | .mk _ b :: rest => specExprAnyCall q b || specArmsAnyCall q rest

def specFieldsAnyCall (q : String → List Expression → Bool) : List TupleField → Bool
  | [] => false
  | .mk _ v :: rest => specExprAnyCall q v || specFieldsAnyCall q rest

end

/-- Modelled from the spec: the body contains (at any depth) an external
call — callee `contract-call?` or a dotted name. -/
def specContainsExternalCall (body : List Expression) : Bool :=
  specExprsAnyCall (fun n _ => n == "contract-call?" || stringIncludesChar n '.') body

/-- Modelled from the spec: the body contains (at any depth) a
state-mutating call (`var-set`/`map-set`/`map-insert`/`map-delete`). -/
def specContainsStateMutatingCall (body : List Expression) : Bool :=
  specExprsAnyCall (fun n _ => ["var-set", "map-set", "map-insert", "map-delete"].contains n) body

/-- Modelled from the spec: the body contains (at any depth) a call to one
of the claimed failable builtins (`unwrap!`, `unwrap-panic`, `asserts!`,
the transfer operations, `map-insert`, `contract-call?`). -/
def specContainsFailableCall (body : List Expression) : Bool :=
  specExprsAnyCall
    (fun n _ => ["unwrap!", "unwrap-panic", "asserts!", "stx-transfer?", "ft-transfer?",
      "nft-transfer?", "map-insert", "contract-call?"].contains n) body

/-- Modelled from the spec: the body contains (at any depth) an
`asserts!`/`is-eq` call whose arguments reference an authorization
identifier. -/
def specContainsAuthCheck (body : List Expression) : Bool :=
  specExprsAnyCall
    (fun n args => (n == "asserts!" || n == "is-eq") && involvesAuthIdentifiers args) body

/-- Modelled from the spec: the body contains (at any depth) an arithmetic
call with callee `+`, `-` or `*`. -/
def specContainsArithmeticCall (body : List Expression) : Bool :=
  specExprsAnyCall (fun n _ => ["+", "-", "*"].contains n) body

/-- Modelled from the spec: the functions whose recorded side-effect
annotations (§4.3, `analyzeSideEffects`) include a write to `target` —
the spec's derivation of a data-flow node's writer list. -/
def specWriters (body : List TopLevelStatement) (target : String) : List String :=
  body.filterMap fun stmt =>
    match stmt with
    | .functionDefinition name _ _ fbody =>
        if specExprsAnyCall
            (fun n args => (analyzeSideEffects n args).any
              (fun se => se.operation == .write && se.target == some target))
            fbody
        then some name
        else none
    | _ => none

/-! ## Concrete programs used by the claim theorems -/

/-- Scenario C (spec §8): the body of a public `withdraw` function that
performs `(unwrap! (stx-transfer? amount tx-sender recipient) (err u1))`
followed by `(map-set balances tx-sender (- balance amount))`. -/
def withdrawBody : List Expression :=
  [ .functionCall (.identifier "unwrap!")
      [ .functionCall (.identifier "stx-transfer?")
          [.identifier "amount", .identifier "tx-sender", .identifier "recipient"],
        .functionCall (.identifier "err") [.uintLiteral 1] ],
    .functionCall (.identifier "map-set")
      [.identifier "balances", .identifier "tx-sender",
       .functionCall (.identifier "-") [.identifier "balance", .identifier "amount"]] ]

/-- Scenario C as a program: `(define-public (withdraw (amount uint)) ...)`
together with the map it writes. -/
def withdrawAst : ClarityAst :=
  { body := [ .mapDefinition "balances" .principal .uint,
              .functionDefinition "withdraw" .publicV
                [{ name := "amount", paramType := .uint }] withdrawBody ] }

/-- The body of the repository test's `increment-if-even` function
(`tests/parser.test.ts`): a `begin` wrapping an `if` whose then-branch
contains `(var-set counter ...)`. -/
def incrementIfEvenBody : List Expression :=
  [ .beginExpression
      [ .ifExpression
          (.functionCall (.identifier "is-eq")
            [ .functionCall (.identifier "mod") [.identifier "amount", .uintLiteral 2],
              .uintLiteral 0 ])
          (.beginExpression
            [ .functionCall (.identifier "var-set")
                [ .identifier "counter",
                  .functionCall (.identifier "+")
                    [ .functionCall (.identifier "var-get") [.identifier "counter"],
                      .identifier "amount" ] ],
              .functionCall (.identifier "ok")
                [.functionCall (.identifier "var-get") [.identifier "counter"]] ])
          (some (.functionCall (.identifier "err") [.uintLiteral 1])) ] ]

/-- A body whose single top-level expression is a `contract-call?` call:
in the claimed failable set, but not in the source's three-name set. -/
def contractCallBody : List Expression :=
  [ .functionCall (.identifier "contract-call?")
      [.principalLiteral "SP123.other" true (some "other"), .identifier "do-it"] ]

/-- A public function whose body contains an authorization check
`(asserts! (is-eq tx-sender contract-owner) (err u1))` as its first
top-level expression, followed by `(var-set admin-setting new-value)`.
The `is-eq` call referencing `tx-sender` sits in the arguments of
`asserts!`, one level down. -/
def guardedSetterBody : List Expression :=
  [ .functionCall (.identifier "asserts!")
      [ .functionCall (.identifier "is-eq")
          [.identifier "tx-sender", .identifier "contract-owner"],
        .functionCall (.identifier "err") [.uintLiteral 1] ],
    .functionCall (.identifier "var-set")
      [.identifier "admin-setting", .identifier "new-value"] ]

def guardedSetterAst : ClarityAst :=
  { body := [ .dataVarDefinition "admin-setting" .uint (.uintLiteral 0),
              .functionDefinition "set-admin" .publicV
                [{ name := "new-value", paramType := .uint }] guardedSetterBody ] }

/-- A function body whose only arithmetic call `(+ a b)` is nested inside
`(ok (+ a b))`. -/
def nestedArithBody : List Expression :=
  [ .functionCall (.identifier "ok")
      [ .functionCall (.identifier "+") [.identifier "a", .identifier "b"] ] ]

def nestedArithAst : ClarityAst :=
  { body := [ .functionDefinition "add-wrapped" .publicV
                [{ name := "a", paramType := .uint }, { name := "b", paramType := .uint }]
                nestedArithBody ] }

/-- A program in which two functions both write the same data variable
`x` with a top-level `(var-set x ...)`. -/
def twoWritersAst : ClarityAst :=
  { body := [ .dataVarDefinition "x" .uint (.uintLiteral 0),
              .functionDefinition "f" .publicV []
                [ .functionCall (.identifier "var-set") [.identifier "x", .uintLiteral 1] ],
              .functionDefinition "g" .publicV []
                [ .functionCall (.identifier "var-set") [.identifier "x", .uintLiteral 2] ] ] }

/-- The union of all characters `scanToken`'s dispatch recognizes: the
whitespace and newline cases, the single-character delimiters, the
comment/string/principal introducers, the literal-prefix cases `0`/`u`,
digits, letters, and the extended symbol set. -/
def isRecognizedChar (c : Char) : Bool :=
  c == ' ' || c == '\r' || c == '\t' || c == '\n' ||
  c == '(' || c == ')' || c == '\x7b' || c == '\x7d' ||
  c == '.' || c == ',' || c == ':' || c == ';' ||
  c == '"' || c == '0' || c == 'u' || c == '\'' ||
  isDigitChar c || isAlphaChar c || isExtendedSymbolChar c

/-! # Claim theorems -/

/-- **C1** (code evaluated at the failing input): on Scenario C's
`withdraw` program — `(unwrap! (stx-transfer? amount tx-sender recipient)
(err u1))` followed by `(map-set balances tx-sender (- balance amount))`
in a public function — the analyzer reports *zero* reentrancy-category
vulnerabilities, not the claimed exactly one naming `withdraw`: the
`unwrap!` call is not an external call (`isExternal` holds only for
`contract-call?` or dotted callees), and nested expressions are never
scanned. -/
theorem reentrancy_scenarioC_not_flagged :
    modifiesStateOf withdrawBody = true ∧
    detectReentrancyVulnerabilities withdrawAst = [] ∧
    (analyzeEnhancedVulnerabilities withdrawAst (analyze withdrawAst).typeEnvironment).filter
      (fun v => v.category == .reentrancy) = [] := by decide

/-- **C2** (code evaluated at the failing inputs): the summary flags are
computed by scanning only the top-level expressions of a body, and the
can-fail scan checks only `unwrap!`/`unwrap-panic`/`asserts!`.  On the
repository test's `increment-if-even` body (a `begin` wrapping an `if`
around `(var-set counter ...)`), `modifiesState` comes out `false`
although the body contains a state-mutating call (and the repository's
own test `tests/parser.test.ts` expects `true`); on a body whose single
top-level expression is a `contract-call?` call, `canFail` comes out
`false` although `contract-call?` is in the claimed failable set. -/
theorem summaryFlags_topLevel_only :
    modifiesStateOf incrementIfEvenBody = false ∧
    specContainsStateMutatingCall incrementIfEvenBody = true ∧
    canFailOf contractCallBody = false ∧
    specContainsFailableCall contractCallBody = true := by decide

/-- **C5** (counterexample): a public function whose body contains the
authorization check `(asserts! (is-eq tx-sender contract-owner) (err u1))`
— an `is-eq` call whose arguments reference `tx-sender` — and then
`(var-set admin-setting new-value)` is still flagged: the detector only
recognizes a check when an `asserts!`/`is-eq` call appears as a top-level
body expression with an authorization identifier as a *direct* argument,
and here `tx-sender` sits inside the nested `is-eq` argument of
`asserts!`. -/
theorem authorization_nested_check_still_flagged :
    specContainsAuthCheck guardedSetterBody = true ∧
    modifiesStateOf guardedSetterBody = true ∧
    detectAuthorizationIssues guardedSetterAst =
      [{ type := "missing-authorization", category := .authorization, severity := "error",
         riskLevel := .high, cwe := some "CWE-862",
         message := missingAuthMessage "set-admin",
         recommendation := "Add proper authorization checks to ensure only authorized users can modify state." }] := by decide

/-- **C6** (counterexample): a function body whose only arithmetic call
`(+ a b)` is nested inside `(ok (+ a b))` yields *zero* overflow
findings — the scan covers only top-level body expressions, so not every
arithmetic call in a body is reported. -/
theorem overflow_nested_arith_not_flagged :
    specContainsArithmeticCall nestedArithBody = true ∧
    detectOverflowVulnerabilities nestedArithAst = [] ∧
    (analyzeEnhancedVulnerabilities nestedArithAst (analyze nestedArithAst).typeEnvironment).filter
      (fun v => v.category == .overflow) = [] := by decide

/-- **C7** (counterexample): in a program where two functions `f` and `g`
both write the data variable `x`, the spec-side derivation from the
recorded side-effect annotations gives writers `[f, g]`, but the built
data-flow node for `x` has an empty writer list (the writer analysis is
an unimplemented stub), and no state-inconsistency finding is produced. -/
theorem dataflow_writers_stubbed_empty :
    specWriters twoWritersAst.body "x" = ["f", "g"] ∧
    (buildDataFlowGraph twoWritersAst (analyze twoWritersAst).typeEnvironment).map
      (fun n => (n.name, n.writers)) = [("x", [])] ∧
    detectStateInconsistencies twoWritersAst (analyze twoWritersAst).typeEnvironment = [] := by decide

/-- **C10**: when `scanToken` dispatches on a character recognized by no
branch, it consumes that character and the one immediately following it
(position and column advance by 2) and emits no token; a meaningful
character directly following an unrecognized one is therefore never
tokenized, though tokenization itself still terminates (`scanToken`
always advances — `scanToken_mono` — so the `tokenize` loop is total). -/
theorem scanToken_unrecognized (s : LexState)
    (h1 : lexIsAtEnd s = false)
    (h2 : isRecognizedChar (charAt s.source s.position) = false) :
    scanToken s = { s with position := s.position + 2, column := s.column + 2 } := by
  have h2' := h2
  simp only [isRecognizedChar, Bool.or_eq_false_iff, beq_eq_false_iff_ne, ne_eq] at h2'
  obtain ⟨⟨⟨⟨⟨⟨⟨⟨⟨⟨⟨⟨⟨⟨⟨⟨⟨⟨hsp, hcr⟩, hta⟩, hnl⟩, hlp⟩, hrp⟩, hlb⟩, hrb⟩, hdo⟩,
    hco⟩, hcl⟩, hse⟩, hdq⟩, hze⟩, hu⟩, hq⟩, hdi⟩, hal⟩, hex⟩ := h2'
  unfold scanToken
  dsimp only [lexAdvance]
  rw [if_neg (by simp [hsp, hcr, hta])]
  rw [if_neg hnl]
  rw [if_neg hlp]
  rw [if_neg hrp]
  rw [if_neg hlb]
  rw [if_neg hrb]
  rw [if_neg hdo]
  rw [if_neg hco]
  rw [if_neg hcl]
  rw [if_neg hse]
  rw [if_neg hdq]
  rw [if_neg hze]
  rw [if_neg hu]
  rw [if_neg hq]
  rw [if_neg (by simp [hdi])]
  rw [if_neg (by simp [hal, hex])]

/-- **C10 witness**: `@` is unrecognized; scanning it from the start of
`"@(x"` advances the position past the following `(` (which is therefore
never tokenized) and emits nothing. -/
theorem scanToken_unrecognized_witness :
    lexIsAtEnd { source := "@(x".data, position := 0, line := 1, column := 1, tokens := [] } = false ∧
    isRecognizedChar (charAt "@(x".data 0) = false ∧
    scanToken { source := "@(x".data, position := 0, line := 1, column := 1, tokens := [] } =
      { source := "@(x".data, position := 2, line := 1, column := 3, tokens := [] } :=
  ⟨by decide, by decide,
   scanToken_unrecognized
     { source := "@(x".data, position := 0, line := 1, column := 1, tokens := [] }
     (by decide) (by decide)⟩

/-- The token stream of the one-character source `x`: a bare identifier,
then the EOF terminal. -/
def stuckTokens : List Token :=
  [ { type := .identifier, value := "x", location := { line := 1, column := 1, offset := 1 },
      raw := "x" },
    { type := .eof, value := "", location := { line := 1, column := 2, offset := 1 },
      raw := "" } ]

/-- The error `parseTopLevelStatement` reports on that stream, once per
loop iteration. -/
def stuckError : ParserError :=
  { message := "Expected top-level statement",
    location := { line := 1, column := 1, offset := 1 },
    severity := "error", code := "PARSE_ERROR" }

theorem programLoop_stuck : ∀ (n : Nat) (errs : List ParserError) (ws : List ParserWarning)
    (acc : List TopLevelStatement),
    programLoop n { tokens := stuckTokens, current := 0, errors := errs, warnings := ws } acc
      = none := by
  intro n
  induction n with
  | zero => intro errs ws acc; rfl
  | succ n ih =>
    intro errs ws acc
    cases n with
    | zero => rfl
    | succ m => exact ih (errs ++ [stuckError]) ws acc

/-- **C3**: `parse` does **not** terminate on every finite token
sequence.  On the source `x` — whose token stream is a bare identifier
followed by EOF — the current token is never an opening parenthesis, so
`parseTopLevelStatement` reports an error and returns without consuming
a token; no exception is thrown, so `synchronize` never runs, and the
top-level loop repeats at the same position forever.  Formally: the
fuel-indexed parser returns `none` (fuel exhausted) for *every* fuel. -/
theorem parse_diverges_on_bare_identifier :
    tokenize "x".data = stuckTokens ∧ ∀ fuel : Nat, parse fuel "x".data = none := by
  have htok : tokenize "x".data = stuckTokens := by decide
  refine ⟨htok, ?_⟩
  intro fuel
  cases fuel with
  | zero => rfl
  | succ n =>
    have h := programLoop_stuck n [] [] []
    have hws :
        pSkipWhitespace ({ tokens := stuckTokens, current := 0, errors := [], warnings := [] } : PState)
          = { tokens := stuckTokens, current := 0, errors := [], warnings := [] } := rfl
    simp only [parse, htok, parseTokens, parseProgram, hws, h]

/-! ### C4: the pipeline on sources with recoverable parse errors -/

/-- A source with a recoverable parse error: the constant's value and
the closing parenthesis are missing.  The parser recovers (two errors,
a partial one-statement AST), but the service then returns early. -/
def missingParenSrc : List Char := "(define-constant missing-paren".data

/-- The `ParseResult` `parseTokens` returns always carries an AST, and
its `success` is emptiness of its error list. -/
theorem parseTokens_shape (fuel : Nat) (ts : List Token) (pr : ParseResult)
    (h : parseTokens fuel ts = some pr) :
    pr.ast.isSome = true ∧ pr.success = pr.errors.isEmpty := by
  unfold parseTokens at h
  cases hp : parseProgram fuel { tokens := ts, current := 0, errors := [], warnings := [] } with
  | none => rw [hp] at h; cases h
  | some res =>
    rw [hp] at h
    obtain ⟨ast, s⟩ := res
    cases h
    exact ⟨rfl, rfl⟩

/-- Anti-claim for **C4**: on a source whose parse reports recoverable
errors, `parseText` runs **no** semantic analysis and aggregates only the
parse diagnostics.  Concretely, `(define-constant missing-paren` parses
with two recoverable errors and a partial AST, yet `semanticResult` is
`none`, the final `ast` is `none`, and every aggregated error is
parse-tagged — refuting "semantic analysis still runs over the resulting
partial AST". -/
theorem parseText_missing_paren_skips_semantic :
    (parseText 100 missingParenSrc).map (fun r =>
      (r.parseResult.errors.length, r.parseResult.ast.isSome,
       r.semanticResult.isSome, r.ast.isSome, r.success,
       r.errors.all (fun e => e.origin == ErrorOrigin.parse)))
      = some (2, true, false, false, false, true) := by decide

/-- **C4** (corrected): `parseText` analyzes past parse errors **only
when there are none**.  If parsing reports any error the service returns
early — `semanticResult` and the final `ast` are `none`, `success` is
`false`, and the aggregated errors are exactly the parse errors,
parse-tagged.  Semantic analysis runs (and its diagnostics are appended)
exactly when the parse error list is empty. -/
theorem parseText_semantic_iff_no_parse_errors (fuel : Nat) (src : List Char)
    (r : EnhancedParseResult) (h : parseText fuel src = some r) :
    (r.parseResult.errors ≠ [] →
      r.semanticResult = none ∧ r.ast = none ∧ r.success = false ∧
      r.errors = r.parseResult.errors.map
        (fun e => ({ origin := .parse, message := e.message } : TaggedMessage))) ∧
    (r.parseResult.errors = [] →
      r.semanticResult = r.parseResult.ast.map analyze ∧
      r.ast = r.parseResult.ast ∧ r.parseResult.ast.isSome = true ∧
      r.errors = r.parseResult.ast.elim [] (fun a => (analyze a).errors.map
        (fun e => ({ origin := .semantic, message := e.message } : TaggedMessage)))) := by
  unfold parseText at h
  cases hp : parse fuel src with
  | none => rw [hp] at h; cases h
  | some pr =>
    rw [hp] at h
    simp only [] at h
    have hp' : parseTokens fuel (tokenize src) = some pr := hp
    obtain ⟨hast, hsucc⟩ := parseTokens_shape fuel (tokenize src) pr hp'
    by_cases hne : pr.errors = []
    · have hsuc : pr.success = true := by
        rw [hsucc, hne]; rfl
      have hcond : ¬((!pr.success || pr.ast.isNone) = true) := by
        rw [hsuc]
        cases hA : pr.ast with
        | none => rw [hA] at hast; cases hast
        | some a => exact fun hcc => nomatch hcc
      rw [if_neg hcond] at h
      cases hA : pr.ast with
      | none => rw [hA] at hast; cases hast
      | some a =>
        rw [hA] at h
        cases h
        refine ⟨fun hc => absurd hne hc, fun _ => ⟨?_, ?_, ?_, ?_⟩⟩
        · rw [hA]; exact rfl
        · rw [hA]
        · rw [hA]; exact rfl
        · rw [hA, hne]; exact rfl
    · have hsuc : pr.success = false := by
        rw [hsucc]
        cases hE : pr.errors with
        | nil => exact absurd hE hne
        | cons a l => rfl
      have hcond : (!pr.success || pr.ast.isNone) = true := by
        rw [hsuc]; rfl
      rw [if_pos hcond] at h
      cases h
      exact ⟨fun _ => ⟨rfl, rfl, rfl, rfl⟩, fun hc => absurd hc hne⟩

/-- Witness for the corrected C4 theorem at the concrete erroneous
source: the hypothesis `parseText 100 missingParenSrc = some _` is
discharged by evaluation, and the early-return conclusion follows. -/
def missingParenResult : EnhancedParseResult :=
  (parseText 100 missingParenSrc).getD
    { ast := none, parseResult := { ast := none, errors := [], warnings := [], success := false },
      semanticResult := none, success := false, errors := [], warnings := [] }

theorem parseText_semantic_iff_no_parse_errors_witness :
    parseText 100 missingParenSrc = some missingParenResult ∧
    missingParenResult.parseResult.errors ≠ [] ∧
    missingParenResult.semanticResult = none ∧ missingParenResult.ast = none := by
  have hp : parseText 100 missingParenSrc = some missingParenResult := rfl
  have hne : missingParenResult.parseResult.errors ≠ [] := by decide
  have hmain := (parseText_semantic_iff_no_parse_errors 100 missingParenSrc
    missingParenResult hp).1 hne
  exact ⟨hp, hne, hmain.1, hmain.2.1⟩



/-! ### C9: identifier resolution order -/

/-- `Map.has` agrees with `Map.get`: a key is present exactly when the
lookup is `some`. -/
theorem hasA_eq_isSome_getA {α : Type} (l : List (String × α)) (k : String) :
    hasA l k = (getA l k).isSome := by
  induction l with
  | nil => rfl
  | cons a t ih =>
    simp only [hasA, getA] at ih ⊢
    by_cases h : (a.1 == k) = true
    · simp [List.any_cons, List.find?_cons_of_pos _ h, h]
    · simp [List.any_cons, List.find?_cons_of_neg _ h, h, ih]

/-- **C9** (confirmed): `analyzeIdentifier` resolves a name by checking,
in order, the local lexical scope, the constants mapping, the variables
mapping, the functions mapping, and finally — for a dotted name — an
external-contract reference; every earlier mapping must have missed for a
later one to decide, the first match determines the resolved binding
(marking its usage flag: `accessed` for scope entries and data variables,
`used` for constants; function signatures carry no usage flag and the
state is untouched), and a name matching nothing produces exactly one
undefined-identifier error appended to the error list. -/
theorem analyzeIdentifier_follows_resolution_order
    (name : String) (scope : Scope) (st : SemState) :
    (resolveIdentifier name scope st.env = .localScopeR →
      ∃ v, getA scope name = some v ∧
        analyzeIdentifier name scope st
          = (v.type, updateA scope name (fun w => { w with accessed := true }), st)) ∧
    (resolveIdentifier name scope st.env = .constantR →
      getA scope name = none ∧ ∃ c, getA st.env.constants name = some c ∧
        analyzeIdentifier name scope st
          = (c.type, scope, { st with env := { st.env with constants := updateA st.env.constants name (fun d => { d with used := true }) } })) ∧
    (resolveIdentifier name scope st.env = .variableR →
      getA scope name = none ∧ getA st.env.constants name = none ∧
      ∃ v, getA st.env.vars name = some v ∧
        analyzeIdentifier name scope st
          = (v.type, scope, { st with env := { st.env with vars := updateA st.env.vars name (fun w => { w with accessed := true }) } })) ∧
    (resolveIdentifier name scope st.env = .functionR →
      getA scope name = none ∧ getA st.env.constants name = none ∧
      getA st.env.vars name = none ∧
      ∃ f, getA st.env.functions name = some f ∧
        analyzeIdentifier name scope st = (f.returnType, scope, st)) ∧
    (resolveIdentifier name scope st.env = .contractRefR →
      getA scope name = none ∧ getA st.env.constants name = none ∧
      getA st.env.vars name = none ∧ getA st.env.functions name = none ∧
      stringIncludesChar name '.' = true ∧
      analyzeIdentifier name scope st = (.uint, scope, st)) ∧
    (resolveIdentifier name scope st.env = .undefinedR →
      getA scope name = none ∧ getA st.env.constants name = none ∧
      getA st.env.vars name = none ∧ getA st.env.functions name = none ∧
      stringIncludesChar name '.' = false ∧
      analyzeIdentifier name scope st
        = (.uint, scope,
           { st with errors := st.errors ++ [SemanticError.undefinedIdentifier name] })) := by
  cases hg1 : getA scope name with
  | some v =>
    have c1 : hasA scope name = true := by rw [hasA_eq_isSome_getA, hg1]; rfl
    have hr : resolveIdentifier name scope st.env = .localScopeR := by
      unfold resolveIdentifier; rw [if_pos c1]
    have ha : analyzeIdentifier name scope st
        = (v.type, updateA scope name (fun w => { w with accessed := true }), st) := by
      unfold analyzeIdentifier; rw [hg1]
    exact ⟨fun _ => ⟨v, rfl, ha⟩,
           fun h => absurd (hr.symm.trans h) (by decide), fun h => absurd (hr.symm.trans h) (by decide),
           fun h => absurd (hr.symm.trans h) (by decide), fun h => absurd (hr.symm.trans h) (by decide),
           fun h => absurd (hr.symm.trans h) (by decide)⟩
  | none =>
  have c1 : ¬(hasA scope name = true) := by rw [hasA_eq_isSome_getA, hg1]; decide
  cases hg2 : getA st.env.constants name with
  | some c =>
    have c2 : hasA st.env.constants name = true := by rw [hasA_eq_isSome_getA, hg2]; rfl
    have hr : resolveIdentifier name scope st.env = .constantR := by
      unfold resolveIdentifier; rw [if_neg c1, if_pos c2]
    have ha : analyzeIdentifier name scope st
        = (c.type, scope, { st with env := { st.env with constants := updateA st.env.constants name (fun d => { d with used := true }) } }) := by
      unfold analyzeIdentifier; rw [hg1, hg2]
    exact ⟨fun h => absurd (hr.symm.trans h) (by decide),
           fun _ => ⟨rfl, c, rfl, ha⟩,
           fun h => absurd (hr.symm.trans h) (by decide), fun h => absurd (hr.symm.trans h) (by decide),
           fun h => absurd (hr.symm.trans h) (by decide), fun h => absurd (hr.symm.trans h) (by decide)⟩
  | none =>
  have c2 : ¬(hasA st.env.constants name = true) := by
    rw [hasA_eq_isSome_getA, hg2]; decide
  cases hg3 : getA st.env.vars name with
  | some v =>
    have c3 : hasA st.env.vars name = true := by rw [hasA_eq_isSome_getA, hg3]; rfl
    have hr : resolveIdentifier name scope st.env = .variableR := by
      unfold resolveIdentifier; rw [if_neg c1, if_neg c2, if_pos c3]
    have ha : analyzeIdentifier name scope st
        = (v.type, scope, { st with env := { st.env with vars := updateA st.env.vars name (fun w => { w with accessed := true }) } }) := by
      unfold analyzeIdentifier; rw [hg1, hg2, hg3]
    exact ⟨fun h => absurd (hr.symm.trans h) (by decide), fun h => absurd (hr.symm.trans h) (by decide),
           fun _ => ⟨rfl, rfl, v, rfl, ha⟩,
           fun h => absurd (hr.symm.trans h) (by decide), fun h => absurd (hr.symm.trans h) (by decide),
           fun h => absurd (hr.symm.trans h) (by decide)⟩
  | none =>
  have c3 : ¬(hasA st.env.vars name = true) := by rw [hasA_eq_isSome_getA, hg3]; decide
  cases hg4 : getA st.env.functions name with
  | some f =>
    have c4 : hasA st.env.functions name = true := by rw [hasA_eq_isSome_getA, hg4]; rfl
    have hr : resolveIdentifier name scope st.env = .functionR := by
      unfold resolveIdentifier; rw [if_neg c1, if_neg c2, if_neg c3, if_pos c4]
    have ha : analyzeIdentifier name scope st = (f.returnType, scope, st) := by
      unfold analyzeIdentifier; rw [hg1, hg2, hg3, hg4]
    exact ⟨fun h => absurd (hr.symm.trans h) (by decide), fun h => absurd (hr.symm.trans h) (by decide),
           fun h => absurd (hr.symm.trans h) (by decide),
           fun _ => ⟨rfl, rfl, rfl, f, rfl, ha⟩,
           fun h => absurd (hr.symm.trans h) (by decide), fun h => absurd (hr.symm.trans h) (by decide)⟩
  | none =>
  have c4 : ¬(hasA st.env.functions name = true) := by
    rw [hasA_eq_isSome_getA, hg4]; decide
  cases hd : stringIncludesChar name '.' with
  | true =>
    have hr : resolveIdentifier name scope st.env = .contractRefR := by
      unfold resolveIdentifier; rw [if_neg c1, if_neg c2, if_neg c3, if_neg c4, if_pos hd]
    have ha : analyzeIdentifier name scope st = (.uint, scope, st) := by
      unfold analyzeIdentifier; rw [hg1, hg2, hg3, hg4, if_pos hd]
    exact ⟨fun h => absurd (hr.symm.trans h) (by decide), fun h => absurd (hr.symm.trans h) (by decide),
           fun h => absurd (hr.symm.trans h) (by decide), fun h => absurd (hr.symm.trans h) (by decide),
           fun _ => ⟨rfl, rfl, rfl, rfl, rfl, ha⟩,
           fun h => absurd (hr.symm.trans h) (by decide)⟩
  | false =>
    have hd2 : ¬(stringIncludesChar name '.' = true) := by rw [hd]; decide
    have hr : resolveIdentifier name scope st.env = .undefinedR := by
      unfold resolveIdentifier; rw [if_neg c1, if_neg c2, if_neg c3, if_neg c4, if_neg hd2]
    have ha : analyzeIdentifier name scope st
        = (.uint, scope,
           { st with errors := st.errors ++ [SemanticError.undefinedIdentifier name] }) := by
      unfold analyzeIdentifier addSemError; rw [hg1, hg2, hg3, hg4, if_neg hd2]
    exact ⟨fun h => absurd (hr.symm.trans h) (by decide), fun h => absurd (hr.symm.trans h) (by decide),
           fun h => absurd (hr.symm.trans h) (by decide), fun h => absurd (hr.symm.trans h) (by decide),
           fun h => absurd (hr.symm.trans h) (by decide),
           fun _ => ⟨rfl, rfl, rfl, rfl, rfl, ha⟩⟩


/-- Witness for the C9 theorem at a concrete input: the name `mystery`
matches no mapping of the empty environment and contains no dot, so the
analysis falls through the whole chain and appends exactly one
undefined-identifier error. -/
theorem analyzeIdentifier_follows_resolution_order_witness :
    resolveIdentifier "mystery" []
      ({ env := emptyTypeEnvironment, errors := [], warnings := [] } : SemState).env
      = .undefinedR ∧
    analyzeIdentifier "mystery" []
      { env := emptyTypeEnvironment, errors := [], warnings := [] }
      = (.uint, [],
         { env := emptyTypeEnvironment,
           errors := [SemanticError.undefinedIdentifier "mystery"], warnings := [] }) := by
  have hres : resolveIdentifier "mystery" []
      ({ env := emptyTypeEnvironment, errors := [], warnings := [] } : SemState).env
      = .undefinedR := by decide
  have h := (analyzeIdentifier_follows_resolution_order "mystery" []
      { env := emptyTypeEnvironment, errors := [], warnings := [] }).2.2.2.2.2 hres
  exact ⟨hres, h.2.2.2.2.2⟩


/-! ### C5: missing-authorization detection -/

/-- The missing-authorization message determines the function name. -/
theorem missingAuthMessage_inj (n m : String) (h : missingAuthMessage n = missingAuthMessage m) :
    n = m := by
  have h2 := congrArg String.data h
  simp only [missingAuthMessage, String.data_append, List.append_assoc] at h2
  have h3 := List.append_cancel_left h2
  have h4 := List.append_cancel_right h3
  exact congrArg String.mk h4

theorem missingAuthMessage_beq (n m : String) :
    (missingAuthMessage n == missingAuthMessage m) = (n == m) := by
  by_cases h : n = m
  · subst h; simp
  · have h2 : missingAuthMessage n ≠ missingAuthMessage m :=
      fun hc => h (missingAuthMessage_inj n m hc)
    rw [beq_eq_false_iff_ne.mpr h2, beq_eq_false_iff_ne.mpr h]

/-- A top-level direct authorization check is in particular an
authorization reference at some depth (the spec's reading). -/
theorem isAuthCheck_le_spec (e : Expression) (h : isAuthorizationCheck e = true) :
    specExprAnyCall
      (fun n args => (n == "asserts!" || n == "is-eq") && involvesAuthIdentifiers args)
      e = true := by
  cases e with
  | functionCall fn args =>
    cases fn with
    | identifier n =>
      simp only [isAuthorizationCheck, getFunctionNameSA] at h
      by_cases hc : (n == "asserts!" || n == "is-eq") = true
      · rw [if_pos hc] at h
        simp [specExprAnyCall, getFunctionNameSem, hc, h]
      · rw [if_neg hc] at h; cases h
    | functionCall g gs => simp [isAuthorizationCheck, getFunctionNameSA] at h
    | letExpression b bo => simp [isAuthorizationCheck, getFunctionNameSA] at h
    | beginExpression bo => simp [isAuthorizationCheck, getFunctionNameSA] at h
    | ifExpression c t el => simp [isAuthorizationCheck, getFunctionNameSA] at h
    | matchExpression s a => simp [isAuthorizationCheck, getFunctionNameSA] at h
    | listExpression es => simp [isAuthorizationCheck, getFunctionNameSA] at h
    | tupleExpression fs => simp [isAuthorizationCheck, getFunctionNameSA] at h
    | uintLiteral v => simp [isAuthorizationCheck, getFunctionNameSA] at h
    | intLiteral v => simp [isAuthorizationCheck, getFunctionNameSA] at h
    | boolLiteral v => simp [isAuthorizationCheck, getFunctionNameSA] at h
    | stringLiteral v enc => simp [isAuthorizationCheck, getFunctionNameSA] at h
    | buffLiteral v => simp [isAuthorizationCheck, getFunctionNameSA] at h
    | principalLiteral v => simp [isAuthorizationCheck, getFunctionNameSA] at h
  | identifier n => cases h
  | letExpression b bo => cases h
  | beginExpression bo => cases h
  | ifExpression c t el => cases h
  | matchExpression s a => cases h
  | listExpression es => cases h
  | tupleExpression fs => cases h
  | uintLiteral v => cases h
  | intLiteral v => cases h
  | boolLiteral v => cases h
  | stringLiteral v enc => cases h
  | buffLiteral v => cases h
  | principalLiteral v => cases h

/-- Filtering a `filterMap`: the length is that of filtering the source
by the composed predicate. -/
theorem length_filter_filterMap {α β : Type} (F : α → Option β) (p : β → Bool)
    (l : List α) :
    ((l.filterMap F).filter p).length
      = (l.filter (fun a => ((F a).map p).getD false)).length := by
  induction l with
  | nil => rfl
  | cons a t ih =>
    cases hF : F a with
    | none => simp [List.filterMap_cons, List.filter_cons, hF, ih]
    | some b =>
      cases hp : p b with
      | true => simp [List.filterMap_cons, List.filter_cons, hF, hp, ih]
      | false => simp [List.filterMap_cons, List.filter_cons, hF, hp, ih]

/-- `all` over a `filterMap`, pushed to the source list. -/
theorem all_filterMap {α β : Type} (F : α → Option β) (p : β → Bool) (l : List α) :
    (l.filterMap F).all p = l.all (fun a => ((F a).map p).getD true) := by
  induction l with
  | nil => rfl
  | cons a t ih =>
    cases hF : F a with
    | none => simp [List.filterMap_cons, List.all_cons, hF, ih]
    | some b => simp [List.filterMap_cons, List.all_cons, hF, ih]

theorem hasAuthCheck_le_spec (body : List Expression)
    (h : hasAuthorizationCheck body = true) : specContainsAuthCheck body = true := by
  induction body with
  | nil => cases h
  | cons e t ih =>
    simp only [hasAuthorizationCheck, List.any_cons, Bool.or_eq_true] at h
    rcases h with h | h
    · have h2 := isAuthCheck_le_spec e h
      simp [specContainsAuthCheck, specExprsAnyCall, h2]
    · have h2 := ih (by simpa [hasAuthorizationCheck] using h)
      simp only [specContainsAuthCheck, specExprsAnyCall, Bool.or_eq_true] at h2 ⊢
      exact Or.inr h2

/-- **C5** (corrected): the missing-authorization detector flags a public,
state-modifying function exactly when its body has no **top-level**
`asserts!`/`is-eq` call whose **direct** arguments include one of the
authorization identifiers — not "no such call anywhere in the body" as
claimed.  Per function name the finding is reported exactly once (count
equality), every finding is high-risk in the authorization category, and
the claim's true half survives: a body with no authorization reference at
any depth (the spec-modelled predicate) in particular has no top-level
check, so such a function is flagged. -/
theorem detectAuthorizationIssues_amended (ast : ClarityAst) (name : String) :
    (((detectAuthorizationIssues ast).filter
        (fun i => i.message == missingAuthMessage name)).length
      = (ast.body.filter (fun stmt =>
          match stmt with
          | .functionDefinition n vis _ body =>
              (vis == Visibility.publicV && modifiesStateOf body)
                && !hasAuthorizationCheck body && (n == name)
          | _ => false)).length) ∧
    (detectAuthorizationIssues ast).all
      (fun i => i.category == VulnCategory.authorization
        && i.riskLevel == RiskLevel.high) = true ∧
    (∀ body : List Expression,
      specContainsAuthCheck body = false → hasAuthorizationCheck body = false) := by
  refine ⟨?_, ?_, ?_⟩
  · unfold detectAuthorizationIssues
    rw [length_filter_filterMap]
    refine congrArg List.length (List.filter_congr ?_)
    intro stmt hmem
    clear hmem
    cases stmt
    case functionDefinition n vis params body =>
      cases hv : (vis == Visibility.publicV && modifiesStateOf body) with
      | true =>
        cases hc : hasAuthorizationCheck body with
        | true => simp [hv, hc]
        | false => simp [hv, hc, missingAuthMessage_beq]
      | false => simp [hv]
    all_goals simp
  · unfold detectAuthorizationIssues
    rw [all_filterMap, List.all_eq_true]
    intro stmt hmem
    clear hmem
    cases stmt
    case functionDefinition n vis params body =>
      cases hv : (vis == Visibility.publicV && modifiesStateOf body) with
      | true =>
        cases hc : hasAuthorizationCheck body with
        | true => simp [hv, hc]
        | false => simp [hv, hc]
      | false => simp [hv]
    all_goals simp
  · intro body hspec
    cases hh : hasAuthorizationCheck body with
    | false => rfl
    | true =>
      rw [hasAuthCheck_le_spec body hh] at hspec
      exact Bool.noConfusion hspec

/-- Witness for the corrected C5 theorem: on the guarded-setter program
the check is nested, so the count for `set-admin` is one, and the inner
implication holds at a concrete check-free body. -/
theorem detectAuthorizationIssues_amended_witness :
    ((detectAuthorizationIssues guardedSetterAst).filter
        (fun i => i.message == missingAuthMessage "set-admin")).length = 1 ∧
    hasAuthorizationCheck [Expression.uintLiteral 1] = false := by
  have h := detectAuthorizationIssues_amended guardedSetterAst "set-admin"
  exact ⟨h.1.trans (by decide), h.2.2 [Expression.uintLiteral 1] (by decide)⟩


/-! ### C6: overflow detection -/

/-- A fold that only ever appends is the flattened per-element output. -/
theorem foldl_step_eq_flatMap {α β : Type} (g : α → List β)
    (step : List β → α → List β) (hstep : ∀ a x, step a x = a ++ g x) :
    ∀ (l : List α) (acc : List β), l.foldl step acc = acc ++ l.flatMap g := by
  intro l
  induction l with
  | nil => intro acc; simp
  | cons x t ih =>
    intro acc
    rw [List.foldl_cons, hstep, ih, List.flatMap_cons, List.append_assoc]

/-- The bounds-check heuristic is constantly false, so
`findUnsafeArithmetic` is exactly the top-level `+`/`-`/`*` calls. -/
theorem findUnsafeArithmetic_eq (body : List Expression) :
    findUnsafeArithmetic body
      = body.filterMap (fun e =>
          match e with
          | .functionCall fn _ =>
              if ["+", "-", "*"].contains (getFunctionNameSA fn) then
                some (getFunctionNameSA fn)
              else none
          | _ => none) := by
  unfold findUnsafeArithmetic
  refine congrArg (fun F => List.filterMap F body) (funext fun e => ?_)
  cases e <;> simp [hasArithmeticBoundsCheck]

/-- **C6** (corrected): the overflow detector reports one medium-risk
overflow-category finding per **top-level** `+`/`-`/`*` call of each
function body — not per arithmetic call anywhere in the body, as claimed
(a nested call such as `(ok (+ a b))` is invisible to it).  Because the
bounds-check heuristic is constantly false, no top-level call is ever
exempted. -/
theorem detectOverflowVulnerabilities_amended (ast : ClarityAst) :
    detectOverflowVulnerabilities ast
      = ast.body.flatMap (fun stmt =>
          match stmt with
          | .functionDefinition _ _ _ body =>
              (body.filterMap (fun e =>
                match e with
                | .functionCall fn _ =>
                    if ["+", "-", "*"].contains (getFunctionNameSA fn) then
                      some (getFunctionNameSA fn)
                    else none
                | _ => none)).map (fun op =>
                  { type := "integer-overflow", category := .overflow,
                    severity := "warning", riskLevel := .medium, cwe := some "CWE-190",
                    message := "Potential integer overflow in " ++ op ++ " operation",
                    recommendation := "Add bounds checking before arithmetic operations to prevent overflow/underflow." })
          | _ => []) ∧
    (∀ fn args, hasArithmeticBoundsCheck fn args = false) := by
  constructor
  · unfold detectOverflowVulnerabilities
    rw [foldl_step_eq_flatMap (fun stmt =>
          match stmt with
          | .functionDefinition _ _ _ body =>
              (findUnsafeArithmetic body).map (fun op =>
                { type := "integer-overflow", category := .overflow,
                  severity := "warning", riskLevel := .medium, cwe := some "CWE-190",
                  message := "Potential integer overflow in " ++ op ++ " operation",
                  recommendation := "Add bounds checking before arithmetic operations to prevent overflow/underflow." })
          | _ => []) _ ?_ ast.body []]
    · rw [List.nil_append]
      refine congrArg (List.flatMap ast.body) (funext fun stmt => ?_)
      cases stmt <;> simp [findUnsafeArithmetic_eq]
    · intro a x
      cases x <;> simp
  · intro fn args; rfl


/-! ### C7: data-flow graph and state-inconsistency detection -/

theorem filterMap_const_none {α β : Type} (l : List α) :
    l.filterMap (fun _ => (none : Option β)) = [] := by
  induction l with
  | nil => rfl
  | cons a t ih => simp [List.filterMap_cons, ih]

/-- **C7** (corrected): the data-flow graph does contain one node per
variable, map and constant of the type environment — but every reader,
writer and dependency list is empty for **every** program, because the
finder helpers are unimplemented stubs (and constants get a literal empty
writer list).  Consequently no writer list ever has more than one entry
and the state-inconsistency detector reports nothing, ever. -/
theorem buildDataFlowGraph_amended (ast : ClarityAst) (env : TypeEnvironment) :
    (buildDataFlowGraph ast env).map (fun node => (node.name, node.type))
      = env.vars.map (fun p => (p.1, DataFlowType.variableT)) ++
        env.maps.map (fun p => (p.1, DataFlowType.mapT)) ++
        env.constants.map (fun p => (p.1, DataFlowType.constantT)) ∧
    (buildDataFlowGraph ast env).all
      (fun node => node.readers.isEmpty && node.writers.isEmpty
        && node.dependencies.isEmpty) = true ∧
    detectStateInconsistencies ast env = [] := by
  refine ⟨?_, ?_, ?_⟩
  · simp [buildDataFlowGraph, List.map_append, List.map_map, Function.comp_def]
  · simp [buildDataFlowGraph, List.all_append, List.all_map, Function.comp_def,
          findVariableReaders, findVariableWriters, findVariableDependencies,
          findMapReaders, findMapWriters, findMapDependencies,
          findConstantReaders, findConstantDependencies]
    refine ⟨?_, ?_, ?_⟩ <;> (rintro x a b hmem rfl; exact ⟨⟨rfl, rfl⟩, rfl⟩)
  · simp [detectStateInconsistencies, buildDataFlowGraph,
          List.filterMap_append, List.filterMap_map, Function.comp,
          findVariableWriters, findMapWriters, filterMap_const_none]


/-! ### C8: duplicate top-level definitions

Infrastructure: association-list lemmas, and an invariant for the
expression-analysis phase (it appends only undefined-identifier errors
and preserves every mapping's keys and definitional payload, mutating
only usage flags). -/

theorem getA_cons {α : Type} (k0 : String) (v0 : α) (t : List (String × α)) (k : String) :
    getA ((k0, v0) :: t) k = if k0 == k then some v0 else getA t k := by
  by_cases h : (k0 == k) = true
  · rw [if_pos h]
    simp [getA, List.find?_cons_of_pos, h]
  · rw [if_neg h]
    have h2 : ((fun (p : String × α) => p.1 == k) (k0, v0)) = false := by simpa using h
    unfold getA
    simp only [List.find?, h2]

theorem setA_getA_self {α : Type} (l : List (String × α)) (k : String) (v : α) :
    getA (setA l k v) k = some v := by
  induction l with
  | nil => simp [setA, getA_cons, getA]
  | cons p t ih =>
    obtain ⟨k1, v1⟩ := p
    simp only [setA]
    by_cases h : (k1 == k) = true
    · rw [if_pos h, getA_cons, if_pos h]
    · rw [if_neg h, getA_cons, if_neg h]
      exact ih

theorem setA_getA_ne {α : Type} (l : List (String × α)) (k k1 : String) (v : α)
    (hk : (k1 == k) = false) : getA (setA l k v) k1 = getA l k1 := by
  have hk2 : (k == k1) = false := by
    cases hkk : k == k1 with
    | false => rfl
    | true => rw [beq_iff_eq] at hkk; subst hkk; rw [beq_self_eq_true] at hk; cases hk
  induction l with
  | nil => simp [setA, getA_cons, getA, hk2]
  | cons p t ih =>
    obtain ⟨k0, v0⟩ := p
    simp only [setA]
    by_cases h : (k0 == k) = true
    · have h0 : (k0 == k1) = false := by
        rw [beq_iff_eq] at h; subst h; exact hk2
      rw [if_pos h, getA_cons, getA_cons, h0]
      simp
    · rw [if_neg h, getA_cons, getA_cons, ih]

theorem updateA_getA_digest {α β : Type} (digest : α → β) (f : α → α)
    (hd : ∀ x, digest (f x) = digest x) (l : List (String × α)) (k : String) :
    ∀ k1, (getA (updateA l k f) k1).map digest = (getA l k1).map digest := by
  induction l with
  | nil => intro k1; rfl
  | cons p t ih =>
    intro k1
    obtain ⟨k0, v0⟩ := p
    simp only [updateA]
    by_cases h : (k0 == k) = true
    · rw [if_pos h, getA_cons, getA_cons]
      by_cases h1 : (k0 == k1) = true
      · rw [if_pos h1, if_pos h1]
        simp [hd]
      · rw [if_neg h1, if_neg h1]
    · rw [if_neg h, getA_cons, getA_cons]
      by_cases h1 : (k0 == k1) = true
      · rw [if_pos h1, if_pos h1]
      · rw [if_neg h1, if_neg h1]
        exact ih k1

/-- Errors appended by the expression phase are all undefined-identifier
errors. -/
def undefOnly (l : List SemanticError) : Bool :=
  l.all (fun e => match e with | .undefinedIdentifier _ => true | _ => false)

/-- The expression-analysis phase invariant between two states: only
undefined-identifier errors are appended, and every mapping keeps its
keys and definitional payload (usage flags excepted). -/
def Phase2Step (st st1 : SemState) : Prop :=
  (∃ tail, st1.errors = st.errors ++ tail ∧ undefOnly tail = true) ∧
  (∀ k, getA st1.env.functions k = getA st.env.functions k) ∧
  (∀ k, getA st1.env.traits k = getA st.env.traits k) ∧
  (∀ k, (getA st1.env.constants k).map (fun c => (c.type, c.value))
      = (getA st.env.constants k).map (fun c => (c.type, c.value))) ∧
  (∀ k, (getA st1.env.vars k).map (fun v => (v.type, v.initialValue, v.mutable))
      = (getA st.env.vars k).map (fun v => (v.type, v.initialValue, v.mutable))) ∧
  (∀ k, (getA st1.env.maps k).map (fun m => (m.keyType, m.valueType))
      = (getA st.env.maps k).map (fun m => (m.keyType, m.valueType)))

theorem Phase2Step.same (st : SemState) : Phase2Step st st :=
  ⟨⟨[], by simp, by decide⟩, fun _ => rfl, fun _ => rfl, fun _ => rfl,
   fun _ => rfl, fun _ => rfl⟩

theorem Phase2Step.trans {a b c : SemState} (h1 : Phase2Step a b) (h2 : Phase2Step b c) :
    Phase2Step a c := by
  obtain ⟨⟨t1, he1, hu1⟩, hf1, ht1, hc1, hv1, hm1⟩ := h1
  obtain ⟨⟨t2, he2, hu2⟩, hf2, ht2, hc2, hv2, hm2⟩ := h2
  refine ⟨⟨t1 ++ t2, ?_, ?_⟩, fun k => (hf2 k).trans (hf1 k),
          fun k => (ht2 k).trans (ht1 k), fun k => (hc2 k).trans (hc1 k),
          fun k => (hv2 k).trans (hv1 k), fun k => (hm2 k).trans (hm1 k)⟩
  · rw [he2, he1, List.append_assoc]
  · simp only [undefOnly, List.all_append] at hu1 hu2 ⊢
    rw [hu1, hu2]
    rfl

/-- Anything that only changes warnings (or nothing) is a `Phase2Step`. -/
theorem Phase2Step.warn (st : SemState) (w : SemanticWarning) :
    Phase2Step st (addSemWarning st w) := Phase2Step.same st

theorem Phase2Step.of_eq {st st1 : SemState} (he : st1.errors = st.errors)
    (hv : st1.env = st.env) : Phase2Step st st1 := by
  refine ⟨⟨[], by simp [he], by decide⟩, ?_, ?_, ?_, ?_, ?_⟩ <;> intro k <;> rw [hv]


/-- `markResourceAccess` only flips usage flags of existing map/variable
entries. -/
theorem markResourceAccess_fields (fname : String) (args : List Expression)
    (env : TypeEnvironment) :
    (markResourceAccess fname args env).functions = env.functions ∧
    (markResourceAccess fname args env).traits = env.traits ∧
    (markResourceAccess fname args env).constants = env.constants ∧
    (∀ k, (getA (markResourceAccess fname args env).maps k).map
            (fun m => (m.keyType, m.valueType))
        = (getA env.maps k).map (fun m => (m.keyType, m.valueType))) ∧
    (∀ k, (getA (markResourceAccess fname args env).vars k).map
            (fun v => (v.type, v.initialValue, v.mutable))
        = (getA env.vars k).map (fun v => (v.type, v.initialValue, v.mutable))) := by
  refine ⟨?_, ?_, ?_, ?_, ?_⟩ <;>
    (unfold markResourceAccess
     dsimp only
     repeat' split) <;>
    first
      | rfl
      | (intro k; rfl)
      | (intro k; refine updateA_getA_digest _ _ ?_ _ _ k; intro x; rfl)

theorem markResourceAccess_phase2 (fname : String) (args : List Expression)
    (st : SemState) :
    Phase2Step st { st with env := markResourceAccess fname args st.env } := by
  obtain ⟨hf, ht, hc, hm, hv⟩ := markResourceAccess_fields fname args st.env
  refine ⟨⟨[], by simp, by decide⟩, ?_, ?_, ?_, ?_, ?_⟩
  · intro k
    show getA (markResourceAccess fname args st.env).functions k
      = getA st.env.functions k
    rw [hf]
  · intro k
    show getA (markResourceAccess fname args st.env).traits k = getA st.env.traits k
    rw [ht]
  · intro k
    show (getA (markResourceAccess fname args st.env).constants k).map
        (fun c => (c.type, c.value))
      = (getA st.env.constants k).map (fun c => (c.type, c.value))
    rw [hc]
  · intro k
    exact hv k
  · intro k
    exact hm k

/-- `analyzeIdentifier` is a `Phase2Step`: it appends at most one
undefined-identifier error and flips at most one usage flag. -/
theorem analyzeIdentifier_phase2 (name : String) (scope : Scope) (st : SemState) :
    Phase2Step st (analyzeIdentifier name scope st).2.2 := by
  unfold analyzeIdentifier
  cases hg1 : getA scope name with
  | some v => exact Phase2Step.same st
  | none =>
  cases hg2 : getA st.env.constants name with
  | some c =>
    refine ⟨⟨[], by simp, by decide⟩, fun k => rfl, fun k => rfl, ?_,
            fun k => rfl, fun k => rfl⟩
    intro k
    refine updateA_getA_digest _ _ ?_ _ _ k
    intro x
    rfl
  | none =>
  cases hg3 : getA st.env.vars name with
  | some v =>
    refine ⟨⟨[], by simp, by decide⟩, fun k => rfl, fun k => rfl, fun k => rfl,
            ?_, fun k => rfl⟩
    intro k
    refine updateA_getA_digest _ _ ?_ _ _ k
    intro x
    rfl
  | none =>
  cases hg4 : getA st.env.functions name with
  | some f => exact Phase2Step.same st
  | none =>
  cases hd : stringIncludesChar name '.' with
  | true => exact Phase2Step.same st
  | false =>
    exact ⟨⟨[SemanticError.undefinedIdentifier name], rfl, rfl⟩,
           fun k => rfl, fun k => rfl, fun k => rfl, fun k => rfl, fun k => rfl⟩


/-! Definitional unfolding equations for the expression-analysis family
(one `rfl` lemma per recursive case; stated once because unfolding these
structural recursions inline is expensive for the elaborator). -/

set_option maxHeartbeats 4000000 in
theorem analyzeExpression_eq_functionCall (fn : Expression) (args : List Expression)
    (scope : Scope) (st : SemState) :
    analyzeExpression (.functionCall fn args) scope st
      = (match analyzeExpressionList args scope st with
         | (argTypes, scope1, st1) =>
           (inferFunctionCallReturnType (getFunctionNameSem fn) argTypes
              ({ st1 with env := markResourceAccess (getFunctionNameSem fn) args st1.env } : SemState).env,
            scope1,
            ({ st1 with env := markResourceAccess (getFunctionNameSem fn) args st1.env } : SemState))) := rfl

set_option maxHeartbeats 4000000 in
theorem analyzeExpression_eq_letExpression (bindings : List Binding)
    (body : List Expression) (scope : Scope) (st : SemState) :
    analyzeExpression (.letExpression bindings body) scope st
      = (match analyzeBindingList bindings scope [] st with
         | (scope1, pairs, st1) =>
           match analyzeExpressionList body
               (pairs.foldl (fun sc p => setA sc p.1 p.2) scope1) st1 with
           | (ts, _, st2) => ((ts.getLast?).getD .uint, scope1, st2)) := rfl

set_option maxHeartbeats 4000000 in
theorem analyzeExpression_eq_beginExpression (body : List Expression)
    (scope : Scope) (st : SemState) :
    analyzeExpression (.beginExpression body) scope st
      = (match analyzeExpressionList body scope st with
         | (ts, scope1, st1) => ((ts.getLast?).getD .uint, scope1, st1)) := rfl

set_option maxHeartbeats 16000000 in
theorem analyzeExpression_eq_ifExpression_none (cond thenB : Expression)
    (scope : Scope) (st : SemState) :
    analyzeExpression (.ifExpression cond thenB none) scope st
      = (match analyzeExpression cond scope st with
         | (condT, scope1, st1) =>
           match analyzeExpression thenB scope1
               (if condT.kind != ClarityTypeKind.bool then
                 addSemWarning st1 .ifConditionShouldBeBool
               else st1) with
           | (thenT, scope2, st3) => (thenT, scope2, st3)) := rfl

set_option maxHeartbeats 16000000 in
theorem analyzeExpression_eq_ifExpression_some (cond thenB els : Expression)
    (scope : Scope) (st : SemState) :
    analyzeExpression (.ifExpression cond thenB (some els)) scope st
      = (match analyzeExpression cond scope st with
         | (condT, scope1, st1) =>
           match analyzeExpression thenB scope1
               (if condT.kind != ClarityTypeKind.bool then
                 addSemWarning st1 .ifConditionShouldBeBool
               else st1) with
           | (thenT, scope2, st3) =>
             match analyzeExpression els scope2 st3 with
             | (elseT, scope3, st4) =>
               (thenT, scope3,
                if !typesCompatible thenT elseT then
                  addSemWarning st4 .ifBranchesIncompatible
                else st4)) := rfl

set_option maxHeartbeats 4000000 in
theorem analyzeExpression_eq_listExpression (elements : List Expression)
    (scope : Scope) (st : SemState) :
    analyzeExpression (.listExpression elements) scope st
      = (match analyzeListElements elements none scope st with
         | (elementType, scope1, st1) =>
             (.listT (elementType.getD .uint), scope1, st1)) := rfl

set_option maxHeartbeats 4000000 in
theorem analyzeExpression_eq_tupleExpression (fields : List TupleField)
    (scope : Scope) (st : SemState) :
    analyzeExpression (.tupleExpression fields) scope st
      = (match analyzeTupleFields fields scope st with
         | (scope1, st1) => (.tupleT, scope1, st1)) := rfl

set_option maxHeartbeats 4000000 in
theorem analyzeExpressionList_eq_cons (e : Expression) (rest : List Expression)
    (scope : Scope) (st : SemState) :
    analyzeExpressionList (e :: rest) scope st
      = (match analyzeExpression e scope st with
         | (t, scope1, st1) =>
           match analyzeExpressionList rest scope1 st1 with
           | (ts, scope2, st2) => (t :: ts, scope2, st2)) := rfl

set_option maxHeartbeats 4000000 in
theorem analyzeBindingList_eq_cons (name : String) (value : Expression)
    (rest : List Binding) (scope : Scope) (acc : List (String × VariableInfo))
    (st : SemState) :
    analyzeBindingList (.mk name value :: rest) scope acc st
      = (match analyzeExpression value scope st with
         | (bindingType, scope1, st1) =>
           analyzeBindingList rest scope1 (setA acc name
             { name := name, type := bindingType, initialValue := value,
               mutable := false, accessed := false, modified := false }) st1) := rfl

set_option maxHeartbeats 4000000 in
theorem analyzeListElements_eq_cons (e : Expression) (rest : List Expression)
    (elementType : Option ClarityType) (scope : Scope) (st : SemState) :
    analyzeListElements (e :: rest) elementType scope st
      = (match analyzeExpression e scope st with
         | (t, scope1, st1) =>
           match elementType with
           | none => analyzeListElements rest (some t) scope1 st1
           | some t0 =>
               analyzeListElements rest (some t0) scope1
                 (if !typesCompatible t0 t then addSemWarning st1 .listElementsIncompatible
                  else st1)) := rfl

set_option maxHeartbeats 4000000 in
theorem analyzeTupleFields_eq_cons (n : String) (value : Expression)
    (rest : List TupleField) (scope : Scope) (st : SemState) :
    analyzeTupleFields (.mk n value :: rest) scope st
      = (match analyzeExpression value scope st with
         | (_, scope1, st1) => analyzeTupleFields rest scope1 st1) := rfl

mutual

/-- The whole expression-analysis recursion is a `Phase2Step`. -/
theorem analyzeExpression_phase2 (e : Expression) (scope : Scope) (st : SemState) :
    Phase2Step st (analyzeExpression e scope st).2.2 := by
  cases e with
  | functionCall fn args =>
    rw [analyzeExpression_eq_functionCall]
    have h1 := analyzeExpressionList_phase2 args scope st
    rcases hE : analyzeExpressionList args scope st with ⟨argTypes, scope1, st1⟩
    rw [hE] at h1
    exact Phase2Step.trans h1 (markResourceAccess_phase2 (getFunctionNameSem fn) args st1)
  | identifier name => exact analyzeIdentifier_phase2 name scope st
  | letExpression bindings body =>
    rw [analyzeExpression_eq_letExpression]
    have h1 := analyzeBindingList_phase2 bindings scope [] st
    rcases hB : analyzeBindingList bindings scope [] st with ⟨scope1, pairs, st1⟩
    rw [hB] at h1
    show Phase2Step st ((match analyzeExpressionList body
        (pairs.foldl (fun sc (p : String × VariableInfo) => setA sc p.1 p.2) scope1) st1 with
      | (ts, _, st2) => ((ts.getLast?).getD ClarityType.uint, scope1, st2)).2.2)
    have h2 := analyzeExpressionList_phase2 body
      (pairs.foldl (fun sc p => setA sc p.1 p.2) scope1) st1
    rcases hE : analyzeExpressionList body
        (pairs.foldl (fun sc p => setA sc p.1 p.2) scope1) st1 with ⟨ts, scope2, st2⟩
    rw [hE] at h2
    try rw [hE]
    exact Phase2Step.trans h1 h2
  | beginExpression body =>
    rw [analyzeExpression_eq_beginExpression]
    have h1 := analyzeExpressionList_phase2 body scope st
    rcases hE : analyzeExpressionList body scope st with ⟨ts, scope1, st1⟩
    rw [hE] at h1
    exact h1
  | ifExpression cond thenB elseB =>
    cases elseB with
    | none =>
      rw [analyzeExpression_eq_ifExpression_none]
      have h1 := analyzeExpression_phase2 cond scope st
      rcases hC : analyzeExpression cond scope st with ⟨condT, scope1, st1⟩
      rw [hC] at h1
      have h2 : Phase2Step st1
          (if condT.kind != ClarityTypeKind.bool then
            addSemWarning st1 .ifConditionShouldBeBool
          else st1) := by
        split
        · exact Phase2Step.warn st1 _
        · exact Phase2Step.same st1
      have h3 := analyzeExpression_phase2 thenB scope1
        (if condT.kind != ClarityTypeKind.bool then
          addSemWarning st1 .ifConditionShouldBeBool
        else st1)
      show Phase2Step st ((match analyzeExpression thenB scope1
          (if condT.kind != ClarityTypeKind.bool then
            addSemWarning st1 .ifConditionShouldBeBool
          else st1) with
        | (thenT, scope2, st3) => (thenT, scope2, st3)).2.2)
      rcases hT : analyzeExpression thenB scope1
          (if condT.kind != ClarityTypeKind.bool then
            addSemWarning st1 .ifConditionShouldBeBool
          else st1) with ⟨thenT, scope2, st3⟩
      rw [hT] at h3
      try rw [hT]
      exact Phase2Step.trans h1 (Phase2Step.trans h2 h3)
    | some els =>
      rw [analyzeExpression_eq_ifExpression_some]
      have h1 := analyzeExpression_phase2 cond scope st
      rcases hC : analyzeExpression cond scope st with ⟨condT, scope1, st1⟩
      rw [hC] at h1
      have h2 : Phase2Step st1
          (if condT.kind != ClarityTypeKind.bool then
            addSemWarning st1 .ifConditionShouldBeBool
          else st1) := by
        split
        · exact Phase2Step.warn st1 _
        · exact Phase2Step.same st1
      have h3 := analyzeExpression_phase2 thenB scope1
        (if condT.kind != ClarityTypeKind.bool then
          addSemWarning st1 .ifConditionShouldBeBool
        else st1)
      show Phase2Step st ((match analyzeExpression thenB scope1
          (if condT.kind != ClarityTypeKind.bool then
            addSemWarning st1 .ifConditionShouldBeBool
          else st1) with
        | (thenT, scope2, st3) =>
          match analyzeExpression els scope2 st3 with
          | (elseT, scope3, st4) =>
            (thenT, scope3,
             if !typesCompatible thenT elseT then
               addSemWarning st4 .ifBranchesIncompatible
             else st4)).2.2)
      rcases hT : analyzeExpression thenB scope1
          (if condT.kind != ClarityTypeKind.bool then
            addSemWarning st1 .ifConditionShouldBeBool
          else st1) with ⟨thenT, scope2, st3⟩
      rw [hT] at h3
      try rw [hT]
      show Phase2Step st ((match analyzeExpression els scope2 st3 with
        | (elseT, scope3, st4) =>
          ((thenT : ClarityType), scope3,
           if !typesCompatible thenT elseT then
             addSemWarning st4 .ifBranchesIncompatible
           else st4)).2.2)
      have h4 := analyzeExpression_phase2 els scope2 st3
      rcases hEl : analyzeExpression els scope2 st3 with ⟨elseT, scope3, st4⟩
      rw [hEl] at h4
      try rw [hEl]
      have h5 : Phase2Step st4
          (if !typesCompatible thenT elseT then addSemWarning st4 .ifBranchesIncompatible
           else st4) := by
        split
        · exact Phase2Step.warn st4 _
        · exact Phase2Step.same st4
      exact Phase2Step.trans h1 (Phase2Step.trans h2
        (Phase2Step.trans h3 (Phase2Step.trans h4 h5)))
  | listExpression elements =>
    rw [analyzeExpression_eq_listExpression]
    have h1 := analyzeListElements_phase2 elements none scope st
    rcases hE : analyzeListElements elements none scope st with ⟨et, scope1, st1⟩
    rw [hE] at h1
    exact h1
  | tupleExpression fields =>
    rw [analyzeExpression_eq_tupleExpression]
    have h1 := analyzeTupleFields_phase2 fields scope st
    rcases hE : analyzeTupleFields fields scope st with ⟨scope1, st1⟩
    rw [hE] at h1
    exact h1
  | uintLiteral v => exact Phase2Step.same st
  | intLiteral v => exact Phase2Step.same st
  | boolLiteral v => exact Phase2Step.same st
  | stringLiteral v enc => exact Phase2Step.same st
  | buffLiteral v => exact Phase2Step.same st
  | principalLiteral a b c => exact Phase2Step.same st
  | matchExpression s arms =>
    exact Phase2Step.warn st (.unknownExpressionType "match-expression")

theorem analyzeExpressionList_phase2 (es : List Expression) (scope : Scope)
    (st : SemState) : Phase2Step st (analyzeExpressionList es scope st).2.2 := by
  cases es with
  | nil => exact Phase2Step.same st
  | cons e rest =>
    rw [analyzeExpressionList_eq_cons]
    have h1 := analyzeExpression_phase2 e scope st
    rcases hE : analyzeExpression e scope st with ⟨t, scope1, st1⟩
    rw [hE] at h1
    show Phase2Step st ((match analyzeExpressionList rest scope1 st1 with
      | (ts, scope2, st2) => ((t : ClarityType) :: ts, scope2, st2)).2.2)
    have h2 := analyzeExpressionList_phase2 rest scope1 st1
    rcases hR : analyzeExpressionList rest scope1 st1 with ⟨ts, scope2, st2⟩
    rw [hR] at h2
    try rw [hR]
    exact Phase2Step.trans h1 h2

theorem analyzeBindingList_phase2 (bs : List Binding) (scope : Scope)
    (acc : List (String × VariableInfo)) (st : SemState) :
    Phase2Step st (analyzeBindingList bs scope acc st).2.2 := by
  cases bs with
  | nil => exact Phase2Step.same st
  | cons b rest =>
    obtain ⟨name, value⟩ := b
    rw [analyzeBindingList_eq_cons]
    have h1 := analyzeExpression_phase2 value scope st
    rcases hE : analyzeExpression value scope st with ⟨bt, scope1, st1⟩
    rw [hE] at h1
    show Phase2Step st ((analyzeBindingList rest scope1 (setA acc name
      { name := name, type := bt, initialValue := value, mutable := false,
        accessed := false, modified := false }) st1).2.2)
    have h2 := analyzeBindingList_phase2 rest scope1 (setA acc name
      { name := name, type := bt, initialValue := value, mutable := false,
        accessed := false, modified := false }) st1
    exact Phase2Step.trans h1 h2

theorem analyzeListElements_phase2 (es : List Expression) (et : Option ClarityType)
    (scope : Scope) (st : SemState) :
    Phase2Step st (analyzeListElements es et scope st).2.2 := by
  cases es with
  | nil => exact Phase2Step.same st
  | cons e rest =>
    rw [analyzeListElements_eq_cons]
    have h1 := analyzeExpression_phase2 e scope st
    rcases hE : analyzeExpression e scope st with ⟨t, scope1, st1⟩
    rw [hE] at h1
    cases et with
    | none =>
      show Phase2Step st ((analyzeListElements rest (some t) scope1 st1).2.2)
      have h2 := analyzeListElements_phase2 rest (some t) scope1 st1
      exact Phase2Step.trans h1 h2
    | some t0 =>
      show Phase2Step st ((analyzeListElements rest (some t0) scope1
        (if !typesCompatible t0 t then addSemWarning st1 .listElementsIncompatible
         else st1)).2.2)
      have hw : Phase2Step st1
          (if !typesCompatible t0 t then addSemWarning st1 .listElementsIncompatible
           else st1) := by
        split
        · exact Phase2Step.warn st1 _
        · exact Phase2Step.same st1
      have h2 := analyzeListElements_phase2 rest (some t0) scope1
        (if !typesCompatible t0 t then addSemWarning st1 .listElementsIncompatible
         else st1)
      exact Phase2Step.trans h1 (Phase2Step.trans hw h2)

theorem analyzeTupleFields_phase2 (fs : List TupleField) (scope : Scope)
    (st : SemState) : Phase2Step st (analyzeTupleFields fs scope st).2 := by
  cases fs with
  | nil => exact Phase2Step.same st
  | cons f rest =>
    obtain ⟨fname, value⟩ := f
    rw [analyzeTupleFields_eq_cons]
    have h1 := analyzeExpression_phase2 value scope st
    rcases hE : analyzeExpression value scope st with ⟨t, scope1, st1⟩
    rw [hE] at h1
    show Phase2Step st ((analyzeTupleFields rest scope1 st1).2)
    have h2 := analyzeTupleFields_phase2 rest scope1 st1
    exact Phase2Step.trans h1 h2

end


theorem analyzeFunctionDefinitionSem_phase2 (ps : List Parameter)
    (body : List Expression) (st : SemState) :
    Phase2Step st (analyzeFunctionDefinitionSem ps body st) :=
  analyzeExpressionList_phase2 body _ st

theorem analyzeTopLevelExpression_phase2 (stmt : TopLevelStatement) (st : SemState) :
    Phase2Step st (analyzeTopLevelExpression stmt st) := by
  cases stmt
  case constantDefinition n value => exact analyzeExpression_phase2 value [] st
  case dataVarDefinition n ty iv => exact analyzeExpression_phase2 iv [] st
  all_goals exact Phase2Step.same st

/-- Phase 2 as a whole is a `Phase2Step`. -/
theorem analyzeExpressionsPhase_phase2 (body : List TopLevelStatement) :
    ∀ st : SemState, Phase2Step st (analyzeExpressionsPhase body st) := by
  induction body with
  | nil => intro st; exact Phase2Step.same st
  | cons stmt t ih =>
    intro st
    have hstep : Phase2Step st (match stmt with
        | .functionDefinition _ _ parameters fbody =>
            analyzeFunctionDefinitionSem parameters fbody st
        | _ => analyzeTopLevelExpression stmt st) := by
      cases stmt
      case functionDefinition n v ps b => exact analyzeFunctionDefinitionSem_phase2 ps b st
      all_goals exact analyzeTopLevelExpression_phase2 _ st
    exact Phase2Step.trans hstep (ih _)

theorem foldl_warnOnly {α : Type} (f : SemState → α → SemState)
    (hf : ∀ s a, (f s a).errors = s.errors ∧ (f s a).env = s.env) :
    ∀ (l : List α) (s : SemState),
      (l.foldl f s).errors = s.errors ∧ (l.foldl f s).env = s.env := by
  intro l
  induction l with
  | nil => intro s; exact ⟨rfl, rfl⟩
  | cons a t ih =>
    intro s
    rw [List.foldl_cons]
    exact ⟨(ih (f s a)).1.trans (hf s a).1, (ih (f s a)).2.trans (hf s a).2⟩

/-- Phase 3 only adds warnings: errors and environment are untouched. -/
theorem performUsageAnalysis_preserves (body : List TopLevelStatement) (st : SemState) :
    (performUsageAnalysis body st).errors = st.errors ∧
    (performUsageAnalysis body st).env = st.env := by
  have g1 := foldl_warnOnly (fun acc (p : String × FunctionSignature) =>
      if p.2.visibility == Visibility.privateV && !isFunctionCalled p.1 body then
        addSemWarning acc (.privateFunctionNeverCalled p.1)
      else acc)
    (fun s a => by dsimp only; split <;> exact ⟨rfl, rfl⟩)
  have g2 := foldl_warnOnly (fun acc (p : String × ConstantInfo) =>
      if !p.2.used then addSemWarning acc (.constantNeverUsed p.1) else acc)
    (fun s a => by dsimp only; split <;> exact ⟨rfl, rfl⟩)
  have g3 := foldl_warnOnly (fun acc (p : String × VariableInfo) =>
      if !p.2.accessed then addSemWarning acc (.variableNeverAccessed p.1) else acc)
    (fun s a => by dsimp only; split <;> exact ⟨rfl, rfl⟩)
  have g4 := foldl_warnOnly (fun acc (p : String × MapInfo) =>
      if !p.2.accessed then addSemWarning acc (.mapNeverAccessed p.1) else acc)
    (fun s a => by dsimp only; split <;> exact ⟨rfl, rfl⟩)
  unfold performUsageAnalysis
  constructor
  · exact (g4 _ _).1.trans ((g3 _ _).1.trans ((g2 _ _).1.trans (g1 _ _).1))
  · exact (g4 _ _).2.trans ((g3 _ _).2.trans ((g2 _ _).2.trans (g1 _ _).2))


theorem beq_false_symm {a b : String} (h : (a == b) = false) : (b == a) = false := by
  cases hb : b == a with
  | false => rfl
  | true =>
    rw [beq_iff_eq] at hb
    subst hb
    rw [beq_self_eq_true] at h
    cases h

theorem collectDeclarations_cons (stmt : TopLevelStatement) (t : List TopLevelStatement)
    (st : SemState) :
    collectDeclarations (stmt :: t) st = collectDeclarations t (collectStatement st stmt) := rfl

/-- Count of top-level constant definitions of a given name. -/
def constDefCount (body : List TopLevelStatement) (name : String) : Nat :=
  (body.filter (fun s => match s with
    | .constantDefinition n _ => n == name
    | _ => false)).length

/-- The record phase 1 builds for the first constant definition of a
given name. -/
def firstConstInfo (body : List TopLevelStatement) (name : String) : Option ConstantInfo :=
  body.findSome? (fun s => match s with
    | .constantDefinition n v =>
        if n == name then
          some { name := n, type := inferExpressionType v, value := v, used := false }
        else none
    | _ => none)

/-- A statement that is not a constant definition of `name` neither
changes the `name` entry of the constants mapping nor adds a
duplicate-constant error for `name`. -/
theorem collectStatement_const_frame (st : SemState) (stmt : TopLevelStatement)
    (name : String)
    (h : (match stmt with | .constantDefinition n _ => n == name | _ => false) = false) :
    getA (collectStatement st stmt).env.constants name = getA st.env.constants name ∧
    ((collectStatement st stmt).errors.filter
       (fun e => e == SemanticError.alreadyDefined .constantCat name)).length
      = (st.errors.filter
          (fun e => e == SemanticError.alreadyDefined .constantCat name)).length := by
  cases stmt
  case constantDefinition n v =>
    have hne : ¬ n = name := by simpa using h
    simp only [collectStatement]
    split
    · exact ⟨rfl, by simp [addSemError, List.filter_append, beq_iff_eq, hne]⟩
    · exact ⟨setA_getA_ne _ _ _ _ (beq_false_symm (by simpa using h)), rfl⟩
  case functionDefinition n vis ps b =>
    simp only [collectStatement]
    split
    · exact ⟨rfl, by simp [addSemError, List.filter_append, beq_iff_eq]⟩
    · exact ⟨rfl, rfl⟩
  case mapDefinition n kt vt =>
    simp only [collectStatement]
    split
    · exact ⟨rfl, by simp [addSemError, List.filter_append, beq_iff_eq]⟩
    · exact ⟨rfl, rfl⟩
  case dataVarDefinition n ty iv =>
    simp only [collectStatement]
    split
    · exact ⟨rfl, by simp [addSemError, List.filter_append, beq_iff_eq]⟩
    · exact ⟨rfl, rfl⟩
  case traitDefinition n =>
    simp only [collectStatement]
    split
    · exact ⟨rfl, by simp [addSemError, List.filter_append, beq_iff_eq]⟩
    · exact ⟨rfl, rfl⟩
  all_goals exact ⟨rfl, rfl⟩

theorem constDefCount_cons_skip (stmt : TopLevelStatement) (t : List TopLevelStatement)
    (name : String)
    (h : (match stmt with | .constantDefinition n _ => n == name | _ => false) = false) :
    constDefCount (stmt :: t) name = constDefCount t name := by
  simp [constDefCount, List.filter_cons, h]

theorem firstConstInfo_cons_skip (stmt : TopLevelStatement) (t : List TopLevelStatement)
    (name : String)
    (h : (match stmt with | .constantDefinition n _ => n == name | _ => false) = false) :
    firstConstInfo (stmt :: t) name = firstConstInfo t name := by
  cases stmt <;> simp only [firstConstInfo, List.findSome?_cons] <;>
    first
      | rfl
      | (simp only at h; rw [h]; rfl)

/-- Phase 1 over a body, constants category: every duplicate constant
definition appends exactly one duplicate error, and the `name` entry is
the first definition's record (an existing entry is never overridden). -/
theorem collect_const_master (name : String) :
    ∀ (body : List TopLevelStatement) (st : SemState),
      (((collectDeclarations body st).errors.filter
          (fun e => e == SemanticError.alreadyDefined .constantCat name)).length
        = ((st.errors.filter
            (fun e => e == SemanticError.alreadyDefined .constantCat name)).length
          + (if hasA st.env.constants name then constDefCount body name
             else constDefCount body name - 1))) ∧
      getA (collectDeclarations body st).env.constants name
        = (getA st.env.constants name).orElse (fun _ => firstConstInfo body name) := by
  intro body
  induction body with
  | nil =>
    intro st
    constructor
    · show (st.errors.filter _).length = _
      cases hA : hasA st.env.constants name <;> simp [constDefCount]
    · show getA st.env.constants name = _
      cases getA st.env.constants name <;> rfl
  | cons stmt t ih =>
    intro st
    cases stmt
    case constantDefinition n v =>
      by_cases hn : (n == name) = true
      · have hn2 : n = name := by rwa [beq_iff_eq] at hn
        subst hn2
        by_cases hA : hasA st.env.constants n = true
        · have step : collectStatement st (.constantDefinition n v)
              = addSemError st (.alreadyDefined .constantCat n) := by
            simp only [collectStatement]
            rw [if_pos hA]
          obtain ⟨ihc, ihg⟩ := ih (addSemError st (.alreadyDefined .constantCat n))
          constructor
          · rw [collectDeclarations_cons, step, ihc]
            have hAa : hasA (addSemError st
                (.alreadyDefined DefCategory.constantCat n)).env.constants n = true := hA
            rw [hAa, hA]
            simp [addSemError, List.filter_append, constDefCount, List.filter_cons]
            omega
          · rw [collectDeclarations_cons, step, ihg]
            obtain ⟨c, hc⟩ : ∃ c, getA st.env.constants n = some c := by
              rw [hasA_eq_isSome_getA] at hA
              cases hx : getA st.env.constants n with
              | none => rw [hx] at hA; cases hA
              | some c => exact ⟨c, rfl⟩
            have hc2 : getA (addSemError st
                (.alreadyDefined DefCategory.constantCat n)).env.constants n = some c := hc
            rw [hc2, hc]
            rfl
        · have hA2 : hasA st.env.constants n = false := by
            rwa [Bool.not_eq_true] at hA
          have step : collectStatement st (.constantDefinition n v)
              = { st with env := { st.env with constants := setA st.env.constants n ({ name := n, type := inferExpressionType v, value := v, used := false } : ConstantInfo) } } := by
            simp only [collectStatement]
            rw [if_neg hA]
          obtain ⟨ihc, ihg⟩ := ih (collectStatement st (.constantDefinition n v))
          constructor
          · rw [collectDeclarations_cons, ihc, step]
            have hA3 : hasA ({ st with env := { st.env with constants := setA st.env.constants n ({ name := n, type := inferExpressionType v, value := v, used := false } : ConstantInfo) } } : SemState).env.constants n = true := by
              rw [hasA_eq_isSome_getA, setA_getA_self]
              rfl
            rw [hA3, hA2]
            simp [constDefCount, List.filter_cons]
          · rw [collectDeclarations_cons, ihg, step]
            have hset : getA ({ st with env := { st.env with constants := setA st.env.constants n ({ name := n, type := inferExpressionType v, value := v, used := false } : ConstantInfo) } } : SemState).env.constants n = some ({ name := n, type := inferExpressionType v, value := v, used := false } : ConstantInfo) := setA_getA_self _ _ _
            have hnone : getA st.env.constants n = none := by
              rw [hasA_eq_isSome_getA] at hA
              cases hx : getA st.env.constants n with
              | none => rfl
              | some c => rw [hx] at hA; simp at hA
            rw [hset, hnone]
            simp [Option.orElse, firstConstInfo, List.findSome?_cons]
      · have hfalse : (match (TopLevelStatement.constantDefinition n v) with
            | TopLevelStatement.constantDefinition n2 _ => n2 == name
            | _ => false) = false := by
          simpa using hn
        obtain ⟨hg, hc⟩ := collectStatement_const_frame st (TopLevelStatement.constantDefinition n v) name hfalse
        obtain ⟨ihc, ihg⟩ := ih (collectStatement st (TopLevelStatement.constantDefinition n v))
        have hsame : hasA (collectStatement st (TopLevelStatement.constantDefinition n v)).env.constants name
            = hasA st.env.constants name := by
          rw [hasA_eq_isSome_getA, hasA_eq_isSome_getA, hg]
        constructor
        · rw [collectDeclarations_cons, ihc, hc, hsame,
              constDefCount_cons_skip _ t name hfalse]
        · rw [collectDeclarations_cons, ihg, hg,
              firstConstInfo_cons_skip _ t name hfalse]
    case functionDefinition a1 a2 a3 a4 =>
      have hfalse : (match (TopLevelStatement.functionDefinition a1 a2 a3 a4) with
          | TopLevelStatement.constantDefinition n2 _ => n2 == name
          | _ => false) = false := rfl
      obtain ⟨hg, hc⟩ := collectStatement_const_frame st (TopLevelStatement.functionDefinition a1 a2 a3 a4) name hfalse
      obtain ⟨ihc, ihg⟩ := ih (collectStatement st (TopLevelStatement.functionDefinition a1 a2 a3 a4))
      have hsame : hasA (collectStatement st (TopLevelStatement.functionDefinition a1 a2 a3 a4)).env.constants name
          = hasA st.env.constants name := by
        rw [hasA_eq_isSome_getA, hasA_eq_isSome_getA, hg]
      constructor
      · rw [collectDeclarations_cons, ihc, hc, hsame,
            constDefCount_cons_skip _ t name hfalse]
      · rw [collectDeclarations_cons, ihg, hg,
            firstConstInfo_cons_skip _ t name hfalse]
    case mapDefinition a1 a2 a3 =>
      have hfalse : (match (TopLevelStatement.mapDefinition a1 a2 a3) with
          | TopLevelStatement.constantDefinition n2 _ => n2 == name
          | _ => false) = false := rfl
      obtain ⟨hg, hc⟩ := collectStatement_const_frame st (TopLevelStatement.mapDefinition a1 a2 a3) name hfalse
      obtain ⟨ihc, ihg⟩ := ih (collectStatement st (TopLevelStatement.mapDefinition a1 a2 a3))
      have hsame : hasA (collectStatement st (TopLevelStatement.mapDefinition a1 a2 a3)).env.constants name
          = hasA st.env.constants name := by
        rw [hasA_eq_isSome_getA, hasA_eq_isSome_getA, hg]
      constructor
      · rw [collectDeclarations_cons, ihc, hc, hsame,
            constDefCount_cons_skip _ t name hfalse]
      · rw [collectDeclarations_cons, ihg, hg,
            firstConstInfo_cons_skip _ t name hfalse]
    case dataVarDefinition a1 a2 a3 =>
      have hfalse : (match (TopLevelStatement.dataVarDefinition a1 a2 a3) with
          | TopLevelStatement.constantDefinition n2 _ => n2 == name
          | _ => false) = false := rfl
      obtain ⟨hg, hc⟩ := collectStatement_const_frame st (TopLevelStatement.dataVarDefinition a1 a2 a3) name hfalse
      obtain ⟨ihc, ihg⟩ := ih (collectStatement st (TopLevelStatement.dataVarDefinition a1 a2 a3))
      have hsame : hasA (collectStatement st (TopLevelStatement.dataVarDefinition a1 a2 a3)).env.constants name
          = hasA st.env.constants name := by
        rw [hasA_eq_isSome_getA, hasA_eq_isSome_getA, hg]
      constructor
      · rw [collectDeclarations_cons, ihc, hc, hsame,
            constDefCount_cons_skip _ t name hfalse]
      · rw [collectDeclarations_cons, ihg, hg,
            firstConstInfo_cons_skip _ t name hfalse]
    case nftDefinition a1 a2 =>
      have hfalse : (match (TopLevelStatement.nftDefinition a1 a2) with
          | TopLevelStatement.constantDefinition n2 _ => n2 == name
          | _ => false) = false := rfl
      obtain ⟨hg, hc⟩ := collectStatement_const_frame st (TopLevelStatement.nftDefinition a1 a2) name hfalse
      obtain ⟨ihc, ihg⟩ := ih (collectStatement st (TopLevelStatement.nftDefinition a1 a2))
      have hsame : hasA (collectStatement st (TopLevelStatement.nftDefinition a1 a2)).env.constants name
          = hasA st.env.constants name := by
        rw [hasA_eq_isSome_getA, hasA_eq_isSome_getA, hg]
      constructor
      · rw [collectDeclarations_cons, ihc, hc, hsame,
            constDefCount_cons_skip _ t name hfalse]
      · rw [collectDeclarations_cons, ihg, hg,
            firstConstInfo_cons_skip _ t name hfalse]
    case ftDefinition a1 a2 =>
      have hfalse : (match (TopLevelStatement.ftDefinition a1 a2) with
          | TopLevelStatement.constantDefinition n2 _ => n2 == name
          | _ => false) = false := rfl
      obtain ⟨hg, hc⟩ := collectStatement_const_frame st (TopLevelStatement.ftDefinition a1 a2) name hfalse
      obtain ⟨ihc, ihg⟩ := ih (collectStatement st (TopLevelStatement.ftDefinition a1 a2))
      have hsame : hasA (collectStatement st (TopLevelStatement.ftDefinition a1 a2)).env.constants name
          = hasA st.env.constants name := by
        rw [hasA_eq_isSome_getA, hasA_eq_isSome_getA, hg]
      constructor
      · rw [collectDeclarations_cons, ihc, hc, hsame,
            constDefCount_cons_skip _ t name hfalse]
      · rw [collectDeclarations_cons, ihg, hg,
            firstConstInfo_cons_skip _ t name hfalse]
    case traitDefinition a1 =>
      have hfalse : (match (TopLevelStatement.traitDefinition a1) with
          | TopLevelStatement.constantDefinition n2 _ => n2 == name
          | _ => false) = false := rfl
      obtain ⟨hg, hc⟩ := collectStatement_const_frame st (TopLevelStatement.traitDefinition a1) name hfalse
      obtain ⟨ihc, ihg⟩ := ih (collectStatement st (TopLevelStatement.traitDefinition a1))
      have hsame : hasA (collectStatement st (TopLevelStatement.traitDefinition a1)).env.constants name
          = hasA st.env.constants name := by
        rw [hasA_eq_isSome_getA, hasA_eq_isSome_getA, hg]
      constructor
      · rw [collectDeclarations_cons, ihc, hc, hsame,
            constDefCount_cons_skip _ t name hfalse]
      · rw [collectDeclarations_cons, ihg, hg,
            firstConstInfo_cons_skip _ t name hfalse]
    case useTrait a1 a2 =>
      have hfalse : (match (TopLevelStatement.useTrait a1 a2) with
          | TopLevelStatement.constantDefinition n2 _ => n2 == name
          | _ => false) = false := rfl
      obtain ⟨hg, hc⟩ := collectStatement_const_frame st (TopLevelStatement.useTrait a1 a2) name hfalse
      obtain ⟨ihc, ihg⟩ := ih (collectStatement st (TopLevelStatement.useTrait a1 a2))
      have hsame : hasA (collectStatement st (TopLevelStatement.useTrait a1 a2)).env.constants name
          = hasA st.env.constants name := by
        rw [hasA_eq_isSome_getA, hasA_eq_isSome_getA, hg]
      constructor
      · rw [collectDeclarations_cons, ihc, hc, hsame,
            constDefCount_cons_skip _ t name hfalse]
      · rw [collectDeclarations_cons, ihg, hg,
            firstConstInfo_cons_skip _ t name hfalse]
    case implTrait a1 a2 =>
      have hfalse : (match (TopLevelStatement.implTrait a1 a2) with
          | TopLevelStatement.constantDefinition n2 _ => n2 == name
          | _ => false) = false := rfl
      obtain ⟨hg, hc⟩ := collectStatement_const_frame st (TopLevelStatement.implTrait a1 a2) name hfalse
      obtain ⟨ihc, ihg⟩ := ih (collectStatement st (TopLevelStatement.implTrait a1 a2))
      have hsame : hasA (collectStatement st (TopLevelStatement.implTrait a1 a2)).env.constants name
          = hasA st.env.constants name := by
        rw [hasA_eq_isSome_getA, hasA_eq_isSome_getA, hg]
      constructor
      · rw [collectDeclarations_cons, ihc, hc, hsame,
            constDefCount_cons_skip _ t name hfalse]
      · rw [collectDeclarations_cons, ihg, hg,
            firstConstInfo_cons_skip _ t name hfalse]


/-- Count of top-level function definitions of a given name. -/
def funcDefCount (body : List TopLevelStatement) (name : String) : Nat :=
  (body.filter (fun s => match s with
    | .functionDefinition n2 _ _ _ => n2 == name
    | _ => false)).length

/-- The record phase 1 builds for the first function definition of a
given name. -/
def firstFuncSig (body : List TopLevelStatement) (name : String) : Option FunctionSignature :=
  body.findSome? (fun s => match s with
    | TopLevelStatement.functionDefinition n vis ps b =>
        if n == name then some ({ name := n, visibility := vis, parameters := ps, returnType := inferReturnType b, pure := isPureFunction b, payable := isPayableFunction vis } : FunctionSignature) else none
    | _ => none)


theorem collectStatement_func_frame (st : SemState) (stmt : TopLevelStatement)
    (name : String)
    (h : (match stmt with | .functionDefinition n2 _ _ _ => n2 == name | _ => false) = false) :
    getA (collectStatement st stmt).env.functions name = getA st.env.functions name ∧
    ((collectStatement st stmt).errors.filter
       (fun e => e == SemanticError.alreadyDefined .functionCat name)).length
      = (st.errors.filter
          (fun e => e == SemanticError.alreadyDefined .functionCat name)).length := by
  cases stmt
  case functionDefinition a1 a2 a3 a4 =>
    have hne : ¬ a1 = name := by simpa using h
    simp only [collectStatement]
    split
    · exact ⟨rfl, by simp [addSemError, List.filter_append, beq_iff_eq, hne]⟩
    · exact ⟨setA_getA_ne _ _ _ _ (beq_false_symm (by simpa using h)), rfl⟩
  case constantDefinition a1 a2 =>
    simp only [collectStatement]
    split
    · exact ⟨rfl, by simp [addSemError, List.filter_append, beq_iff_eq]⟩
    · exact ⟨rfl, rfl⟩
  case mapDefinition a1 a2 a3 =>
    simp only [collectStatement]
    split
    · exact ⟨rfl, by simp [addSemError, List.filter_append, beq_iff_eq]⟩
    · exact ⟨rfl, rfl⟩
  case dataVarDefinition a1 a2 a3 =>
    simp only [collectStatement]
    split
    · exact ⟨rfl, by simp [addSemError, List.filter_append, beq_iff_eq]⟩
    · exact ⟨rfl, rfl⟩
  case traitDefinition a1 =>
    simp only [collectStatement]
    split
    · exact ⟨rfl, by simp [addSemError, List.filter_append, beq_iff_eq]⟩
    · exact ⟨rfl, rfl⟩
  all_goals exact ⟨rfl, rfl⟩

theorem funcDefCount_cons_skip (stmt : TopLevelStatement) (t : List TopLevelStatement)
    (name : String)
    (h : (match stmt with | .functionDefinition n2 _ _ _ => n2 == name | _ => false) = false) :
    funcDefCount (stmt :: t) name = funcDefCount t name := by
  simp [funcDefCount, List.filter_cons, h]

theorem firstFuncSig_cons_skip (stmt : TopLevelStatement) (t : List TopLevelStatement)
    (name : String)
    (h : (match stmt with | .functionDefinition n2 _ _ _ => n2 == name | _ => false) = false) :
    firstFuncSig (stmt :: t) name = firstFuncSig t name := by
  cases stmt <;> simp only [firstFuncSig, List.findSome?_cons] <;>
    first
      | rfl
      | (simp only at h; rw [h]; rfl)


theorem collect_func_master (name : String) :
    ∀ (body : List TopLevelStatement) (st : SemState),
      (((collectDeclarations body st).errors.filter
          (fun e => e == SemanticError.alreadyDefined .functionCat name)).length
        = ((st.errors.filter
            (fun e => e == SemanticError.alreadyDefined .functionCat name)).length
          + (if hasA st.env.functions name then funcDefCount body name
             else funcDefCount body name - 1))) ∧
      getA (collectDeclarations body st).env.functions name
        = (getA st.env.functions name).orElse (fun _ => firstFuncSig body name) := by
  intro body
  induction body with
  | nil =>
    intro st
    constructor
    · show (st.errors.filter _).length = _
      cases hA : hasA st.env.functions name <;> simp [funcDefCount]
    · show getA st.env.functions name = _
      cases getA st.env.functions name <;> rfl
  | cons stmt t ih =>
    intro st
    cases stmt
    case functionDefinition n vis ps b =>
      by_cases hn : (n == name) = true
      · have hn2 : n = name := by rwa [beq_iff_eq] at hn
        subst hn2
        by_cases hA : hasA st.env.functions n = true
        · have step : collectStatement st (.functionDefinition n vis ps b)
              = addSemError st (.alreadyDefined .functionCat n) := by
            simp only [collectStatement]
            rw [if_pos hA]
          obtain ⟨ihc, ihg⟩ := ih (addSemError st (.alreadyDefined .functionCat n))
          constructor
          · rw [collectDeclarations_cons, step, ihc]
            have hAa : hasA (addSemError st
                (.alreadyDefined DefCategory.functionCat n)).env.functions n = true := hA
            rw [hAa, hA]
            simp [addSemError, List.filter_append, funcDefCount, List.filter_cons]
            omega
          · rw [collectDeclarations_cons, step, ihg]
            obtain ⟨c0, hc⟩ : ∃ c0, getA st.env.functions n = some c0 := by
              rw [hasA_eq_isSome_getA] at hA
              cases hx : getA st.env.functions n with
              | none => rw [hx] at hA; cases hA
              | some c0 => exact ⟨c0, rfl⟩
            have hc2 : getA (addSemError st
                (.alreadyDefined DefCategory.functionCat n)).env.functions n = some c0 := hc
            rw [hc2, hc]
            rfl
        · have hA2 : hasA st.env.functions n = false := by
            rwa [Bool.not_eq_true] at hA
          have step : collectStatement st (.functionDefinition n vis ps b)
              = { st with env := { st.env with functions := setA st.env.functions n ({ name := n, visibility := vis, parameters := ps, returnType := inferReturnType b, pure := isPureFunction b, payable := isPayableFunction vis } : FunctionSignature) } } := by
            simp only [collectStatement]
            rw [if_neg hA]
          obtain ⟨ihc, ihg⟩ := ih (collectStatement st (.functionDefinition n vis ps b))
          constructor
          · rw [collectDeclarations_cons, ihc, step]
            have hA3 : hasA ({ st with env := { st.env with functions := setA st.env.functions n ({ name := n, visibility := vis, parameters := ps, returnType := inferReturnType b, pure := isPureFunction b, payable := isPayableFunction vis } : FunctionSignature) } } : SemState).env.functions n = true := by
              rw [hasA_eq_isSome_getA, setA_getA_self]
              rfl
            rw [hA3, hA2]
            simp [funcDefCount, List.filter_cons]
          · rw [collectDeclarations_cons, ihg, step]
            have hset : getA ({ st with env := { st.env with functions := setA st.env.functions n ({ name := n, visibility := vis, parameters := ps, returnType := inferReturnType b, pure := isPureFunction b, payable := isPayableFunction vis } : FunctionSignature) } } : SemState).env.functions n = some ({ name := n, visibility := vis, parameters := ps, returnType := inferReturnType b, pure := isPureFunction b, payable := isPayableFunction vis } : FunctionSignature) := setA_getA_self _ _ _
            have hnone : getA st.env.functions n = none := by
              rw [hasA_eq_isSome_getA] at hA
              cases hx : getA st.env.functions n with
              | none => rfl
              | some c0 => rw [hx] at hA; simp at hA
            rw [hset, hnone]
            simp [Option.orElse, firstFuncSig, List.findSome?_cons]
      · have hfalse : (match (TopLevelStatement.functionDefinition n vis ps b) with
            | .functionDefinition n2 _ _ _ => n2 == name
            | _ => false) = false := by
          simpa using hn
        obtain ⟨hg, hc⟩ := collectStatement_func_frame st (TopLevelStatement.functionDefinition n vis ps b) name hfalse
        obtain ⟨ihc, ihg⟩ := ih (collectStatement st (TopLevelStatement.functionDefinition n vis ps b))
        have hsame : hasA (collectStatement st (TopLevelStatement.functionDefinition n vis ps b)).env.functions name
            = hasA st.env.functions name := by
          rw [hasA_eq_isSome_getA, hasA_eq_isSome_getA, hg]
        constructor
        · rw [collectDeclarations_cons, ihc, hc, hsame,
              funcDefCount_cons_skip (TopLevelStatement.functionDefinition n vis ps b) t name hfalse]
        · rw [collectDeclarations_cons, ihg, hg,
              firstFuncSig_cons_skip (TopLevelStatement.functionDefinition n vis ps b) t name hfalse]
    case constantDefinition a1 a2 =>
      have hfalse : (match (TopLevelStatement.constantDefinition a1 a2) with
          | .functionDefinition n2 _ _ _ => n2 == name
          | _ => false) = false := rfl
      obtain ⟨hg, hc⟩ := collectStatement_func_frame st (TopLevelStatement.constantDefinition a1 a2) name hfalse
      obtain ⟨ihc, ihg⟩ := ih (collectStatement st (TopLevelStatement.constantDefinition a1 a2))
      have hsame : hasA (collectStatement st (TopLevelStatement.constantDefinition a1 a2)).env.functions name
          = hasA st.env.functions name := by
        rw [hasA_eq_isSome_getA, hasA_eq_isSome_getA, hg]
      constructor
      · rw [collectDeclarations_cons, ihc, hc, hsame,
            funcDefCount_cons_skip (TopLevelStatement.constantDefinition a1 a2) t name hfalse]
      · rw [collectDeclarations_cons, ihg, hg,
            firstFuncSig_cons_skip (TopLevelStatement.constantDefinition a1 a2) t name hfalse]
    case mapDefinition a1 a2 a3 =>
      have hfalse : (match (TopLevelStatement.mapDefinition a1 a2 a3) with
          | .functionDefinition n2 _ _ _ => n2 == name
          | _ => false) = false := rfl
      obtain ⟨hg, hc⟩ := collectStatement_func_frame st (TopLevelStatement.mapDefinition a1 a2 a3) name hfalse
      obtain ⟨ihc, ihg⟩ := ih (collectStatement st (TopLevelStatement.mapDefinition a1 a2 a3))
      have hsame : hasA (collectStatement st (TopLevelStatement.mapDefinition a1 a2 a3)).env.functions name
          = hasA st.env.functions name := by
        rw [hasA_eq_isSome_getA, hasA_eq_isSome_getA, hg]
      constructor
      · rw [collectDeclarations_cons, ihc, hc, hsame,
            funcDefCount_cons_skip (TopLevelStatement.mapDefinition a1 a2 a3) t name hfalse]
      · rw [collectDeclarations_cons, ihg, hg,
            firstFuncSig_cons_skip (TopLevelStatement.mapDefinition a1 a2 a3) t name hfalse]
    case dataVarDefinition a1 a2 a3 =>
      have hfalse : (match (TopLevelStatement.dataVarDefinition a1 a2 a3) with
          | .functionDefinition n2 _ _ _ => n2 == name
          | _ => false) = false := rfl
      obtain ⟨hg, hc⟩ := collectStatement_func_frame st (TopLevelStatement.dataVarDefinition a1 a2 a3) name hfalse
      obtain ⟨ihc, ihg⟩ := ih (collectStatement st (TopLevelStatement.dataVarDefinition a1 a2 a3))
      have hsame : hasA (collectStatement st (TopLevelStatement.dataVarDefinition a1 a2 a3)).env.functions name
          = hasA st.env.functions name := by
        rw [hasA_eq_isSome_getA, hasA_eq_isSome_getA, hg]
      constructor
      · rw [collectDeclarations_cons, ihc, hc, hsame,
            funcDefCount_cons_skip (TopLevelStatement.dataVarDefinition a1 a2 a3) t name hfalse]
      · rw [collectDeclarations_cons, ihg, hg,
            firstFuncSig_cons_skip (TopLevelStatement.dataVarDefinition a1 a2 a3) t name hfalse]
    case nftDefinition a1 a2 =>
      have hfalse : (match (TopLevelStatement.nftDefinition a1 a2) with
          | .functionDefinition n2 _ _ _ => n2 == name
          | _ => false) = false := rfl
      obtain ⟨hg, hc⟩ := collectStatement_func_frame st (TopLevelStatement.nftDefinition a1 a2) name hfalse
      obtain ⟨ihc, ihg⟩ := ih (collectStatement st (TopLevelStatement.nftDefinition a1 a2))
      have hsame : hasA (collectStatement st (TopLevelStatement.nftDefinition a1 a2)).env.functions name
          = hasA st.env.functions name := by
        rw [hasA_eq_isSome_getA, hasA_eq_isSome_getA, hg]
      constructor
      · rw [collectDeclarations_cons, ihc, hc, hsame,
            funcDefCount_cons_skip (TopLevelStatement.nftDefinition a1 a2) t name hfalse]
      · rw [collectDeclarations_cons, ihg, hg,
            firstFuncSig_cons_skip (TopLevelStatement.nftDefinition a1 a2) t name hfalse]
    case ftDefinition a1 a2 =>
      have hfalse : (match (TopLevelStatement.ftDefinition a1 a2) with
          | .functionDefinition n2 _ _ _ => n2 == name
          | _ => false) = false := rfl
      obtain ⟨hg, hc⟩ := collectStatement_func_frame st (TopLevelStatement.ftDefinition a1 a2) name hfalse
      obtain ⟨ihc, ihg⟩ := ih (collectStatement st (TopLevelStatement.ftDefinition a1 a2))
      have hsame : hasA (collectStatement st (TopLevelStatement.ftDefinition a1 a2)).env.functions name
          = hasA st.env.functions name := by
        rw [hasA_eq_isSome_getA, hasA_eq_isSome_getA, hg]
      constructor
      · rw [collectDeclarations_cons, ihc, hc, hsame,
            funcDefCount_cons_skip (TopLevelStatement.ftDefinition a1 a2) t name hfalse]
      · rw [collectDeclarations_cons, ihg, hg,
            firstFuncSig_cons_skip (TopLevelStatement.ftDefinition a1 a2) t name hfalse]
    case traitDefinition a1 =>
      have hfalse : (match (TopLevelStatement.traitDefinition a1) with
          | .functionDefinition n2 _ _ _ => n2 == name
          | _ => false) = false := rfl
      obtain ⟨hg, hc⟩ := collectStatement_func_frame st (TopLevelStatement.traitDefinition a1) name hfalse
      obtain ⟨ihc, ihg⟩ := ih (collectStatement st (TopLevelStatement.traitDefinition a1))
      have hsame : hasA (collectStatement st (TopLevelStatement.traitDefinition a1)).env.functions name
          = hasA st.env.functions name := by
        rw [hasA_eq_isSome_getA, hasA_eq_isSome_getA, hg]
      constructor
      · rw [collectDeclarations_cons, ihc, hc, hsame,
            funcDefCount_cons_skip (TopLevelStatement.traitDefinition a1) t name hfalse]
      · rw [collectDeclarations_cons, ihg, hg,
            firstFuncSig_cons_skip (TopLevelStatement.traitDefinition a1) t name hfalse]
    case useTrait a1 a2 =>
      have hfalse : (match (TopLevelStatement.useTrait a1 a2) with
          | .functionDefinition n2 _ _ _ => n2 == name
          | _ => false) = false := rfl
      obtain ⟨hg, hc⟩ := collectStatement_func_frame st (TopLevelStatement.useTrait a1 a2) name hfalse
      obtain ⟨ihc, ihg⟩ := ih (collectStatement st (TopLevelStatement.useTrait a1 a2))
      have hsame : hasA (collectStatement st (TopLevelStatement.useTrait a1 a2)).env.functions name
          = hasA st.env.functions name := by
        rw [hasA_eq_isSome_getA, hasA_eq_isSome_getA, hg]
      constructor
      · rw [collectDeclarations_cons, ihc, hc, hsame,
            funcDefCount_cons_skip (TopLevelStatement.useTrait a1 a2) t name hfalse]
      · rw [collectDeclarations_cons, ihg, hg,
            firstFuncSig_cons_skip (TopLevelStatement.useTrait a1 a2) t name hfalse]
    case implTrait a1 a2 =>
      have hfalse : (match (TopLevelStatement.implTrait a1 a2) with
          | .functionDefinition n2 _ _ _ => n2 == name
          | _ => false) = false := rfl
      obtain ⟨hg, hc⟩ := collectStatement_func_frame st (TopLevelStatement.implTrait a1 a2) name hfalse
      obtain ⟨ihc, ihg⟩ := ih (collectStatement st (TopLevelStatement.implTrait a1 a2))
      have hsame : hasA (collectStatement st (TopLevelStatement.implTrait a1 a2)).env.functions name
          = hasA st.env.functions name := by
        rw [hasA_eq_isSome_getA, hasA_eq_isSome_getA, hg]
      constructor
      · rw [collectDeclarations_cons, ihc, hc, hsame,
            funcDefCount_cons_skip (TopLevelStatement.implTrait a1 a2) t name hfalse]
      · rw [collectDeclarations_cons, ihg, hg,
            firstFuncSig_cons_skip (TopLevelStatement.implTrait a1 a2) t name hfalse]


/-- Count of top-level map definitions of a given name. -/
def mapDefCount (body : List TopLevelStatement) (name : String) : Nat :=
  (body.filter (fun s => match s with
    | .mapDefinition n2 _ _ => n2 == name
    | _ => false)).length

/-- The record phase 1 builds for the first map definition of a
given name. -/
def firstMapInfo (body : List TopLevelStatement) (name : String) : Option MapInfo :=
  body.findSome? (fun s => match s with
    | TopLevelStatement.mapDefinition n kt vt =>
        if n == name then some ({ name := n, keyType := kt, valueType := vt, accessed := false, modified := false } : MapInfo) else none
    | _ => none)


theorem collectStatement_map_frame (st : SemState) (stmt : TopLevelStatement)
    (name : String)
    (h : (match stmt with | .mapDefinition n2 _ _ => n2 == name | _ => false) = false) :
    getA (collectStatement st stmt).env.maps name = getA st.env.maps name ∧
    ((collectStatement st stmt).errors.filter
       (fun e => e == SemanticError.alreadyDefined .mapCat name)).length
      = (st.errors.filter
          (fun e => e == SemanticError.alreadyDefined .mapCat name)).length := by
  cases stmt
  case functionDefinition a1 a2 a3 a4 =>
    simp only [collectStatement]
    split
    · exact ⟨rfl, by simp [addSemError, List.filter_append, beq_iff_eq]⟩
    · exact ⟨rfl, rfl⟩
  case constantDefinition a1 a2 =>
    simp only [collectStatement]
    split
    · exact ⟨rfl, by simp [addSemError, List.filter_append, beq_iff_eq]⟩
    · exact ⟨rfl, rfl⟩
  case mapDefinition a1 a2 a3 =>
    have hne : ¬ a1 = name := by simpa using h
    simp only [collectStatement]
    split
    · exact ⟨rfl, by simp [addSemError, List.filter_append, beq_iff_eq, hne]⟩
    · exact ⟨setA_getA_ne _ _ _ _ (beq_false_symm (by simpa using h)), rfl⟩
  case dataVarDefinition a1 a2 a3 =>
    simp only [collectStatement]
    split
    · exact ⟨rfl, by simp [addSemError, List.filter_append, beq_iff_eq]⟩
    · exact ⟨rfl, rfl⟩
  case traitDefinition a1 =>
    simp only [collectStatement]
    split
    · exact ⟨rfl, by simp [addSemError, List.filter_append, beq_iff_eq]⟩
    · exact ⟨rfl, rfl⟩
  all_goals exact ⟨rfl, rfl⟩

theorem mapDefCount_cons_skip (stmt : TopLevelStatement) (t : List TopLevelStatement)
    (name : String)
    (h : (match stmt with | .mapDefinition n2 _ _ => n2 == name | _ => false) = false) :
    mapDefCount (stmt :: t) name = mapDefCount t name := by
  simp [mapDefCount, List.filter_cons, h]

theorem firstMapInfo_cons_skip (stmt : TopLevelStatement) (t : List TopLevelStatement)
    (name : String)
    (h : (match stmt with | .mapDefinition n2 _ _ => n2 == name | _ => false) = false) :
    firstMapInfo (stmt :: t) name = firstMapInfo t name := by
  cases stmt <;> simp only [firstMapInfo, List.findSome?_cons] <;>
    first
      | rfl
      | (simp only at h; rw [h]; rfl)


theorem collect_map_master (name : String) :
    ∀ (body : List TopLevelStatement) (st : SemState),
      (((collectDeclarations body st).errors.filter
          (fun e => e == SemanticError.alreadyDefined .mapCat name)).length
        = ((st.errors.filter
            (fun e => e == SemanticError.alreadyDefined .mapCat name)).length
          + (if hasA st.env.maps name then mapDefCount body name
             else mapDefCount body name - 1))) ∧
      getA (collectDeclarations body st).env.maps name
        = (getA st.env.maps name).orElse (fun _ => firstMapInfo body name) := by
  intro body
  induction body with
  | nil =>
    intro st
    constructor
    · show (st.errors.filter _).length = _
      cases hA : hasA st.env.maps name <;> simp [mapDefCount]
    · show getA st.env.maps name = _
      cases getA st.env.maps name <;> rfl
  | cons stmt t ih =>
    intro st
    cases stmt
    case mapDefinition n kt vt =>
      by_cases hn : (n == name) = true
      · have hn2 : n = name := by rwa [beq_iff_eq] at hn
        subst hn2
        by_cases hA : hasA st.env.maps n = true
        · have step : collectStatement st (.mapDefinition n kt vt)
              = addSemError st (.alreadyDefined .mapCat n) := by
            simp only [collectStatement]
            rw [if_pos hA]
          obtain ⟨ihc, ihg⟩ := ih (addSemError st (.alreadyDefined .mapCat n))
          constructor
          · rw [collectDeclarations_cons, step, ihc]
            have hAa : hasA (addSemError st
                (.alreadyDefined DefCategory.mapCat n)).env.maps n = true := hA
            rw [hAa, hA]
            simp [addSemError, List.filter_append, mapDefCount, List.filter_cons]
            omega
          · rw [collectDeclarations_cons, step, ihg]
            obtain ⟨c0, hc⟩ : ∃ c0, getA st.env.maps n = some c0 := by
              rw [hasA_eq_isSome_getA] at hA
              cases hx : getA st.env.maps n with
              | none => rw [hx] at hA; cases hA
              | some c0 => exact ⟨c0, rfl⟩
            have hc2 : getA (addSemError st
                (.alreadyDefined DefCategory.mapCat n)).env.maps n = some c0 := hc
            rw [hc2, hc]
            rfl
        · have hA2 : hasA st.env.maps n = false := by
            rwa [Bool.not_eq_true] at hA
          have step : collectStatement st (.mapDefinition n kt vt)
              = { st with env := { st.env with maps := setA st.env.maps n ({ name := n, keyType := kt, valueType := vt, accessed := false, modified := false } : MapInfo) } } := by
            simp only [collectStatement]
            rw [if_neg hA]
          obtain ⟨ihc, ihg⟩ := ih (collectStatement st (.mapDefinition n kt vt))
          constructor
          · rw [collectDeclarations_cons, ihc, step]
            have hA3 : hasA ({ st with env := { st.env with maps := setA st.env.maps n ({ name := n, keyType := kt, valueType := vt, accessed := false, modified := false } : MapInfo) } } : SemState).env.maps n = true := by
              rw [hasA_eq_isSome_getA, setA_getA_self]
              rfl
            rw [hA3, hA2]
            simp [mapDefCount, List.filter_cons]
          · rw [collectDeclarations_cons, ihg, step]
            have hset : getA ({ st with env := { st.env with maps := setA st.env.maps n ({ name := n, keyType := kt, valueType := vt, accessed := false, modified := false } : MapInfo) } } : SemState).env.maps n = some ({ name := n, keyType := kt, valueType := vt, accessed := false, modified := false } : MapInfo) := setA_getA_self _ _ _
            have hnone : getA st.env.maps n = none := by
              rw [hasA_eq_isSome_getA] at hA
              cases hx : getA st.env.maps n with
              | none => rfl
              | some c0 => rw [hx] at hA; simp at hA
            rw [hset, hnone]
            simp [Option.orElse, firstMapInfo, List.findSome?_cons]
      · have hfalse : (match (TopLevelStatement.mapDefinition n kt vt) with
            | .mapDefinition n2 _ _ => n2 == name
            | _ => false) = false := by
          simpa using hn
        obtain ⟨hg, hc⟩ := collectStatement_map_frame st (TopLevelStatement.mapDefinition n kt vt) name hfalse
        obtain ⟨ihc, ihg⟩ := ih (collectStatement st (TopLevelStatement.mapDefinition n kt vt))
        have hsame : hasA (collectStatement st (TopLevelStatement.mapDefinition n kt vt)).env.maps name
            = hasA st.env.maps name := by
          rw [hasA_eq_isSome_getA, hasA_eq_isSome_getA, hg]
        constructor
        · rw [collectDeclarations_cons, ihc, hc, hsame,
              mapDefCount_cons_skip (TopLevelStatement.mapDefinition n kt vt) t name hfalse]
        · rw [collectDeclarations_cons, ihg, hg,
              firstMapInfo_cons_skip (TopLevelStatement.mapDefinition n kt vt) t name hfalse]
    case functionDefinition a1 a2 a3 a4 =>
      have hfalse : (match (TopLevelStatement.functionDefinition a1 a2 a3 a4) with
          | .mapDefinition n2 _ _ => n2 == name
          | _ => false) = false := rfl
      obtain ⟨hg, hc⟩ := collectStatement_map_frame st (TopLevelStatement.functionDefinition a1 a2 a3 a4) name hfalse
      obtain ⟨ihc, ihg⟩ := ih (collectStatement st (TopLevelStatement.functionDefinition a1 a2 a3 a4))
      have hsame : hasA (collectStatement st (TopLevelStatement.functionDefinition a1 a2 a3 a4)).env.maps name
          = hasA st.env.maps name := by
        rw [hasA_eq_isSome_getA, hasA_eq_isSome_getA, hg]
      constructor
      · rw [collectDeclarations_cons, ihc, hc, hsame,
            mapDefCount_cons_skip (TopLevelStatement.functionDefinition a1 a2 a3 a4) t name hfalse]
      · rw [collectDeclarations_cons, ihg, hg,
            firstMapInfo_cons_skip (TopLevelStatement.functionDefinition a1 a2 a3 a4) t name hfalse]
    case constantDefinition a1 a2 =>
      have hfalse : (match (TopLevelStatement.constantDefinition a1 a2) with
          | .mapDefinition n2 _ _ => n2 == name
          | _ => false) = false := rfl
      obtain ⟨hg, hc⟩ := collectStatement_map_frame st (TopLevelStatement.constantDefinition a1 a2) name hfalse
      obtain ⟨ihc, ihg⟩ := ih (collectStatement st (TopLevelStatement.constantDefinition a1 a2))
      have hsame : hasA (collectStatement st (TopLevelStatement.constantDefinition a1 a2)).env.maps name
          = hasA st.env.maps name := by
        rw [hasA_eq_isSome_getA, hasA_eq_isSome_getA, hg]
      constructor
      · rw [collectDeclarations_cons, ihc, hc, hsame,
            mapDefCount_cons_skip (TopLevelStatement.constantDefinition a1 a2) t name hfalse]
      · rw [collectDeclarations_cons, ihg, hg,
            firstMapInfo_cons_skip (TopLevelStatement.constantDefinition a1 a2) t name hfalse]
    case dataVarDefinition a1 a2 a3 =>
      have hfalse : (match (TopLevelStatement.dataVarDefinition a1 a2 a3) with
          | .mapDefinition n2 _ _ => n2 == name
          | _ => false) = false := rfl
      obtain ⟨hg, hc⟩ := collectStatement_map_frame st (TopLevelStatement.dataVarDefinition a1 a2 a3) name hfalse
      obtain ⟨ihc, ihg⟩ := ih (collectStatement st (TopLevelStatement.dataVarDefinition a1 a2 a3))
      have hsame : hasA (collectStatement st (TopLevelStatement.dataVarDefinition a1 a2 a3)).env.maps name
          = hasA st.env.maps name := by
        rw [hasA_eq_isSome_getA, hasA_eq_isSome_getA, hg]
      constructor
      · rw [collectDeclarations_cons, ihc, hc, hsame,
            mapDefCount_cons_skip (TopLevelStatement.dataVarDefinition a1 a2 a3) t name hfalse]
      · rw [collectDeclarations_cons, ihg, hg,
            firstMapInfo_cons_skip (TopLevelStatement.dataVarDefinition a1 a2 a3) t name hfalse]
    case nftDefinition a1 a2 =>
      have hfalse : (match (TopLevelStatement.nftDefinition a1 a2) with
          | .mapDefinition n2 _ _ => n2 == name
          | _ => false) = false := rfl
      obtain ⟨hg, hc⟩ := collectStatement_map_frame st (TopLevelStatement.nftDefinition a1 a2) name hfalse
      obtain ⟨ihc, ihg⟩ := ih (collectStatement st (TopLevelStatement.nftDefinition a1 a2))
      have hsame : hasA (collectStatement st (TopLevelStatement.nftDefinition a1 a2)).env.maps name
          = hasA st.env.maps name := by
        rw [hasA_eq_isSome_getA, hasA_eq_isSome_getA, hg]
      constructor
      · rw [collectDeclarations_cons, ihc, hc, hsame,
            mapDefCount_cons_skip (TopLevelStatement.nftDefinition a1 a2) t name hfalse]
      · rw [collectDeclarations_cons, ihg, hg,
            firstMapInfo_cons_skip (TopLevelStatement.nftDefinition a1 a2) t name hfalse]
    case ftDefinition a1 a2 =>
      have hfalse : (match (TopLevelStatement.ftDefinition a1 a2) with
          | .mapDefinition n2 _ _ => n2 == name
          | _ => false) = false := rfl
      obtain ⟨hg, hc⟩ := collectStatement_map_frame st (TopLevelStatement.ftDefinition a1 a2) name hfalse
      obtain ⟨ihc, ihg⟩ := ih (collectStatement st (TopLevelStatement.ftDefinition a1 a2))
      have hsame : hasA (collectStatement st (TopLevelStatement.ftDefinition a1 a2)).env.maps name
          = hasA st.env.maps name := by
        rw [hasA_eq_isSome_getA, hasA_eq_isSome_getA, hg]
      constructor
      · rw [collectDeclarations_cons, ihc, hc, hsame,
            mapDefCount_cons_skip (TopLevelStatement.ftDefinition a1 a2) t name hfalse]
      · rw [collectDeclarations_cons, ihg, hg,
            firstMapInfo_cons_skip (TopLevelStatement.ftDefinition a1 a2) t name hfalse]
    case traitDefinition a1 =>
      have hfalse : (match (TopLevelStatement.traitDefinition a1) with
          | .mapDefinition n2 _ _ => n2 == name
          | _ => false) = false := rfl
      obtain ⟨hg, hc⟩ := collectStatement_map_frame st (TopLevelStatement.traitDefinition a1) name hfalse
      obtain ⟨ihc, ihg⟩ := ih (collectStatement st (TopLevelStatement.traitDefinition a1))
      have hsame : hasA (collectStatement st (TopLevelStatement.traitDefinition a1)).env.maps name
          = hasA st.env.maps name := by
        rw [hasA_eq_isSome_getA, hasA_eq_isSome_getA, hg]
      constructor
      · rw [collectDeclarations_cons, ihc, hc, hsame,
            mapDefCount_cons_skip (TopLevelStatement.traitDefinition a1) t name hfalse]
      · rw [collectDeclarations_cons, ihg, hg,
            firstMapInfo_cons_skip (TopLevelStatement.traitDefinition a1) t name hfalse]
    case useTrait a1 a2 =>
      have hfalse : (match (TopLevelStatement.useTrait a1 a2) with
          | .mapDefinition n2 _ _ => n2 == name
          | _ => false) = false := rfl
      obtain ⟨hg, hc⟩ := collectStatement_map_frame st (TopLevelStatement.useTrait a1 a2) name hfalse
      obtain ⟨ihc, ihg⟩ := ih (collectStatement st (TopLevelStatement.useTrait a1 a2))
      have hsame : hasA (collectStatement st (TopLevelStatement.useTrait a1 a2)).env.maps name
          = hasA st.env.maps name := by
        rw [hasA_eq_isSome_getA, hasA_eq_isSome_getA, hg]
      constructor
      · rw [collectDeclarations_cons, ihc, hc, hsame,
            mapDefCount_cons_skip (TopLevelStatement.useTrait a1 a2) t name hfalse]
      · rw [collectDeclarations_cons, ihg, hg,
            firstMapInfo_cons_skip (TopLevelStatement.useTrait a1 a2) t name hfalse]
    case implTrait a1 a2 =>
      have hfalse : (match (TopLevelStatement.implTrait a1 a2) with
          | .mapDefinition n2 _ _ => n2 == name
          | _ => false) = false := rfl
      obtain ⟨hg, hc⟩ := collectStatement_map_frame st (TopLevelStatement.implTrait a1 a2) name hfalse
      obtain ⟨ihc, ihg⟩ := ih (collectStatement st (TopLevelStatement.implTrait a1 a2))
      have hsame : hasA (collectStatement st (TopLevelStatement.implTrait a1 a2)).env.maps name
          = hasA st.env.maps name := by
        rw [hasA_eq_isSome_getA, hasA_eq_isSome_getA, hg]
      constructor
      · rw [collectDeclarations_cons, ihc, hc, hsame,
            mapDefCount_cons_skip (TopLevelStatement.implTrait a1 a2) t name hfalse]
      · rw [collectDeclarations_cons, ihg, hg,
            firstMapInfo_cons_skip (TopLevelStatement.implTrait a1 a2) t name hfalse]


/-- Count of top-level data-variable definitions of a given name. -/
def varDefCount (body : List TopLevelStatement) (name : String) : Nat :=
  (body.filter (fun s => match s with
    | .dataVarDefinition n2 _ _ => n2 == name
    | _ => false)).length

/-- The record phase 1 builds for the first data-variable definition of a
given name. -/
def firstVarInfo (body : List TopLevelStatement) (name : String) : Option VariableInfo :=
  body.findSome? (fun s => match s with
    | TopLevelStatement.dataVarDefinition n ty iv =>
        if n == name then some ({ name := n, type := ty, initialValue := iv, mutable := true, accessed := false, modified := false } : VariableInfo) else none
    | _ => none)


theorem collectStatement_var_frame (st : SemState) (stmt : TopLevelStatement)
    (name : String)
    (h : (match stmt with | .dataVarDefinition n2 _ _ => n2 == name | _ => false) = false) :
    getA (collectStatement st stmt).env.vars name = getA st.env.vars name ∧
    ((collectStatement st stmt).errors.filter
       (fun e => e == SemanticError.alreadyDefined .variableCat name)).length
      = (st.errors.filter
          (fun e => e == SemanticError.alreadyDefined .variableCat name)).length := by
  cases stmt
  case functionDefinition a1 a2 a3 a4 =>
    simp only [collectStatement]
    split
    · exact ⟨rfl, by simp [addSemError, List.filter_append, beq_iff_eq]⟩
    · exact ⟨rfl, rfl⟩
  case constantDefinition a1 a2 =>
    simp only [collectStatement]
    split
    · exact ⟨rfl, by simp [addSemError, List.filter_append, beq_iff_eq]⟩
    · exact ⟨rfl, rfl⟩
  case mapDefinition a1 a2 a3 =>
    simp only [collectStatement]
    split
    · exact ⟨rfl, by simp [addSemError, List.filter_append, beq_iff_eq]⟩
    · exact ⟨rfl, rfl⟩
  case dataVarDefinition a1 a2 a3 =>
    have hne : ¬ a1 = name := by simpa using h
    simp only [collectStatement]
    split
    · exact ⟨rfl, by simp [addSemError, List.filter_append, beq_iff_eq, hne]⟩
    · exact ⟨setA_getA_ne _ _ _ _ (beq_false_symm (by simpa using h)), rfl⟩
  case traitDefinition a1 =>
    simp only [collectStatement]
    split
    · exact ⟨rfl, by simp [addSemError, List.filter_append, beq_iff_eq]⟩
    · exact ⟨rfl, rfl⟩
  all_goals exact ⟨rfl, rfl⟩

theorem varDefCount_cons_skip (stmt : TopLevelStatement) (t : List TopLevelStatement)
    (name : String)
    (h : (match stmt with | .dataVarDefinition n2 _ _ => n2 == name | _ => false) = false) :
    varDefCount (stmt :: t) name = varDefCount t name := by
  simp [varDefCount, List.filter_cons, h]

theorem firstVarInfo_cons_skip (stmt : TopLevelStatement) (t : List TopLevelStatement)
    (name : String)
    (h : (match stmt with | .dataVarDefinition n2 _ _ => n2 == name | _ => false) = false) :
    firstVarInfo (stmt :: t) name = firstVarInfo t name := by
  cases stmt <;> simp only [firstVarInfo, List.findSome?_cons] <;>
    first
      | rfl
      | (simp only at h; rw [h]; rfl)


theorem collect_var_master (name : String) :
    ∀ (body : List TopLevelStatement) (st : SemState),
      (((collectDeclarations body st).errors.filter
          (fun e => e == SemanticError.alreadyDefined .variableCat name)).length
        = ((st.errors.filter
            (fun e => e == SemanticError.alreadyDefined .variableCat name)).length
          + (if hasA st.env.vars name then varDefCount body name
             else varDefCount body name - 1))) ∧
      getA (collectDeclarations body st).env.vars name
        = (getA st.env.vars name).orElse (fun _ => firstVarInfo body name) := by
  intro body
  induction body with
  | nil =>
    intro st
    constructor
    · show (st.errors.filter _).length = _
      cases hA : hasA st.env.vars name <;> simp [varDefCount]
    · show getA st.env.vars name = _
      cases getA st.env.vars name <;> rfl
  | cons stmt t ih =>
    intro st
    cases stmt
    case dataVarDefinition n ty iv =>
      by_cases hn : (n == name) = true
      · have hn2 : n = name := by rwa [beq_iff_eq] at hn
        subst hn2
        by_cases hA : hasA st.env.vars n = true
        · have step : collectStatement st (.dataVarDefinition n ty iv)
              = addSemError st (.alreadyDefined .variableCat n) := by
            simp only [collectStatement]
            rw [if_pos hA]
          obtain ⟨ihc, ihg⟩ := ih (addSemError st (.alreadyDefined .variableCat n))
          constructor
          · rw [collectDeclarations_cons, step, ihc]
            have hAa : hasA (addSemError st
                (.alreadyDefined DefCategory.variableCat n)).env.vars n = true := hA
            rw [hAa, hA]
            simp [addSemError, List.filter_append, varDefCount, List.filter_cons]
            omega
          · rw [collectDeclarations_cons, step, ihg]
            obtain ⟨c0, hc⟩ : ∃ c0, getA st.env.vars n = some c0 := by
              rw [hasA_eq_isSome_getA] at hA
              cases hx : getA st.env.vars n with
              | none => rw [hx] at hA; cases hA
              | some c0 => exact ⟨c0, rfl⟩
            have hc2 : getA (addSemError st
                (.alreadyDefined DefCategory.variableCat n)).env.vars n = some c0 := hc
            rw [hc2, hc]
            rfl
        · have hA2 : hasA st.env.vars n = false := by
            rwa [Bool.not_eq_true] at hA
          have step : collectStatement st (.dataVarDefinition n ty iv)
              = { st with env := { st.env with vars := setA st.env.vars n ({ name := n, type := ty, initialValue := iv, mutable := true, accessed := false, modified := false } : VariableInfo) } } := by
            simp only [collectStatement]
            rw [if_neg hA]
          obtain ⟨ihc, ihg⟩ := ih (collectStatement st (.dataVarDefinition n ty iv))
          constructor
          · rw [collectDeclarations_cons, ihc, step]
            have hA3 : hasA ({ st with env := { st.env with vars := setA st.env.vars n ({ name := n, type := ty, initialValue := iv, mutable := true, accessed := false, modified := false } : VariableInfo) } } : SemState).env.vars n = true := by
              rw [hasA_eq_isSome_getA, setA_getA_self]
              rfl
            rw [hA3, hA2]
            simp [varDefCount, List.filter_cons]
          · rw [collectDeclarations_cons, ihg, step]
            have hset : getA ({ st with env := { st.env with vars := setA st.env.vars n ({ name := n, type := ty, initialValue := iv, mutable := true, accessed := false, modified := false } : VariableInfo) } } : SemState).env.vars n = some ({ name := n, type := ty, initialValue := iv, mutable := true, accessed := false, modified := false } : VariableInfo) := setA_getA_self _ _ _
            have hnone : getA st.env.vars n = none := by
              rw [hasA_eq_isSome_getA] at hA
              cases hx : getA st.env.vars n with
              | none => rfl
              | some c0 => rw [hx] at hA; simp at hA
            rw [hset, hnone]
            simp [Option.orElse, firstVarInfo, List.findSome?_cons]
      · have hfalse : (match (TopLevelStatement.dataVarDefinition n ty iv) with
            | .dataVarDefinition n2 _ _ => n2 == name
            | _ => false) = false := by
          simpa using hn
        obtain ⟨hg, hc⟩ := collectStatement_var_frame st (TopLevelStatement.dataVarDefinition n ty iv) name hfalse
        obtain ⟨ihc, ihg⟩ := ih (collectStatement st (TopLevelStatement.dataVarDefinition n ty iv))
        have hsame : hasA (collectStatement st (TopLevelStatement.dataVarDefinition n ty iv)).env.vars name
            = hasA st.env.vars name := by
          rw [hasA_eq_isSome_getA, hasA_eq_isSome_getA, hg]
        constructor
        · rw [collectDeclarations_cons, ihc, hc, hsame,
              varDefCount_cons_skip (TopLevelStatement.dataVarDefinition n ty iv) t name hfalse]
        · rw [collectDeclarations_cons, ihg, hg,
              firstVarInfo_cons_skip (TopLevelStatement.dataVarDefinition n ty iv) t name hfalse]
    case functionDefinition a1 a2 a3 a4 =>
      have hfalse : (match (TopLevelStatement.functionDefinition a1 a2 a3 a4) with
          | .dataVarDefinition n2 _ _ => n2 == name
          | _ => false) = false := rfl
      obtain ⟨hg, hc⟩ := collectStatement_var_frame st (TopLevelStatement.functionDefinition a1 a2 a3 a4) name hfalse
      obtain ⟨ihc, ihg⟩ := ih (collectStatement st (TopLevelStatement.functionDefinition a1 a2 a3 a4))
      have hsame : hasA (collectStatement st (TopLevelStatement.functionDefinition a1 a2 a3 a4)).env.vars name
          = hasA st.env.vars name := by
        rw [hasA_eq_isSome_getA, hasA_eq_isSome_getA, hg]
      constructor
      · rw [collectDeclarations_cons, ihc, hc, hsame,
            varDefCount_cons_skip (TopLevelStatement.functionDefinition a1 a2 a3 a4) t name hfalse]
      · rw [collectDeclarations_cons, ihg, hg,
            firstVarInfo_cons_skip (TopLevelStatement.functionDefinition a1 a2 a3 a4) t name hfalse]
    case constantDefinition a1 a2 =>
      have hfalse : (match (TopLevelStatement.constantDefinition a1 a2) with
          | .dataVarDefinition n2 _ _ => n2 == name
          | _ => false) = false := rfl
      obtain ⟨hg, hc⟩ := collectStatement_var_frame st (TopLevelStatement.constantDefinition a1 a2) name hfalse
      obtain ⟨ihc, ihg⟩ := ih (collectStatement st (TopLevelStatement.constantDefinition a1 a2))
      have hsame : hasA (collectStatement st (TopLevelStatement.constantDefinition a1 a2)).env.vars name
          = hasA st.env.vars name := by
        rw [hasA_eq_isSome_getA, hasA_eq_isSome_getA, hg]
      constructor
      · rw [collectDeclarations_cons, ihc, hc, hsame,
            varDefCount_cons_skip (TopLevelStatement.constantDefinition a1 a2) t name hfalse]
      · rw [collectDeclarations_cons, ihg, hg,
            firstVarInfo_cons_skip (TopLevelStatement.constantDefinition a1 a2) t name hfalse]
    case mapDefinition a1 a2 a3 =>
      have hfalse : (match (TopLevelStatement.mapDefinition a1 a2 a3) with
          | .dataVarDefinition n2 _ _ => n2 == name
          | _ => false) = false := rfl
      obtain ⟨hg, hc⟩ := collectStatement_var_frame st (TopLevelStatement.mapDefinition a1 a2 a3) name hfalse
      obtain ⟨ihc, ihg⟩ := ih (collectStatement st (TopLevelStatement.mapDefinition a1 a2 a3))
      have hsame : hasA (collectStatement st (TopLevelStatement.mapDefinition a1 a2 a3)).env.vars name
          = hasA st.env.vars name := by
        rw [hasA_eq_isSome_getA, hasA_eq_isSome_getA, hg]
      constructor
      · rw [collectDeclarations_cons, ihc, hc, hsame,
            varDefCount_cons_skip (TopLevelStatement.mapDefinition a1 a2 a3) t name hfalse]
      · rw [collectDeclarations_cons, ihg, hg,
            firstVarInfo_cons_skip (TopLevelStatement.mapDefinition a1 a2 a3) t name hfalse]
    case nftDefinition a1 a2 =>
      have hfalse : (match (TopLevelStatement.nftDefinition a1 a2) with
          | .dataVarDefinition n2 _ _ => n2 == name
          | _ => false) = false := rfl
      obtain ⟨hg, hc⟩ := collectStatement_var_frame st (TopLevelStatement.nftDefinition a1 a2) name hfalse
      obtain ⟨ihc, ihg⟩ := ih (collectStatement st (TopLevelStatement.nftDefinition a1 a2))
      have hsame : hasA (collectStatement st (TopLevelStatement.nftDefinition a1 a2)).env.vars name
          = hasA st.env.vars name := by
        rw [hasA_eq_isSome_getA, hasA_eq_isSome_getA, hg]
      constructor
      · rw [collectDeclarations_cons, ihc, hc, hsame,
            varDefCount_cons_skip (TopLevelStatement.nftDefinition a1 a2) t name hfalse]
      · rw [collectDeclarations_cons, ihg, hg,
            firstVarInfo_cons_skip (TopLevelStatement.nftDefinition a1 a2) t name hfalse]
    case ftDefinition a1 a2 =>
      have hfalse : (match (TopLevelStatement.ftDefinition a1 a2) with
          | .dataVarDefinition n2 _ _ => n2 == name
          | _ => false) = false := rfl
      obtain ⟨hg, hc⟩ := collectStatement_var_frame st (TopLevelStatement.ftDefinition a1 a2) name hfalse
      obtain ⟨ihc, ihg⟩ := ih (collectStatement st (TopLevelStatement.ftDefinition a1 a2))
      have hsame : hasA (collectStatement st (TopLevelStatement.ftDefinition a1 a2)).env.vars name
          = hasA st.env.vars name := by
        rw [hasA_eq_isSome_getA, hasA_eq_isSome_getA, hg]
      constructor
      · rw [collectDeclarations_cons, ihc, hc, hsame,
            varDefCount_cons_skip (TopLevelStatement.ftDefinition a1 a2) t name hfalse]
      · rw [collectDeclarations_cons, ihg, hg,
            firstVarInfo_cons_skip (TopLevelStatement.ftDefinition a1 a2) t name hfalse]
    case traitDefinition a1 =>
      have hfalse : (match (TopLevelStatement.traitDefinition a1) with
          | .dataVarDefinition n2 _ _ => n2 == name
          | _ => false) = false := rfl
      obtain ⟨hg, hc⟩ := collectStatement_var_frame st (TopLevelStatement.traitDefinition a1) name hfalse
      obtain ⟨ihc, ihg⟩ := ih (collectStatement st (TopLevelStatement.traitDefinition a1))
      have hsame : hasA (collectStatement st (TopLevelStatement.traitDefinition a1)).env.vars name
          = hasA st.env.vars name := by
        rw [hasA_eq_isSome_getA, hasA_eq_isSome_getA, hg]
      constructor
      · rw [collectDeclarations_cons, ihc, hc, hsame,
            varDefCount_cons_skip (TopLevelStatement.traitDefinition a1) t name hfalse]
      · rw [collectDeclarations_cons, ihg, hg,
            firstVarInfo_cons_skip (TopLevelStatement.traitDefinition a1) t name hfalse]
    case useTrait a1 a2 =>
      have hfalse : (match (TopLevelStatement.useTrait a1 a2) with
          | .dataVarDefinition n2 _ _ => n2 == name
          | _ => false) = false := rfl
      obtain ⟨hg, hc⟩ := collectStatement_var_frame st (TopLevelStatement.useTrait a1 a2) name hfalse
      obtain ⟨ihc, ihg⟩ := ih (collectStatement st (TopLevelStatement.useTrait a1 a2))
      have hsame : hasA (collectStatement st (TopLevelStatement.useTrait a1 a2)).env.vars name
          = hasA st.env.vars name := by
        rw [hasA_eq_isSome_getA, hasA_eq_isSome_getA, hg]
      constructor
      · rw [collectDeclarations_cons, ihc, hc, hsame,
            varDefCount_cons_skip (TopLevelStatement.useTrait a1 a2) t name hfalse]
      · rw [collectDeclarations_cons, ihg, hg,
            firstVarInfo_cons_skip (TopLevelStatement.useTrait a1 a2) t name hfalse]
    case implTrait a1 a2 =>
      have hfalse : (match (TopLevelStatement.implTrait a1 a2) with
          | .dataVarDefinition n2 _ _ => n2 == name
          | _ => false) = false := rfl
      obtain ⟨hg, hc⟩ := collectStatement_var_frame st (TopLevelStatement.implTrait a1 a2) name hfalse
      obtain ⟨ihc, ihg⟩ := ih (collectStatement st (TopLevelStatement.implTrait a1 a2))
      have hsame : hasA (collectStatement st (TopLevelStatement.implTrait a1 a2)).env.vars name
          = hasA st.env.vars name := by
        rw [hasA_eq_isSome_getA, hasA_eq_isSome_getA, hg]
      constructor
      · rw [collectDeclarations_cons, ihc, hc, hsame,
            varDefCount_cons_skip (TopLevelStatement.implTrait a1 a2) t name hfalse]
      · rw [collectDeclarations_cons, ihg, hg,
            firstVarInfo_cons_skip (TopLevelStatement.implTrait a1 a2) t name hfalse]


/-- Count of top-level trait definitions of a given name. -/
def traitDefCount (body : List TopLevelStatement) (name : String) : Nat :=
  (body.filter (fun s => match s with
    | .traitDefinition n2 => n2 == name
    | _ => false)).length

/-- The record phase 1 builds for the first trait definition of a
given name. -/
def firstTraitInfo (body : List TopLevelStatement) (name : String) : Option TraitInfo :=
  body.findSome? (fun s => match s with
    | TopLevelStatement.traitDefinition n =>
        if n == name then some ({ name := n } : TraitInfo) else none
    | _ => none)


theorem collectStatement_trait_frame (st : SemState) (stmt : TopLevelStatement)
    (name : String)
    (h : (match stmt with | .traitDefinition n2 => n2 == name | _ => false) = false) :
    getA (collectStatement st stmt).env.traits name = getA st.env.traits name ∧
    ((collectStatement st stmt).errors.filter
       (fun e => e == SemanticError.alreadyDefined .traitCat name)).length
      = (st.errors.filter
          (fun e => e == SemanticError.alreadyDefined .traitCat name)).length := by
  cases stmt
  case functionDefinition a1 a2 a3 a4 =>
    simp only [collectStatement]
    split
    · exact ⟨rfl, by simp [addSemError, List.filter_append, beq_iff_eq]⟩
    · exact ⟨rfl, rfl⟩
  case constantDefinition a1 a2 =>
    simp only [collectStatement]
    split
    · exact ⟨rfl, by simp [addSemError, List.filter_append, beq_iff_eq]⟩
    · exact ⟨rfl, rfl⟩
  case mapDefinition a1 a2 a3 =>
    simp only [collectStatement]
    split
    · exact ⟨rfl, by simp [addSemError, List.filter_append, beq_iff_eq]⟩
    · exact ⟨rfl, rfl⟩
  case dataVarDefinition a1 a2 a3 =>
    simp only [collectStatement]
    split
    · exact ⟨rfl, by simp [addSemError, List.filter_append, beq_iff_eq]⟩
    · exact ⟨rfl, rfl⟩
  case traitDefinition a1 =>
    have hne : ¬ a1 = name := by simpa using h
    simp only [collectStatement]
    split
    · exact ⟨rfl, by simp [addSemError, List.filter_append, beq_iff_eq, hne]⟩
    · exact ⟨setA_getA_ne _ _ _ _ (beq_false_symm (by simpa using h)), rfl⟩
  all_goals exact ⟨rfl, rfl⟩

theorem traitDefCount_cons_skip (stmt : TopLevelStatement) (t : List TopLevelStatement)
    (name : String)
    (h : (match stmt with | .traitDefinition n2 => n2 == name | _ => false) = false) :
    traitDefCount (stmt :: t) name = traitDefCount t name := by
  simp [traitDefCount, List.filter_cons, h]

theorem firstTraitInfo_cons_skip (stmt : TopLevelStatement) (t : List TopLevelStatement)
    (name : String)
    (h : (match stmt with | .traitDefinition n2 => n2 == name | _ => false) = false) :
    firstTraitInfo (stmt :: t) name = firstTraitInfo t name := by
  cases stmt <;> simp only [firstTraitInfo, List.findSome?_cons] <;>
    first
      | rfl
      | (simp only at h; rw [h]; rfl)


theorem collect_trait_master (name : String) :
    ∀ (body : List TopLevelStatement) (st : SemState),
      (((collectDeclarations body st).errors.filter
          (fun e => e == SemanticError.alreadyDefined .traitCat name)).length
        = ((st.errors.filter
            (fun e => e == SemanticError.alreadyDefined .traitCat name)).length
          + (if hasA st.env.traits name then traitDefCount body name
             else traitDefCount body name - 1))) ∧
      getA (collectDeclarations body st).env.traits name
        = (getA st.env.traits name).orElse (fun _ => firstTraitInfo body name) := by
  intro body
  induction body with
  | nil =>
    intro st
    constructor
    · show (st.errors.filter _).length = _
      cases hA : hasA st.env.traits name <;> simp [traitDefCount]
    · show getA st.env.traits name = _
      cases getA st.env.traits name <;> rfl
  | cons stmt t ih =>
    intro st
    cases stmt
    case traitDefinition n =>
      by_cases hn : (n == name) = true
      · have hn2 : n = name := by rwa [beq_iff_eq] at hn
        subst hn2
        by_cases hA : hasA st.env.traits n = true
        · have step : collectStatement st (.traitDefinition n)
              = addSemError st (.alreadyDefined .traitCat n) := by
            simp only [collectStatement]
            rw [if_pos hA]
          obtain ⟨ihc, ihg⟩ := ih (addSemError st (.alreadyDefined .traitCat n))
          constructor
          · rw [collectDeclarations_cons, step, ihc]
            have hAa : hasA (addSemError st
                (.alreadyDefined DefCategory.traitCat n)).env.traits n = true := hA
            rw [hAa, hA]
            simp [addSemError, List.filter_append, traitDefCount, List.filter_cons]
            omega
          · rw [collectDeclarations_cons, step, ihg]
            obtain ⟨c0, hc⟩ : ∃ c0, getA st.env.traits n = some c0 := by
              rw [hasA_eq_isSome_getA] at hA
              cases hx : getA st.env.traits n with
              | none => rw [hx] at hA; cases hA
              | some c0 => exact ⟨c0, rfl⟩
            have hc2 : getA (addSemError st
                (.alreadyDefined DefCategory.traitCat n)).env.traits n = some c0 := hc
            rw [hc2, hc]
            rfl
        · have hA2 : hasA st.env.traits n = false := by
            rwa [Bool.not_eq_true] at hA
          have step : collectStatement st (.traitDefinition n)
              = { st with env := { st.env with traits := setA st.env.traits n ({ name := n } : TraitInfo) } } := by
            simp only [collectStatement]
            rw [if_neg hA]
          obtain ⟨ihc, ihg⟩ := ih (collectStatement st (.traitDefinition n))
          constructor
          · rw [collectDeclarations_cons, ihc, step]
            have hA3 : hasA ({ st with env := { st.env with traits := setA st.env.traits n ({ name := n } : TraitInfo) } } : SemState).env.traits n = true := by
              rw [hasA_eq_isSome_getA, setA_getA_self]
              rfl
            rw [hA3, hA2]
            simp [traitDefCount, List.filter_cons]
          · rw [collectDeclarations_cons, ihg, step]
            have hset : getA ({ st with env := { st.env with traits := setA st.env.traits n ({ name := n } : TraitInfo) } } : SemState).env.traits n = some ({ name := n } : TraitInfo) := setA_getA_self _ _ _
            have hnone : getA st.env.traits n = none := by
              rw [hasA_eq_isSome_getA] at hA
              cases hx : getA st.env.traits n with
              | none => rfl
              | some c0 => rw [hx] at hA; simp at hA
            rw [hset, hnone]
            simp [Option.orElse, firstTraitInfo, List.findSome?_cons]
      · have hfalse : (match (TopLevelStatement.traitDefinition n) with
            | .traitDefinition n2 => n2 == name
            | _ => false) = false := by
          simpa using hn
        obtain ⟨hg, hc⟩ := collectStatement_trait_frame st (TopLevelStatement.traitDefinition n) name hfalse
        obtain ⟨ihc, ihg⟩ := ih (collectStatement st (TopLevelStatement.traitDefinition n))
        have hsame : hasA (collectStatement st (TopLevelStatement.traitDefinition n)).env.traits name
            = hasA st.env.traits name := by
          rw [hasA_eq_isSome_getA, hasA_eq_isSome_getA, hg]
        constructor
        · rw [collectDeclarations_cons, ihc, hc, hsame,
              traitDefCount_cons_skip (TopLevelStatement.traitDefinition n) t name hfalse]
        · rw [collectDeclarations_cons, ihg, hg,
              firstTraitInfo_cons_skip (TopLevelStatement.traitDefinition n) t name hfalse]
    case functionDefinition a1 a2 a3 a4 =>
      have hfalse : (match (TopLevelStatement.functionDefinition a1 a2 a3 a4) with
          | .traitDefinition n2 => n2 == name
          | _ => false) = false := rfl
      obtain ⟨hg, hc⟩ := collectStatement_trait_frame st (TopLevelStatement.functionDefinition a1 a2 a3 a4) name hfalse
      obtain ⟨ihc, ihg⟩ := ih (collectStatement st (TopLevelStatement.functionDefinition a1 a2 a3 a4))
      have hsame : hasA (collectStatement st (TopLevelStatement.functionDefinition a1 a2 a3 a4)).env.traits name
          = hasA st.env.traits name := by
        rw [hasA_eq_isSome_getA, hasA_eq_isSome_getA, hg]
      constructor
      · rw [collectDeclarations_cons, ihc, hc, hsame,
            traitDefCount_cons_skip (TopLevelStatement.functionDefinition a1 a2 a3 a4) t name hfalse]
      · rw [collectDeclarations_cons, ihg, hg,
            firstTraitInfo_cons_skip (TopLevelStatement.functionDefinition a1 a2 a3 a4) t name hfalse]
    case constantDefinition a1 a2 =>
      have hfalse : (match (TopLevelStatement.constantDefinition a1 a2) with
          | .traitDefinition n2 => n2 == name
          | _ => false) = false := rfl
      obtain ⟨hg, hc⟩ := collectStatement_trait_frame st (TopLevelStatement.constantDefinition a1 a2) name hfalse
      obtain ⟨ihc, ihg⟩ := ih (collectStatement st (TopLevelStatement.constantDefinition a1 a2))
      have hsame : hasA (collectStatement st (TopLevelStatement.constantDefinition a1 a2)).env.traits name
          = hasA st.env.traits name := by
        rw [hasA_eq_isSome_getA, hasA_eq_isSome_getA, hg]
      constructor
      · rw [collectDeclarations_cons, ihc, hc, hsame,
            traitDefCount_cons_skip (TopLevelStatement.constantDefinition a1 a2) t name hfalse]
      · rw [collectDeclarations_cons, ihg, hg,
            firstTraitInfo_cons_skip (TopLevelStatement.constantDefinition a1 a2) t name hfalse]
    case mapDefinition a1 a2 a3 =>
      have hfalse : (match (TopLevelStatement.mapDefinition a1 a2 a3) with
          | .traitDefinition n2 => n2 == name
          | _ => false) = false := rfl
      obtain ⟨hg, hc⟩ := collectStatement_trait_frame st (TopLevelStatement.mapDefinition a1 a2 a3) name hfalse
      obtain ⟨ihc, ihg⟩ := ih (collectStatement st (TopLevelStatement.mapDefinition a1 a2 a3))
      have hsame : hasA (collectStatement st (TopLevelStatement.mapDefinition a1 a2 a3)).env.traits name
          = hasA st.env.traits name := by
        rw [hasA_eq_isSome_getA, hasA_eq_isSome_getA, hg]
      constructor
      · rw [collectDeclarations_cons, ihc, hc, hsame,
            traitDefCount_cons_skip (TopLevelStatement.mapDefinition a1 a2 a3) t name hfalse]
      · rw [collectDeclarations_cons, ihg, hg,
            firstTraitInfo_cons_skip (TopLevelStatement.mapDefinition a1 a2 a3) t name hfalse]
    case dataVarDefinition a1 a2 a3 =>
      have hfalse : (match (TopLevelStatement.dataVarDefinition a1 a2 a3) with
          | .traitDefinition n2 => n2 == name
          | _ => false) = false := rfl
      obtain ⟨hg, hc⟩ := collectStatement_trait_frame st (TopLevelStatement.dataVarDefinition a1 a2 a3) name hfalse
      obtain ⟨ihc, ihg⟩ := ih (collectStatement st (TopLevelStatement.dataVarDefinition a1 a2 a3))
      have hsame : hasA (collectStatement st (TopLevelStatement.dataVarDefinition a1 a2 a3)).env.traits name
          = hasA st.env.traits name := by
        rw [hasA_eq_isSome_getA, hasA_eq_isSome_getA, hg]
      constructor
      · rw [collectDeclarations_cons, ihc, hc, hsame,
            traitDefCount_cons_skip (TopLevelStatement.dataVarDefinition a1 a2 a3) t name hfalse]
      · rw [collectDeclarations_cons, ihg, hg,
            firstTraitInfo_cons_skip (TopLevelStatement.dataVarDefinition a1 a2 a3) t name hfalse]
    case nftDefinition a1 a2 =>
      have hfalse : (match (TopLevelStatement.nftDefinition a1 a2) with
          | .traitDefinition n2 => n2 == name
          | _ => false) = false := rfl
      obtain ⟨hg, hc⟩ := collectStatement_trait_frame st (TopLevelStatement.nftDefinition a1 a2) name hfalse
      obtain ⟨ihc, ihg⟩ := ih (collectStatement st (TopLevelStatement.nftDefinition a1 a2))
      have hsame : hasA (collectStatement st (TopLevelStatement.nftDefinition a1 a2)).env.traits name
          = hasA st.env.traits name := by
        rw [hasA_eq_isSome_getA, hasA_eq_isSome_getA, hg]
      constructor
      · rw [collectDeclarations_cons, ihc, hc, hsame,
            traitDefCount_cons_skip (TopLevelStatement.nftDefinition a1 a2) t name hfalse]
      · rw [collectDeclarations_cons, ihg, hg,
            firstTraitInfo_cons_skip (TopLevelStatement.nftDefinition a1 a2) t name hfalse]
    case ftDefinition a1 a2 =>
      have hfalse : (match (TopLevelStatement.ftDefinition a1 a2) with
          | .traitDefinition n2 => n2 == name
          | _ => false) = false := rfl
      obtain ⟨hg, hc⟩ := collectStatement_trait_frame st (TopLevelStatement.ftDefinition a1 a2) name hfalse
      obtain ⟨ihc, ihg⟩ := ih (collectStatement st (TopLevelStatement.ftDefinition a1 a2))
      have hsame : hasA (collectStatement st (TopLevelStatement.ftDefinition a1 a2)).env.traits name
          = hasA st.env.traits name := by
        rw [hasA_eq_isSome_getA, hasA_eq_isSome_getA, hg]
      constructor
      · rw [collectDeclarations_cons, ihc, hc, hsame,
            traitDefCount_cons_skip (TopLevelStatement.ftDefinition a1 a2) t name hfalse]
      · rw [collectDeclarations_cons, ihg, hg,
            firstTraitInfo_cons_skip (TopLevelStatement.ftDefinition a1 a2) t name hfalse]
    case useTrait a1 a2 =>
      have hfalse : (match (TopLevelStatement.useTrait a1 a2) with
          | .traitDefinition n2 => n2 == name
          | _ => false) = false := rfl
      obtain ⟨hg, hc⟩ := collectStatement_trait_frame st (TopLevelStatement.useTrait a1 a2) name hfalse
      obtain ⟨ihc, ihg⟩ := ih (collectStatement st (TopLevelStatement.useTrait a1 a2))
      have hsame : hasA (collectStatement st (TopLevelStatement.useTrait a1 a2)).env.traits name
          = hasA st.env.traits name := by
        rw [hasA_eq_isSome_getA, hasA_eq_isSome_getA, hg]
      constructor
      · rw [collectDeclarations_cons, ihc, hc, hsame,
            traitDefCount_cons_skip (TopLevelStatement.useTrait a1 a2) t name hfalse]
      · rw [collectDeclarations_cons, ihg, hg,
            firstTraitInfo_cons_skip (TopLevelStatement.useTrait a1 a2) t name hfalse]
    case implTrait a1 a2 =>
      have hfalse : (match (TopLevelStatement.implTrait a1 a2) with
          | .traitDefinition n2 => n2 == name
          | _ => false) = false := rfl
      obtain ⟨hg, hc⟩ := collectStatement_trait_frame st (TopLevelStatement.implTrait a1 a2) name hfalse
      obtain ⟨ihc, ihg⟩ := ih (collectStatement st (TopLevelStatement.implTrait a1 a2))
      have hsame : hasA (collectStatement st (TopLevelStatement.implTrait a1 a2)).env.traits name
          = hasA st.env.traits name := by
        rw [hasA_eq_isSome_getA, hasA_eq_isSome_getA, hg]
      constructor
      · rw [collectDeclarations_cons, ihc, hc, hsame,
            traitDefCount_cons_skip (TopLevelStatement.implTrait a1 a2) t name hfalse]
      · rw [collectDeclarations_cons, ihg, hg,
            firstTraitInfo_cons_skip (TopLevelStatement.implTrait a1 a2) t name hfalse]


theorem undefOnly_no_dup (tail : List SemanticError) (h : undefOnly tail = true)
    (cat : DefCategory) (name : String) :
    (tail.filter (fun e => e == SemanticError.alreadyDefined cat name)).length = 0 := by
  induction tail with
  | nil => rfl
  | cons e t ih =>
    simp only [undefOnly, List.all_cons, Bool.and_eq_true] at h
    obtain ⟨he, ht2⟩ := h
    cases e with
    | undefinedIdentifier m =>
      simp only [List.filter_cons]
      have : ((SemanticError.undefinedIdentifier m)
          == SemanticError.alreadyDefined cat name) = false := by
        simp [beq_iff_eq]
      rw [this]
      exact ih (by simpa [undefOnly] using ht2)
    | alreadyDefined c2 m => cases he

/-- **C8** (confirmed): for every program and every top-level name, in
each of the five definition categories: semantic analysis reports
exactly `count − 1` duplicate-definition errors for that name (so a name
defined twice yields exactly one), the final type environment retains
the *first* definition's record for the name (later definitions never
override it — usage flags aside, which phase 2 may set), and analysis
continues past the duplicates: the later phases still run, appending
only undefined-identifier errors to the duplicate errors of phase 1. -/
theorem analyze_duplicate_definitions (ast : ClarityAst) (name : String) :
    (((analyze ast).errors.filter
        (fun e => e == SemanticError.alreadyDefined .functionCat name)).length
      = funcDefCount ast.body name - 1 ∧
     getA (analyze ast).typeEnvironment.functions name = firstFuncSig ast.body name) ∧
    (((analyze ast).errors.filter
        (fun e => e == SemanticError.alreadyDefined .constantCat name)).length
      = constDefCount ast.body name - 1 ∧
     (getA (analyze ast).typeEnvironment.constants name).map (fun c => (c.type, c.value))
      = (firstConstInfo ast.body name).map (fun c => (c.type, c.value))) ∧
    (((analyze ast).errors.filter
        (fun e => e == SemanticError.alreadyDefined .mapCat name)).length
      = mapDefCount ast.body name - 1 ∧
     (getA (analyze ast).typeEnvironment.maps name).map (fun m => (m.keyType, m.valueType))
      = (firstMapInfo ast.body name).map (fun m => (m.keyType, m.valueType))) ∧
    (((analyze ast).errors.filter
        (fun e => e == SemanticError.alreadyDefined .variableCat name)).length
      = varDefCount ast.body name - 1 ∧
     (getA (analyze ast).typeEnvironment.vars name).map
        (fun v => (v.type, v.initialValue, v.mutable))
      = (firstVarInfo ast.body name).map (fun v => (v.type, v.initialValue, v.mutable))) ∧
    (((analyze ast).errors.filter
        (fun e => e == SemanticError.alreadyDefined .traitCat name)).length
      = traitDefCount ast.body name - 1 ∧
     getA (analyze ast).typeEnvironment.traits name = firstTraitInfo ast.body name) ∧
    (∃ tail, (analyze ast).errors
        = (collectDeclarations ast.body
            { env := emptyTypeEnvironment, errors := [], warnings := [] }).errors ++ tail ∧
      undefOnly tail = true) := by
  obtain ⟨⟨tail, htail, hundef⟩, hf, ht, hc, hv, hm⟩ :=
    analyzeExpressionsPhase_phase2 ast.body
      (collectDeclarations ast.body { env := emptyTypeEnvironment, errors := [], warnings := [] })
  have hU := performUsageAnalysis_preserves ast.body
    (analyzeExpressionsPhase ast.body
      (collectDeclarations ast.body { env := emptyTypeEnvironment, errors := [], warnings := [] }))
  have hErr : (analyze ast).errors
      = (analyzeExpressionsPhase ast.body (collectDeclarations ast.body
          { env := emptyTypeEnvironment, errors := [], warnings := [] })).errors := hU.1
  have hEnv : (analyze ast).typeEnvironment
      = (analyzeExpressionsPhase ast.body (collectDeclarations ast.body
          { env := emptyTypeEnvironment, errors := [], warnings := [] })).env := hU.2
  have countOf : ∀ (cat : DefCategory),
      ((analyze ast).errors.filter
          (fun e => e == SemanticError.alreadyDefined cat name)).length
        = (((collectDeclarations ast.body
            { env := emptyTypeEnvironment, errors := [], warnings := [] }).errors.filter
              (fun e => e == SemanticError.alreadyDefined cat name)).length) := by
    intro cat
    rw [hErr, htail, List.filter_append, List.length_append,
        undefOnly_no_dup tail hundef cat name]
    rfl
  refine ⟨⟨?_, ?_⟩, ⟨?_, ?_⟩, ⟨?_, ?_⟩, ⟨?_, ?_⟩, ⟨?_, ?_⟩, ?_⟩
  · rw [countOf, (collect_func_master name ast.body _).1]
    simp [hasA, emptyTypeEnvironment]
  · rw [hEnv, hf, (collect_func_master name ast.body _).2]
    rfl
  · rw [countOf, (collect_const_master name ast.body _).1]
    simp [hasA, emptyTypeEnvironment]
  · rw [hEnv, hc, (collect_const_master name ast.body _).2]
    rfl
  · rw [countOf, (collect_map_master name ast.body _).1]
    simp [hasA, emptyTypeEnvironment]
  · rw [hEnv, hm, (collect_map_master name ast.body _).2]
    rfl
  · rw [countOf, (collect_var_master name ast.body _).1]
    simp [hasA, emptyTypeEnvironment]
  · rw [hEnv, hv, (collect_var_master name ast.body _).2]
    rfl
  · rw [countOf, (collect_trait_master name ast.body _).1]
    simp [hasA, emptyTypeEnvironment]
  · rw [hEnv, ht, (collect_trait_master name ast.body _).2]
    rfl
  · exact ⟨tail, hErr.trans htail, hundef⟩

end ClarityAudit
